import Mathlib

/-!
Verification development for the geo-buf polygon buffering engine
(straight-skeleton based offsetting).

The Rust sources under src/ (`lib.rs`, `skeleton/mod.rs`) are embedded
shallowly: `f64` is modelled by the real numbers, mutation by explicit
state passing, and the unbounded simulation loop by a fuel parameter.
The helper modules `util`, `vertex_queue` and `priority_queue` belong to
the repository but are not present under src/; their operations are
modelled from the specification (each such definition carries a doc
comment starting with `Modelled from the spec:`).
-/

namespace SSkel

noncomputable section

open scoped Classical

/-- Modelled from the spec: the fixed absolute tolerance ε (suggested 1e-9)
used by every approximate comparison (spec section 3). -/
def eps : ℝ := 1 / 1000000000

/-- Modelled from the spec: approximate equality of scalars, |a−b| < ε
(spec section 4.1; the Rust helper `feq` lives in the missing util module). -/
def feq (a b : ℝ) : Prop := |a - b| < eps

/-- Modelled from the spec: negation of the approximate equality `feq`. -/
def fneq (a b : ℝ) : Prop := ¬ feq a b

/-- Modelled from the spec: approximate less-or-equal, a < b or a ≈ b. -/
def fleq (a b : ℝ) : Prop := a < b ∨ feq a b

/-- Modelled from the spec: approximate greater-or-equal, a > b or a ≈ b. -/
def fgeq (a b : ℝ) : Prop := b < a ∨ feq a b

/-- Modelled from the spec: a coordinate is a pair of reals (spec section 3). -/
structure Coordinate where
  x : ℝ
  y : ℝ

instance : Inhabited Coordinate := ⟨⟨0, 0⟩⟩

def Coordinate.add (a b : Coordinate) : Coordinate := ⟨a.x + b.x, a.y + b.y⟩

def Coordinate.sub (a b : Coordinate) : Coordinate := ⟨a.x - b.x, a.y - b.y⟩

def Coordinate.neg (a : Coordinate) : Coordinate := ⟨-a.x, -a.y⟩

/-- Scalar multiple of a coordinate (direction vector). -/
def Coordinate.scale (t : ℝ) (a : Coordinate) : Coordinate := ⟨t * a.x, t * a.y⟩

/-- Division of a direction vector by a scalar, as in `r3.angle / d`. -/
def Coordinate.divScalar (a : Coordinate) (t : ℝ) : Coordinate := ⟨a.x / t, a.y / t⟩

/-- Modelled from the spec: cross product of two direction vectors
(`outer_product` of the missing util module, spec section 4.1). -/
def Coordinate.outer_product (a b : Coordinate) : ℝ := a.x * b.y - a.y * b.x

/-- Euclidean norm of a coordinate viewed as a vector. -/
def Coordinate.norm (a : Coordinate) : ℝ := Real.sqrt (a.x ^ 2 + a.y ^ 2)

/-- Modelled from the spec: Euclidean distance between two coordinates. -/
def Coordinate.dist_coord (a b : Coordinate) : ℝ := (a.sub b).norm

/-- Modelled from the spec: rescaling of a vector to unit length. -/
def Coordinate.normalize (a : Coordinate) : Coordinate := a.divScalar a.norm

/-- Modelled from the spec: approximate equality of coordinates, both
components within ε (spec section 3; `Coordinate` equality in Rust). -/
def Coordinate.aeq (a b : Coordinate) : Prop := feq a.x b.x ∧ feq a.y b.y

/-- Modelled from the spec: a ray is an origin plus a (non-normalized)
direction vector (spec section 3). -/
structure Ray where
  origin : Coordinate
  angle : Coordinate

instance : Inhabited Ray := ⟨⟨default, default⟩⟩

/-- Modelled from the spec: ray construction from origin and target,
angle = target − origin (spec section 4.1). -/
def Ray.new (o target : Coordinate) : Ray := ⟨o, target.sub o⟩

/-- Modelled from the spec: the point origin + t·angle on the ray. -/
def Ray.point_by_ratio (r : Ray) (t : ℝ) : Coordinate := r.origin.add (Coordinate.scale t r.angle)

/-- Modelled from the spec: ray reversal negates the direction vector. -/
def Ray.reverse (r : Ray) : Ray := ⟨r.origin, r.angle.neg⟩

/-- Modelled from the spec: two rays are parallel when the cross product of
their angles is zero within ε (spec section 3). -/
def Ray.is_parallel (r s : Ray) : Prop := feq (r.angle.outer_product s.angle) 0

/-- Modelled from the spec: orthogonal distance from a point to the ray's
supporting line (spec section 4.1). -/
def Coordinate.dist_ray (p : Coordinate) (r : Ray) : ℝ :=
  |r.angle.outer_product (p.sub r.origin)| / r.angle.norm

/-- Parameter t with r.origin + t·r.angle on the supporting line of s. -/
def Ray.interParam (r s : Ray) : ℝ :=
  ((s.origin.sub r.origin).outer_product s.angle) / (r.angle.outer_product s.angle)

/-- Modelled from the spec: line intersection point of two rays; the caller
checks parallelism first (spec section 4.1). -/
def Ray.intersect (r s : Ray) : Coordinate := r.point_by_ratio (r.interParam s)

/-- Modelled from the spec: whether two trajectory rays meet, i.e. their
supporting lines are non-parallel and the meeting point lies forward
(parameter ≥ 0) on both half-lines (spec sections 3 and 4.4: a trajectory
ray intersects that of its neighbour). -/
def Ray.is_intersect (r s : Ray) : Prop :=
  ¬ r.is_parallel s ∧ 0 ≤ r.interParam s ∧ 0 ≤ s.interParam r

/-- Modelled from the spec: signed orientation of a point relative to a ray:
+1 left, −1 right, 0 when on the supporting line within ε (spec section 4.1). -/
def Ray.orientation (r : Ray) (p : Coordinate) : ℤ :=
  if |r.angle.outer_product (p.sub r.origin)| < eps * r.angle.norm then 0
  else if 0 < r.angle.outer_product (p.sub r.origin) then 1 else -1

/-- Modelled from the spec: the angle-bisector ray of two rays at a common
point, its direction chosen in the wavefront-propagation half-plane selected
by the orientation flag (spec sections 3 and 4.1): the sum of the two unit
direction vectors, negated when it falls on the wrong side of the second ray
(left of the second ray for inward propagation, right for outward). -/
def Ray.bisector (r s : Ray) (p : Coordinate) (o : Bool) : Ray :=
  let d0 := r.angle.normalize.add s.angle.normalize
  let d := if o then (if s.angle.outer_product d0 < 0 then d0.neg else d0)
           else (if 0 < s.angle.outer_product d0 then d0.neg else d0)
  ⟨p, d⟩

/-- A geo `LineString` is its list of coordinates. -/
abbrev LineString : Type := List Coordinate

instance : Inhabited LineString := ⟨([] : List Coordinate)⟩

/-- A geo `Polygon`: an exterior ring and a list of interior rings. -/
structure GPolygon where
  exterior : LineString
  interiors : List LineString

/-- A geo `MultiPolygon` is a list of polygons. -/
abbrev MultiPolygon : Type := List GPolygon

/-- Closing of a line string as in geo: append the first coordinate when the
first and last coordinates are not (exactly) equal. -/
def lsClose (l : List Coordinate) : List Coordinate :=
  match l with
  | [] => []
  | c :: _ => if (c :: l.tail).getLast (by simp) = c then l else l ++ [c]

/-- Construction of a geo polygon: all rings are closed. -/
def gPolygonNew (ext : List Coordinate) (ints : List (List Coordinate)) : GPolygon :=
  ⟨lsClose ext, ints.map lsClose⟩

/-- Embedding of `buffer_point` from src/lib.rs: the n-gon approximation of
the disk of the given radius around the point, empty for a negative radius.
The coordinates are pushed for i = 0..=resolution with θ = i·τ/resolution. -/
def buffer_point (p : Coordinate) (distance : ℝ) (resolution : ℕ) : GPolygon :=
  if distance < 0 then ⟨[], []⟩
  else
    gPolygonNew
      ((List.range (resolution + 1)).map (fun i : ℕ =>
        ⟨p.x + distance * Real.cos ((i : ℝ) * (2 * Real.pi) / (resolution : ℝ)),
         p.y + distance * Real.sin ((i : ℝ) * (2 * Real.pi) / (resolution : ℝ))⟩))
      []

/-- The two addressing modes of the active vertex queue (spec section 3):
a pointer-index refers to a slot, a real-index to a vertex-table record. -/
inductive IndexType where
  | PointerIndex (i : ℕ)
  | RealIndex (i : ℕ)
deriving DecidableEq

instance : Inhabited IndexType := ⟨IndexType.PointerIndex 0⟩

/-- The inner integer of an index, as `IndexType::get_index`. -/
def IndexType.get_index : IndexType → ℕ
  | .PointerIndex i => i
  | .RealIndex i => i

/-- Modelled from the spec: a slot of the active vertex queue holds the
real-index currently occupying it, its left/right neighbour slots and a
done flag (spec section 3, the missing vertex_queue module). -/
structure QSlot where
  index : ℕ
  left : ℕ
  right : ℕ
  done : Bool
deriving DecidableEq

instance : Inhabited QSlot := ⟨⟨0, 0, 0, false⟩⟩

/-- Modelled from the spec: the active vertex queue, a doubly-linked circular
list of slots addressed by stable pointer-indices; here the pointer-index of
a slot is its position in `content`, which `cleanup` never changes (spec
section 4.3: retained slots keep their pointer-indices). -/
structure VertexQueue where
  content : List QSlot
deriving DecidableEq

/-- The slot stored at a pointer-index. -/
def VertexQueue.slotAt (q : VertexQueue) (p : ℕ) : QSlot := q.content.getD p default

/-- Replace the slot at a pointer-index. -/
def VertexQueue.setSlot (q : VertexQueue) (p : ℕ) (f : QSlot → QSlot) : VertexQueue :=
  ⟨q.content.set p (f (q.slotAt p))⟩

/-- Modelled from the spec: left neighbour pointer-index (operation lv). -/
def VertexQueue.lv (q : VertexQueue) (it : IndexType) : IndexType :=
  IndexType.PointerIndex (q.slotAt it.get_index).left

/-- Modelled from the spec: right neighbour pointer-index (operation rv). -/
def VertexQueue.rv (q : VertexQueue) (it : IndexType) : IndexType :=
  IndexType.PointerIndex (q.slotAt it.get_index).right

/-- Modelled from the spec: resolve an index to the real-index it denotes;
a pointer-index reads the slot, a real-index is already resolved. -/
def VertexQueue.get_real_index (q : VertexQueue) (it : IndexType) : ℕ :=
  match it with
  | .PointerIndex p => (q.slotAt p).index
  | .RealIndex r => r

/-- Modelled from the spec: `remove_and_set(from, new_real)` unlinks slot
`from`, assigns `new_real` to the right neighbour slot and returns that
survivor slot (spec section 4.3). -/
def VertexQueue.remove_and_set (q : VertexQueue) (frm : IndexType) (new_real : IndexType) :
    VertexQueue × IndexType :=
  let fp := frm.get_index
  let l := (q.slotAt fp).left
  let r := (q.slotAt fp).right
  let q1 := q.setSlot l (fun s => { s with right := r })
  let q2 := q1.setSlot r (fun s => { s with left := l, index := new_real.get_index })
  let q3 := q2.setSlot fp (fun s => { s with done := true })
  (q3, IndexType.PointerIndex r)

/-- Modelled from the spec: `split_and_set(anchor, struck, left_real,
right_real)` clones the struck slot into a fresh slot, assigns the new
real-indices and re-wires the links so that the anchor's loop is cut into
two loops sharing the split point; returns (left slot, right slot)
(spec section 4.3). -/
def VertexQueue.split_and_set (q : VertexQueue) (frm into : IndexType)
    (left_real right_real : IndexType) : VertexQueue × IndexType × IndexType :=
  let a := frm.get_index
  let s := into.get_index
  let n := q.content.length
  let ra := (q.slotAt a).right
  let rs := (q.slotAt s).right
  let q1 : VertexQueue := ⟨q.content ++ [⟨right_real.get_index, s, ra, false⟩]⟩
  let q2 := q1.setSlot a (fun t => { t with right := rs, index := left_real.get_index })
  let q3 := q2.setSlot rs (fun t => { t with left := a })
  let q4 := q3.setSlot s (fun t => { t with right := n })
  let q5 := q4.setSlot ra (fun t => { t with left := n })
  (q5, IndexType.PointerIndex a, IndexType.PointerIndex n)

/-- Modelled from the spec: `cleanup` compacts the storage of done slots
while retained slots keep their pointer-indices (spec section 4.3); on this
pointer-indexed view it therefore has no observable effect. -/
def VertexQueue.cleanup (q : VertexQueue) : VertexQueue := q

/-- Successor slot along the right links. -/
def VertexQueue.cycSucc (q : VertexQueue) (p : ℕ) : ℕ := (q.slotAt p).right

/-- Walk of a cycle of slots from a start, with fuel bounding the length. -/
def cycleWalk (q : VertexQueue) (start : ℕ) : ℕ → ℕ → List ℕ
  | 0, _ => []
  | fuel + 1, cur => if cur = start then [] else cur :: cycleWalk q start fuel (q.cycSucc cur)

/-- The cycle of slots through a given start slot, following right links. -/
def VertexQueue.cycleFrom (q : VertexQueue) (start : ℕ) : List ℕ :=
  start :: cycleWalk q start q.content.length (q.cycSucc start)

/-- Helper for `iter`: visit the loops whose canonical (smallest) slot has
not been visited yet, in increasing order of canonical slot. -/
def iterGo (q : VertexQueue) : List ℕ → List ℕ → List (ℕ × IndexType × ℕ)
  | [], _ => []
  | p :: rest, visited =>
    if p ∈ visited ∨ (q.slotAt p).done then iterGo q rest visited
    else
      let cyc := q.cycleFrom p
      cyc.map (fun s => (p, IndexType.PointerIndex s, (q.slotAt s).index))
        ++ iterGo q rest (visited ++ cyc)

/-- Modelled from the spec: `iter` produces (loop id, pointer-index,
real-index) triples across all non-done slots, loop by loop along the
right links (spec section 4.3; `apply_vertex_queue` groups the triples by
the first component to assemble rings). -/
def VertexQueue.iter (q : VertexQueue) : List (ℕ × IndexType × ℕ) :=
  iterGo q (List.range q.content.length) []

/-- Embedding of the vertex-table record type `VertexType` from
src/src/skeleton/mod.rs; the absent-parent sentinel `usize::MAX` is
modelled by `Option`. -/
inductive VertexType where
  | Tree (axis left_ray right_ray : Ray) (parent : Option ℕ) (time_elapsed : ℝ)
  | Split (anchor : ℕ) (location : Coordinate) (split_left split_right : ℕ) (time_elapsed : ℝ)
  | Root (location : Coordinate) (time_elapsed : ℝ)

instance : Inhabited VertexType := ⟨VertexType.Root default 0⟩

/-- The location of a record, as `VertexType::inner_location`. -/
def VertexType.inner_location : VertexType → Coordinate
  | .Tree axis _ _ _ _ => axis.origin
  | .Split _ location _ _ _ => location
  | .Root location _ => location

/-- The creation time of a record, as `VertexType::time_elapsed`. -/
def VertexType.time_elapsed : VertexType → ℝ
  | .Tree _ _ _ _ t => t
  | .Split _ _ _ _ t => t
  | .Root _ t => t

/-- Whether a record is a `Tree` record. -/
def VertexType.isTree : VertexType → Prop
  | .Tree _ _ _ _ _ => True
  | _ => False

/-- The trajectory ray of a `Tree` record, as `VertexType::unwrap_ray`;
on the other variants the Rust code panics, modelled by a default value
(the reachability of the panic is refuted separately). -/
def VertexType.unwrap_ray : VertexType → Ray
  | .Tree axis _ _ _ _ => axis
  | _ => default

/-- The two incident edge rays of a `Tree` record, as
`VertexType::unwrap_base_ray`; panic modelled by a default value. -/
def VertexType.unwrap_base_ray : VertexType → Ray × Ray
  | .Tree _ left_ray right_ray _ _ => (left_ray, right_ray)
  | _ => default

/-- Parent assignment on a `Tree` record, as `VertexType::set_parent`;
on the other variants the Rust code panics, modelled as the identity. -/
def VertexType.set_parent (v : VertexType) (nparent : ℕ) : VertexType :=
  match v with
  | .Tree axis l r _ t => .Tree axis l r (some nparent) t
  | v => v

/-- Embedding of `VertexType::init_tree_vertex`: the initial Tree vertex for
a boundary vertex cv with neighbours lv, rv: two rays from cv to the
neighbours, the bisector ray along which the vertex moves, its direction
divided by the distance of its parameter-1 point from the right edge ray
(speed normalization). -/
def init_tree_vertex (lv cv rv : Coordinate) (orient : Bool) : VertexType :=
  let r1 := Ray.new cv lv
  let r2 := Ray.new cv rv
  let r3 := r1.bisector r2 cv orient
  let axis : Ray := ⟨r3.origin, r3.angle.divScalar ((r3.point_by_ratio 1).dist_ray r2)⟩
  .Tree axis r1 r2 none 0

/-- Embedding of `VertexType::new_tree_vertex`: a Tree vertex created at an
event location from two edge rays; the bisector direction is divided by the
absolute difference of the distances of its parameter-1 and parameter-0
points from the left ray, and the creation time is the distance of the
location from the left ray. -/
def new_tree_vertex (location : Coordinate) (left_ray right_ray : Ray) (orient : Bool) :
    VertexType :=
  let axis0 := left_ray.bisector right_ray location orient
  let axis : Ray := ⟨axis0.origin, axis0.angle.divScalar
    |(axis0.point_by_ratio 1).dist_ray left_ray - (axis0.point_by_ratio 0).dist_ray left_ray|⟩
  let time_elapsed := axis.origin.dist_ray left_ray
  .Tree axis left_ray right_ray none time_elapsed

/-- The polygon exchange type used by the entry points: an exterior ring and
interior rings, each a closed coordinate list whose last coordinate repeats
the first (spec section 6). -/
structure Polygon where
  exterior : List Coordinate
  interiors : List (List Coordinate)

/-- One loop of initial Tree vertices, as the loops of
`VertexType::initialize_from_polygon` (indices taken modulo the ring length
with the closing repeat not indexed). -/
def loopVertices (ring : List Coordinate) (orient : Bool) : List VertexType :=
  let len := ring.length - 1
  (List.range len).map (fun cur =>
    init_tree_vertex (ring.getD ((cur + len - 1) % len) default)
      (ring.getD cur default) (ring.getD ((cur + 1) % len) default) orient)

/-- Embedding of `VertexType::initialize_from_polygon`: initial Tree
vertices for the exterior ring followed by those of each interior ring. -/
def initialize_from_polygon (p : Polygon) (orient : Bool) : List VertexType :=
  loopVertices p.exterior orient ++ (p.interiors.map (fun r => loopVertices r orient)).flatten

/-- Modelled from the spec: the slots of one boundary loop, allocated 1:1
with the loop's vertices and linked to their cycle neighbours (operation
init of spec section 4.3). -/
def loopSlots (offset n : ℕ) : List QSlot :=
  (List.range n).map (fun i => ⟨offset + i, offset + (i + n - 1) % n, offset + (i + 1) % n, false⟩)

/-- Modelled from the spec: the initial active vertex queue of a polygon,
one cycle of slots per boundary loop, slot i holding real-index i. -/
def vqInitFromPolygon (p : Polygon) : VertexQueue :=
  ⟨loopSlots 0 (p.exterior.length - 1) ++
    (p.interiors.foldl (fun (acc : List QSlot × ℕ) r =>
      (acc.1 ++ loopSlots acc.2 (r.length - 1), acc.2 + (r.length - 1)))
      ([], p.exterior.length - 1)).1⟩

/-- Embedding of the event-log record type `Event` from
src/src/skeleton/mod.rs. -/
inductive Event where
  | VertexEvent (time : ℝ) (merge_from merge_to : ℕ)
  | EdgeEvent (time : ℝ) (split_from split_into split_to_left split_to_right : ℕ)

/-- The firing time of a logged event, as `Event::unwrap_time`. -/
def Event.unwrap_time : Event → ℝ
  | .VertexEvent t _ _ => t
  | .EdgeEvent t _ _ _ _ => t

/-- Embedding of the scheduling-queue record type `Timeline` from
src/src/skeleton/mod.rs. -/
inductive Timeline where
  | ShrinkEvent (time : ℝ) (location : Coordinate) (left_vertex right_vertex : IndexType)
      (left_real right_real : ℕ) (tie_break : ℝ)
  | SplitEvent (time : ℝ) (location : Coordinate) (anchor_vertex : IndexType) (anchor_real : ℕ)

/-- The scheduled time of a Timeline event. -/
def Timeline.time : Timeline → ℝ
  | .ShrinkEvent t _ _ _ _ _ _ => t
  | .SplitEvent t _ _ _ => t

/-- Comparison of reals as Rust `partial_cmp` on non-NaN floats. -/
def rcmp (a b : ℝ) : Ordering :=
  if a < b then .lt else if b < a then .gt else .eq

/-- Comparison of naturals as Rust `partial_cmp` on usize. -/
def ncmp (a b : ℕ) : Ordering :=
  if a < b then .lt else if b < a then .gt else .eq

/-- Modelled from the spec: coordinates compare lexicographically, x before y
(the ordering key's location component, spec section 3). -/
def coordCmp (a b : Coordinate) : Ordering :=
  (rcmp a.x b.x).then (rcmp a.y b.y)

/-- Comparison of index values as a derived Rust `PartialOrd`: pointer
indices order before real indices, then by the inner integer. -/
def idxCmp (a b : IndexType) : Ordering :=
  match a, b with
  | .PointerIndex i, .PointerIndex j => ncmp i j
  | .PointerIndex _, .RealIndex _ => .lt
  | .RealIndex _, .PointerIndex _ => .gt
  | .RealIndex i, .RealIndex j => ncmp i j

/-- The tie-break tuple of a Timeline event used by `Timeline::partial_cmp`
when the times are approximately equal: the kind bit (split 0, shrink 1),
the shrink tie-break distance, the location, and the participant
real-indices. -/
def Timeline.tieKey : Timeline → ℕ × ℝ × Coordinate × ℕ × ℕ
  | .ShrinkEvent _ location _ _ left_real right_real tie_break =>
      (1, tie_break, location, left_real, right_real)
  | .SplitEvent _ location _ anchor_real => (0, 0, location, anchor_real, anchor_real)

/-- Embedding of `Timeline::partial_cmp`: order by time when the times
differ by at least ε, otherwise lexicographically by the tie-break tuple. -/
def Timeline.cmp (a b : Timeline) : Ordering :=
  if fneq a.time b.time then rcmp a.time b.time
  else
    (ncmp a.tieKey.1 b.tieKey.1).then
      ((rcmp a.tieKey.2.1 b.tieKey.2.1).then
        ((coordCmp a.tieKey.2.2.1 b.tieKey.2.2.1).then
          ((ncmp a.tieKey.2.2.2.1 b.tieKey.2.2.2.1).then
            (ncmp a.tieKey.2.2.2.2 b.tieKey.2.2.2.2))))

/-- Modelled from the spec: extraction of the next event from the scheduling
priority queue (spec section 4.2: pop in the strict order given by the
comparable key); the leftmost minimal element is removed, the rest keep
their order. -/
def popMin : List Timeline → Option (Timeline × List Timeline)
  | [] => none
  | t :: rest =>
    match popMin rest with
    | none => some (t, [])
    | some (m, r) => if Timeline.cmp m t = .lt then some (m, t :: r) else some (t, rest)

/-- A split-search candidate: (time, location, struck slot, struck real). -/
abbrev Cand : Type := ℝ × Coordinate × IndexType × ℕ

/-- Lexicographic comparison of split-search candidates, as the derived
tuple ordering used by the sort in `find_split_vertex`. -/
def candCmp (a b : Cand) : Ordering :=
  (rcmp a.1 b.1).then ((coordCmp a.2.1 b.2.1).then
    ((idxCmp a.2.2.1 b.2.2.1).then (ncmp a.2.2.2 b.2.2.2)))

/-- Stable insertion into a sorted candidate list. -/
def insertCand (a : Cand) : List Cand → List Cand
  | [] => [a]
  | b :: rest => if candCmp b a = .gt then a :: b :: rest else b :: insertCand a rest

/-- Stable ascending sort of the candidate list, as `sort_by` in
`find_split_vertex`. -/
def sortCands (l : List Cand) : List Cand := l.foldl (fun acc a => insertCand a acc) []

/-- The body of the candidate loop of `Skeleton::find_split_vertex` for one
queue triple: skip edges incident to the anchor, compute the locus where the
anchor's trajectory meets the moving struck edge, apply the initial-scan or
rescan side filters, and emit (time, location, slot, real). -/
def splitCandFor (q : VertexQueue) (vv : List VertexType) (is_init orient : Bool)
    (cv : IndexType) (cv_real : ℕ) (left_ray right_ray : Ray)
    (trip : ℕ × IndexType × ℕ) : Option Cand :=
  let sv := trip.2.1
  let sv_real := trip.2.2
  let srv := q.rv sv
  let srv_real := q.get_real_index srv
  if sv = cv ∨ sv = q.rv cv ∨ srv = cv ∨ srv = q.lv cv then none
  else
    let base_ray := (vv.getD sv_real default).unwrap_base_ray.2
    let axisRay := (vv.getD cv_real default).unwrap_ray
    let realInt : Option Coordinate :=
      if left_ray.is_parallel base_ray then
        let right_intersection :=
          if right_ray.is_parallel base_ray then (default : Coordinate)
          else right_ray.intersect base_ray
        let ri_ray := base_ray.reverse |> (right_ray.bisector · right_intersection (!orient))
        if ri_ray.is_intersect axisRay then some (ri_ray.intersect axisRay) else none
      else
        let left_intersection := left_ray.intersect base_ray
        let li_ray := left_ray.bisector base_ray left_intersection orient
        if li_ray.is_intersect axisRay then some (li_ray.intersect axisRay) else none
    match realInt with
    | none => none
    | some ri =>
      if is_init then
        if orient = true ∧ base_ray.orientation ri < 0 then none
        else if orient = false ∧ 0 < base_ray.orientation ri then none
        else some (ri.dist_ray right_ray, ri, sv, sv_real)
      else if orient then
        if 0 ≤ ((vv.getD sv_real default).unwrap_ray).orientation ri then none
        else if base_ray.orientation ri < 0 then none
        else if ((vv.getD srv_real default).unwrap_ray).orientation ri < 0 then none
        else some (ri.dist_ray right_ray, ri, sv, sv_real)
      else
        if ((vv.getD sv_real default).unwrap_ray).orientation ri ≤ 0 then none
        else if 0 < base_ray.orientation ri then none
        else if 0 < ((vv.getD srv_real default).unwrap_ray).orientation ri then none
        else some (ri.dist_ray right_ray, ri, sv, sv_real)

/-- Embedding of `Skeleton::find_split_vertex`: empty unless the anchor is
reflex; otherwise the filtered, time-sorted candidate list, truncated to the
first candidate on a rescan (is_init = false). -/
def find_split_vertex (cv : IndexType) (q : VertexQueue) (vv : List VertexType)
    (is_init orient : Bool) : List Cand :=
  let cv_real := q.get_real_index cv
  let left_ray := (vv.getD cv_real default).unwrap_base_ray.1
  let right_ray := (vv.getD cv_real default).unwrap_base_ray.2
  if orient = true ∧ fleq (left_ray.angle.outer_product right_ray.angle) 0 then []
  else if orient = false ∧ fgeq (left_ray.angle.outer_product right_ray.angle) 0 then []
  else
    let sorted := sortCands
      (q.iter.filterMap (splitCandFor q vv is_init orient cv cv_real left_ray right_ray))
    match sorted with
    | [] => []
    | c :: _ => if is_init then sorted else [c]

/-- The shrink event scheduled for the pair (lv, rv(lv)) when their
trajectory rays meet: time is the distance of the meeting point from lv's
left edge ray, tie-break the distance between the two trajectory origins
(the loop body of `Skeleton::make_shrink_event`). -/
def shrinkEventFor (q : VertexQueue) (vv : List VertexType) (lv : IndexType) : Option Timeline :=
  let rv := q.rv lv
  let lv_real := q.get_real_index lv
  let rv_real := q.get_real_index rv
  let lv_ray := (vv.getD lv_real default).unwrap_ray
  let rv_ray := (vv.getD rv_real default).unwrap_ray
  if lv_ray.is_intersect rv_ray then
    let cp := lv_ray.intersect rv_ray
    some (.ShrinkEvent (cp.dist_ray (vv.getD lv_real default).unwrap_base_ray.1) cp lv rv
      lv_real rv_real (lv_ray.origin.dist_coord rv_ray.origin))
  else none

/-- Embedding of `Skeleton::make_shrink_event`: no event when the slot's
loop has only two members; otherwise the event for (cv, rv(cv)), and on a
non-initial call also the event for (lv(cv), cv). The returned list is
pushed onto the scheduling queue. -/
def make_shrink_event (cv : IndexType) (q : VertexQueue) (vv : List VertexType)
    (is_init : Bool) : List Timeline :=
  if q.rv cv = q.lv cv then []
  else if is_init then (shrinkEventFor q vv cv).toList
  else (shrinkEventFor q vv cv).toList ++ (shrinkEventFor q vv (q.lv cv)).toList

/-- Embedding of `Skeleton::make_split_event`: one split event per
initial-scan candidate of `find_split_vertex`. -/
def make_split_event (cv : IndexType) (q : VertexQueue) (vv : List VertexType)
    (orient : Bool) : List Timeline :=
  (find_split_vertex cv q vv true orient).map
    (fun c => .SplitEvent c.1 c.2.1 cv (q.get_real_index cv))

/-- Embedding of `Skeleton::apply_event`: a vertex event removes the
merged-from slot and installs the new real-index on the survivor, marking
the last two slots done when the loop has collapsed; an edge event splits
the loop. Returns the updated queue with the survivor indices. -/
def apply_event (q : VertexQueue) (e : Event) : VertexQueue × Option IndexType × Option IndexType :=
  match e with
  | .VertexEvent _ merge_from merge_to =>
    let res := q.remove_and_set (.PointerIndex merge_from) (.RealIndex merge_to)
    let q1 := res.1
    let cv := res.2
    if q1.lv cv = q1.rv cv then
      let lvp := q1.lv cv
      let q2 := q1.setSlot lvp.get_index (fun s => { s with done := true })
      let q3 := q2.setSlot cv.get_index (fun s => { s with done := true })
      (q3, some (.RealIndex ((q3.slotAt ((q3.lv cv).get_index)).index)), none)
    else (q1, some cv, none)
  | .EdgeEvent _ split_from split_into split_to_left split_to_right =>
    let res := q.split_and_set (.PointerIndex split_from) (.PointerIndex split_into)
      (.RealIndex split_to_left) (.RealIndex split_to_right)
    (res.1.cleanup, some res.2.1, some res.2.2)

/-- The state of the simulation driver `init_pq`: the vertex table, the
scheduling queue, the active vertex queue and the event log. -/
structure SimState where
  vv : List VertexType
  pq : List Timeline
  q : VertexQueue
  log : List Event

/-- Processing of one popped Timeline event, as the body of the while loop
of `init_pq`: the staleness check, then for a shrink event the allocation of
the merged vertex, parent assignment, queue update (with Root promotion on
loop collapse) and rescheduling; for a split event the rescan guard, the
allocation of the two children and the Split record, queue split and
rescheduling. Stale or invalidated events leave the state unchanged. -/
def processEvent (orient : Bool) (s : SimState) (x : Timeline) : SimState :=
  match x with
  | .ShrinkEvent time location left_vertex right_vertex left_real right_real _ =>
    if (s.q.slotAt left_vertex.get_index).done = true
        ∨ (s.q.slotAt right_vertex.get_index).done = true
        ∨ s.q.get_real_index left_vertex ≠ left_real
        ∨ s.q.get_real_index right_vertex ≠ right_real then s
    else
      let new_index := s.vv.length
      let left_ray := (s.vv.getD left_real default).unwrap_base_ray.1
      let right_ray := (s.vv.getD right_real default).unwrap_base_ray.2
      let vv1 := s.vv.set left_real ((s.vv.getD left_real default).set_parent new_index)
      let vv2 := vv1.set right_real ((vv1.getD right_real default).set_parent new_index)
      let new_event := Event.VertexEvent time left_vertex.get_index new_index
      let vv3 := vv2 ++ [new_tree_vertex location left_ray right_ray orient]
      match apply_event s.q new_event with
      | (q1, some (.RealIndex rv), none) =>
        let vv4 := vv3.set rv ((vv3.getD rv default).set_parent new_index)
        let vv5 := vv4.set new_index
          (.Root (vv4.getD new_index default).inner_location (vv4.getD new_index default).time_elapsed)
        { vv := vv5, pq := s.pq, q := q1.cleanup, log := s.log ++ [new_event] }
      | (q1, some cvp, none) =>
        { vv := vv3, pq := s.pq ++ make_shrink_event cvp q1 vv3 false,
          q := q1.cleanup, log := s.log ++ [new_event] }
      | _ => s
  | .SplitEvent time location anchor_vertex anchor_real =>
    if (s.q.slotAt anchor_vertex.get_index).done = true
        ∨ s.q.get_real_index anchor_vertex ≠ anchor_real then s
    else
      let q0 := s.q.cleanup
      match find_split_vertex anchor_vertex q0 s.vv false orient with
      | [c] =>
        if feq c.1 time ∧ c.2.1.aeq location then
          let new_index1 := s.vv.length
          let new_index2 := new_index1 + 1
          let new_split_vertex := VertexType.Split anchor_real location new_index1 new_index2
            ((s.vv.getD anchor_real default).time_elapsed)
          let ntv1 := new_tree_vertex location ((s.vv.getD anchor_real default).unwrap_base_ray.1)
            ((s.vv.getD c.2.2.2 default).unwrap_base_ray.2) orient
          let ntv2 := new_tree_vertex location
            ((s.vv.getD c.2.2.2 default).unwrap_base_ray.2.reverse)
            ((s.vv.getD anchor_real default).unwrap_base_ray.2) orient
          let vv1 := s.vv ++ [ntv1, ntv2, new_split_vertex]
          let new_event := Event.EdgeEvent time anchor_vertex.get_index c.2.2.1.get_index
            new_index1 new_index2
          match apply_event q0 new_event with
          | (q1, some cv1, some cv2) =>
            let vv2 := vv1.set anchor_real ((vv1.getD anchor_real default).set_parent (new_index2 + 1))
            { vv := vv2,
              pq := s.pq ++ make_shrink_event cv1 q1 vv2 false
                ++ make_shrink_event cv2 q1 vv2 false,
              q := q1.cleanup, log := s.log ++ [new_event] }
          | _ => s
        else { s with q := q0.cleanup }
      | _ => { s with q := q0.cleanup }

/-- The while loop of `init_pq`, with fuel bounding the number of pops. -/
def simLoop (orient : Bool) : ℕ → SimState → SimState
  | 0, s => s
  | fuel + 1, s =>
    match popMin s.pq with
    | none => s
    | some (x, rest) => simLoop orient fuel (processEvent orient ⟨s.vv, rest, s.q, s.log⟩ x)

/-- The initial population of the scheduling queue in `init_pq`: for each
active vertex, its initial shrink event followed by its split events. -/
def initialEvents (orient : Bool) (vv : List VertexType) (q : VertexQueue) : List Timeline :=
  q.iter.foldl (fun acc trip =>
    acc ++ make_shrink_event trip.2.1 q vv true ++ make_split_event trip.2.1 q vv orient) []

/-- Embedding of `init_pq`: run the event simulation from the initial state
to exhaustion of the scheduling queue (bounded by fuel), returning the final
state; its log and the untouched initial queue feed the `Skeleton`. -/
def init_pq (orient : Bool) (vv : List VertexType) (q : VertexQueue) (fuel : ℕ) : SimState :=
  simLoop orient fuel ⟨vv, initialEvents orient vv q, q, []⟩

/-- Embedding of the `Skeleton` structure: the vertex table, the event log
and the initial snapshot of the active vertex queue. -/
structure Skeleton where
  ray_vector : List VertexType
  event_queue : List Event
  initial_vertex_queue : VertexQueue

/-- Embedding of `Skeleton::skeleton_of_polygon` (with explicit fuel for
the simulation loop). -/
def skeleton_of_polygon (p : Polygon) (orient : Bool) (fuel : ℕ) : Skeleton :=
  let vv := initialize_from_polygon p orient
  let q := vqInitFromPolygon p
  let s := init_pq orient vv q fuel
  ⟨s.vv, s.log, q⟩

/-- The replay loop of `Skeleton::get_vertex_queue`: apply each logged event
whose time is at most d, with a cleanup after each, stopping at the first
later event. -/
def replayGo (d : ℝ) : VertexQueue → List Event → VertexQueue
  | q, [] => q
  | q, e :: rest =>
    if e.unwrap_time ≤ d then replayGo d ((apply_event q e).1).cleanup rest else q

/-- Embedding of `Skeleton::get_vertex_queue`. -/
def Skeleton.get_vertex_queue (s : Skeleton) (time_elapsed : ℝ) : VertexQueue :=
  replayGo time_elapsed s.initial_vertex_queue s.event_queue

/-- The output coordinate of one active vertex at offset distance d:
its trajectory point at parameter d − time_elapsed. -/
def emitCoord (vv : List VertexType) (d : ℝ) (idx : ℕ) : Coordinate :=
  ((vv.getD idx default).unwrap_ray).point_by_ratio (d - (vv.getD idx default).time_elapsed)

/-- The ring-assembly loop of `Skeleton::apply_vertex_queue`: emit the
coordinates of the iterated triples, closing a ring whenever the loop id
changes and at the end. -/
def ringsGo (vv : List VertexType) (d : ℝ) :
    List (ℕ × IndexType × ℕ) → Option ℕ → List Coordinate → List LineString
  | [], none, _ => []
  | [], some _, crdv => [lsClose crdv]
  | (vidx, _, idx) :: rest, none, _ => ringsGo vv d rest (some vidx) [emitCoord vv d idx]
  | (vidx, _, idx) :: rest, some cv, crdv =>
    if vidx = cv then ringsGo vv d rest (some cv) (crdv ++ [emitCoord vv d idx])
    else lsClose crdv :: ringsGo vv d rest (some vidx) [emitCoord vv d idx]

/-- The winding order of a ring. -/
inductive WindingOrder where
  | ccw
  | cw
deriving DecidableEq

/-- Twice the signed area of a closed ring (shoelace sum over consecutive
coordinate pairs). -/
def shoelace2 : List Coordinate → ℝ
  | a :: b :: rest => a.outer_product b + shoelace2 (b :: rest)
  | _ => 0

/-- Modelled from the spec: classification of rings by signed area,
counter-clockwise for positive, clockwise for negative, indeterminate for
zero (spec section 4.5; the geo `winding_order` method is external to the
repository). -/
def winding_order (l : List Coordinate) : Option WindingOrder :=
  if 0 < shoelace2 l then some .ccw else if shoelace2 l < 0 then some .cw else none

/-- Crossing count of a horizontal leftward ray from c with the edges of a
ring (consecutive coordinate pairs), for the even-odd point-in-ring rule. -/
def crossingsCount (c : Coordinate) : List Coordinate → ℕ
  | a :: b :: rest =>
    (if (¬ ((a.y ≤ c.y) ↔ (b.y ≤ c.y)))
        ∧ c.x < a.x + (b.x - a.x) * (c.y - a.y) / (b.y - a.y) then 1 else 0)
      + crossingsCount c (b :: rest)
  | _ => 0

/-- Even-odd membership of a point in the region bounded by a closed ring. -/
def pointInRing (ring : List Coordinate) (c : Coordinate) : Prop :=
  crossingsCount c ring % 2 = 1

/-- Modelled from the spec: containment of a ring in a polygon, used for
hole nesting (spec section 4.5; the geo `Contains` trait is external to the
repository): every coordinate of the ring lies in the polygon's region,
inside the exterior ring and outside each hole. -/
def gContainsLS (p : GPolygon) (ls : LineString) : Prop :=
  ls ≠ [] ∧ ∀ c ∈ ls, pointInRing p.exterior c ∧ ∀ h ∈ p.interiors, ¬ pointInRing h c

/-- The hole-assignment loop of `Skeleton::apply_vertex_queue`: a clockwise
ring is pushed onto the interiors of the first polygon that contains it;
when none does, the list is returned unchanged. -/
def assignCW (ls : LineString) : List GPolygon → List GPolygon
  | [] => []
  | p :: rest =>
    if gContainsLS p ls then { p with interiors := p.interiors ++ [ls] } :: rest
    else p :: assignCW ls rest

/-- The classification phase of `Skeleton::apply_vertex_queue`: the
counter-clockwise rings become polygons in order, then each clockwise ring
is assigned to the first polygon containing it. -/
def nestRings (lsv : List LineString) : List GPolygon :=
  let res0 := lsv.filterMap (fun ls =>
    if winding_order ls = some .ccw then some (⟨ls, []⟩ : GPolygon) else none)
  (lsv.filterMap (fun ls => if winding_order ls = some .cw then some ls else none)).foldl
    (fun res ls => assignCW ls res) res0

/-- Embedding of `Skeleton::apply_vertex_queue`. -/
def Skeleton.apply_vertex_queue (s : Skeleton) (vq : VertexQueue) (offset_distance : ℝ) :
    MultiPolygon :=
  nestRings (ringsGo s.ray_vector offset_distance vq.iter none [])

/-- Embedding of `buffer_polygon` from src/lib.rs (with explicit fuel):
orientation is inward exactly when the distance is negative, and the
skeleton is built and sampled at the absolute distance. -/
def buffer_polygon (fuel : ℕ) (input : Polygon) (distance : ℝ) : MultiPolygon :=
  let orientation := decide (distance < 0)
  let offset_distance := |distance|
  let skel := skeleton_of_polygon input orientation fuel
  let vq := skel.get_vertex_queue offset_distance
  skel.apply_vertex_queue vq offset_distance

/-! ### General helper lemmas -/

theorem eps_pos : 0 < eps := by norm_num [eps]

theorem feq_refl (a : ℝ) : feq a a := by simp [feq, eps_pos]

/-! ### Claim C8: buffer_point -/

theorem getD_map_range (f : ℕ → Coordinate) (n i : ℕ) (h : i < n) :
    ((List.range n).map f).getD i default = f i := by
  rw [List.getD_eq_getElem?_getD]
  simp [List.getElem?_range h]

theorem bp12_ext : (buffer_point ⟨0, 0⟩ (1 : ℝ) 12).exterior
    = (List.range 13).map (fun i : ℕ =>
        (⟨Real.cos ((i : ℝ) * (2 * Real.pi) / 12), Real.sin ((i : ℝ) * (2 * Real.pi) / 12)⟩ :
          Coordinate)) := by
  have h0 : ¬ ((1 : ℝ) < 0) := by norm_num
  have hc12 : (((12 : ℕ) : ℝ)) = (12 : ℝ) := by norm_num
  simp only [buffer_point, if_neg h0, gPolygonNew, zero_add, one_mul, hc12]
  have hrange : List.range 13 = [0, 1, 2, 3, 4, 5, 6, 7, 8, 9, 10, 11, 12] := rfl
  rw [hrange]
  simp only [List.map_cons, List.map_nil, lsClose, List.tail_cons, List.getLast]
  rw [if_pos]
  have e12 : (((12 : ℕ) : ℝ)) * (2 * Real.pi) / 12 = 2 * Real.pi := by push_cast; ring
  have e0 : (((0 : ℕ) : ℝ)) * (2 * Real.pi) / 12 = 0 := by push_cast; ring
  rw [e12, e0, Real.cos_two_pi, Real.sin_two_pi, Real.cos_zero, Real.sin_zero]

theorem circle12_inj {i j : ℕ} (hij : i < j) (hj : j < 12)
    (hc : Real.cos ((i : ℝ) * (2 * Real.pi) / 12) = Real.cos ((j : ℝ) * (2 * Real.pi) / 12))
    (hs : Real.sin ((i : ℝ) * (2 * Real.pi) / 12) = Real.sin ((j : ℝ) * (2 * Real.pi) / 12)) :
    False := by
  have hpi := Real.pi_pos
  have h1 : (1 : ℝ) ≤ (j : ℝ) - (i : ℝ) := by
    have : (i : ℝ) + 1 ≤ (j : ℝ) := by exact_mod_cast hij
    linarith
  have h11 : (j : ℝ) - (i : ℝ) ≤ 11 := by
    have hj11 : (j : ℝ) ≤ 11 := by exact_mod_cast Nat.lt_succ_iff.mp hj
    have hi0 : (0 : ℝ) ≤ (i : ℝ) := Nat.cast_nonneg i
    linarith
  set a := (i : ℝ) * (2 * Real.pi) / 12 with ha
  set b := (j : ℝ) * (2 * Real.pi) / 12 with hb
  have hd : b - a = ((j : ℝ) - (i : ℝ)) * (2 * Real.pi) / 12 := by rw [ha, hb]; ring
  have hlow : 0 < b - a := by rw [hd]; nlinarith
  have hhigh : b - a < 2 * Real.pi := by rw [hd]; nlinarith
  have hone : Real.cos (b - a) = 1 := by
    rw [Real.cos_sub, ← hc, ← hs]
    have := Real.sin_sq_add_cos_sq a
    nlinarith
  have := (Real.cos_eq_one_iff_of_lt_of_lt (by linarith) hhigh).mp hone
  linarith

/-- C8: buffer_point(Point(0,0), 1, 12) returns a polygon whose exterior
ring has exactly 13 coordinates, pairwise distinct among the first 12 with
the 13th repeating the first, each lying on the unit circle within ε; and
for every point, resolution and negative distance, buffer_point returns an
empty polygon whose exterior ring has size 0. -/
theorem buffer_point_spec :
    ((buffer_point ⟨0, 0⟩ (1 : ℝ) 12).exterior.length = 13
      ∧ (∀ c ∈ (buffer_point ⟨0, 0⟩ (1 : ℝ) 12).exterior, feq c.norm 1)
      ∧ (∀ i j : ℕ, i < j → j < 12 →
          (buffer_point ⟨0, 0⟩ (1 : ℝ) 12).exterior.getD i default
            ≠ (buffer_point ⟨0, 0⟩ (1 : ℝ) 12).exterior.getD j default)
      ∧ (buffer_point ⟨0, 0⟩ (1 : ℝ) 12).exterior.getD 12 default
          = (buffer_point ⟨0, 0⟩ (1 : ℝ) 12).exterior.getD 0 default)
    ∧ ∀ (p : Coordinate) (distance : ℝ) (n : ℕ), distance < 0 →
        (buffer_point p distance n).exterior.length = 0
          ∧ (buffer_point p distance n).interiors = [] := by
  constructor
  · rw [bp12_ext]
    refine ⟨by simp, ?_, ?_, ?_⟩
    · intro c hc
      simp only [List.mem_map] at hc
      obtain ⟨i, _, rfl⟩ := hc
      have hn : Coordinate.norm ⟨Real.cos ((i : ℝ) * (2 * Real.pi) / 12),
          Real.sin ((i : ℝ) * (2 * Real.pi) / 12)⟩ = 1 := by
        simp only [Coordinate.norm]
        rw [show Real.cos ((i : ℝ) * (2 * Real.pi) / 12) ^ 2
            + Real.sin ((i : ℝ) * (2 * Real.pi) / 12) ^ 2 = 1 from
          Real.cos_sq_add_sin_sq _]
        exact Real.sqrt_one
      rw [hn]
      exact feq_refl 1
    · intro i j hij hj
      rw [getD_map_range _ _ i (by omega), getD_map_range _ _ j (by omega)]
      intro h
      injection h with hx hy
      exact circle12_inj hij hj hx hy
    · rw [getD_map_range _ _ 12 (by norm_num), getD_map_range _ _ 0 (by norm_num)]
      have e12 : (((12 : ℕ) : ℝ)) * (2 * Real.pi) / 12 = 2 * Real.pi := by push_cast; ring
      have e0 : (((0 : ℕ) : ℝ)) * (2 * Real.pi) / 12 = 0 := by push_cast; ring
      rw [e12, e0]
      simp [Real.cos_two_pi, Real.sin_two_pi, Real.cos_zero, Real.sin_zero]
  · intro p distance n hneg
    simp [buffer_point, if_pos hneg]

/-! ### Claim C4: the Timeline scheduling order -/

/-- C4: in the scheduling-queue ordering, a split event orders strictly
before any shrink event whose time is equal within ε; when two times differ
by at least ε the earlier orders first; and remaining same-kind ties are
resolved lexicographically by (tie-break distance for shrink, location,
participant real-indices). -/
theorem timeline_cmp_spec :
    (∀ (t1 t2 : ℝ) (l1 l2 : Coordinate) (av lv rv : IndexType) (ar lr rr : ℕ) (tb : ℝ),
      feq t1 t2 →
        Timeline.cmp (.SplitEvent t1 l1 av ar) (.ShrinkEvent t2 l2 lv rv lr rr tb) = .lt
          ∧ Timeline.cmp (.ShrinkEvent t2 l2 lv rv lr rr tb) (.SplitEvent t1 l1 av ar) = .gt)
    ∧ (∀ a b : Timeline, fneq a.time b.time → a.time < b.time →
        Timeline.cmp a b = .lt ∧ Timeline.cmp b a = .gt)
    ∧ (∀ (t1 t2 : ℝ) (l1 l2 : Coordinate) (lv1 rv1 lv2 rv2 : IndexType)
        (lr1 rr1 lr2 rr2 : ℕ) (tb1 tb2 : ℝ), feq t1 t2 →
        Timeline.cmp (.ShrinkEvent t1 l1 lv1 rv1 lr1 rr1 tb1)
            (.ShrinkEvent t2 l2 lv2 rv2 lr2 rr2 tb2)
          = (rcmp tb1 tb2).then ((coordCmp l1 l2).then ((ncmp lr1 lr2).then (ncmp rr1 rr2))))
    ∧ (∀ (t1 t2 : ℝ) (l1 l2 : Coordinate) (av1 av2 : IndexType) (ar1 ar2 : ℕ), feq t1 t2 →
        Timeline.cmp (.SplitEvent t1 l1 av1 ar1) (.SplitEvent t2 l2 av2 ar2)
          = (coordCmp l1 l2).then ((ncmp ar1 ar2).then (ncmp ar1 ar2))) := by
  refine ⟨?_, ?_, ?_, ?_⟩
  · intro t1 t2 l1 l2 av lv rv ar lr rr tb h
    have h21 : ¬ fneq t2 t1 := fun hf => hf (by simpa [feq, abs_sub_comm] using h)
    constructor
    · simp only [Timeline.cmp, Timeline.time, Timeline.tieKey]
      rw [if_neg (fun hf => hf h)]
      simp [ncmp, Ordering.then]
    · simp only [Timeline.cmp, Timeline.time, Timeline.tieKey]
      rw [if_neg h21]
      simp [ncmp, Ordering.then]
  · intro a b hne hlt
    have hne2 : fneq b.time a.time := fun hf => hne (by simpa [feq, abs_sub_comm] using hf)
    constructor
    · simp only [Timeline.cmp]
      rw [if_pos hne, rcmp, if_pos hlt]
    · simp only [Timeline.cmp]
      rw [if_pos hne2, rcmp, if_neg (by linarith), if_pos hlt]
  · intro t1 t2 l1 l2 lv1 rv1 lv2 rv2 lr1 rr1 lr2 rr2 tb1 tb2 h
    simp only [Timeline.cmp, Timeline.time, Timeline.tieKey]
    rw [if_neg (fun hf => hf h)]
    simp [ncmp, Ordering.then]
  · intro t1 t2 l1 l2 av1 av2 ar1 ar2 h
    simp only [Timeline.cmp, Timeline.time, Timeline.tieKey]
    rw [if_neg (fun hf => hf h)]
    simp [ncmp, rcmp, Ordering.then]

/-- Witness for C4 at two concrete events with exactly equal times. -/
theorem timeline_cmp_spec_witness :
    feq (1 : ℝ) 1
      ∧ Timeline.cmp (.SplitEvent 1 ⟨0, 0⟩ (.PointerIndex 0) 0)
          (.ShrinkEvent 1 ⟨0, 0⟩ (.PointerIndex 0) (.PointerIndex 1) 0 1 0) = .lt :=
  ⟨feq_refl 1,
    (timeline_cmp_spec.1 1 1 ⟨0, 0⟩ ⟨0, 0⟩ (.PointerIndex 0) (.PointerIndex 0)
      (.PointerIndex 1) 0 0 1 0 (feq_refl 1)).1⟩

/-! ### Claim C5: the split-event rescan guard -/

/-- C5: a popped split event fires only when the re-run of the split search
with is_init = false yields exactly one candidate whose time matches the
scheduled time within ε and whose location matches within ε; otherwise the
processing step leaves the vertex table (hence every parent link) and the
event log unchanged, and when it does fire the edge event is appended to
the log. -/
theorem split_event_guard (orient : Bool) (s : SimState) (time : ℝ) (location : Coordinate)
    (av : IndexType) (ar : ℕ)
    (h : ¬ ∃ c : Cand, find_split_vertex av s.q s.vv false orient = [c]
        ∧ feq c.1 time ∧ c.2.1.aeq location) :
    (processEvent orient s (.SplitEvent time location av ar)).vv = s.vv
      ∧ (processEvent orient s (.SplitEvent time location av ar)).log = s.log := by
  by_cases hstale : (s.q.slotAt av.get_index).done = true ∨ s.q.get_real_index av ≠ ar
  · simp [processEvent, if_pos hstale]
  · simp only [processEvent, if_neg hstale]
    rcases hfsv : find_split_vertex av s.q.cleanup s.vv false orient with _ | ⟨c, _ | ⟨d, rest⟩⟩
    · simp [hfsv]
    · simp only [hfsv]
      by_cases hg : feq c.1 time ∧ c.2.1.aeq location
      · exact absurd ⟨c, hfsv, hg.1, hg.2⟩ h
      · simp [if_neg hg]
    · simp [hfsv]

theorem default_coordinate : (default : Coordinate) = ⟨0, 0⟩ := rfl

theorem default_ray : (default : Ray) = ⟨⟨0, 0⟩, ⟨0, 0⟩⟩ := rfl

theorem default_ray_pair : (default : Ray × Ray) = (⟨⟨0, 0⟩, ⟨0, 0⟩⟩, ⟨⟨0, 0⟩, ⟨0, 0⟩⟩) := rfl

theorem default_vertex : (default : VertexType) = .Root ⟨0, 0⟩ 0 := rfl

theorem default_qslot : (default : QSlot) = ⟨0, 0, 0, false⟩ := rfl

/-- Auxiliary: on the empty state the rescan yields no candidate. -/
theorem find_split_empty :
    find_split_vertex (.PointerIndex 0) (⟨[]⟩ : VertexQueue) [] false true = [] := by
  have h0 : fleq (0 : ℝ) 0 := Or.inr (feq_refl 0)
  simp [find_split_vertex, VertexQueue.get_real_index, VertexQueue.slotAt,
    default_vertex, default_ray_pair, default_qslot, VertexType.unwrap_base_ray,
    Coordinate.outer_product, h0]

/-- Witness for C5: a concrete state on which the rescan guard fails and the
vertex table is left unchanged. -/
theorem split_event_guard_witness :
    (¬ ∃ c : Cand, find_split_vertex (.PointerIndex 0) (⟨[]⟩ : VertexQueue) [] false true = [c]
        ∧ feq c.1 1 ∧ c.2.1.aeq ⟨0, 0⟩)
      ∧ (processEvent true ⟨[], [], ⟨[]⟩, []⟩ (.SplitEvent 1 ⟨0, 0⟩ (.PointerIndex 0) 0)).vv
          = [] := by
  have hno : ¬ ∃ c : Cand,
      find_split_vertex (.PointerIndex 0) (⟨[]⟩ : VertexQueue) [] false true = [c]
        ∧ feq c.1 1 ∧ c.2.1.aeq ⟨0, 0⟩ := by
    rintro ⟨c, hc, -, -⟩
    rw [find_split_empty] at hc
    exact List.cons_ne_nil c [] hc.symm
  exact ⟨hno, (split_event_guard true ⟨[], [], ⟨[]⟩, []⟩ 1 ⟨0, 0⟩ (.PointerIndex 0) 0 hno).1⟩

/-- Witness for C8 at the concrete negative distance −1. -/
theorem buffer_point_spec_witness :
    ((-1 : ℝ) < 0) ∧ (buffer_point ⟨0, 0⟩ (-1 : ℝ) 12).exterior.length = 0 :=
  ⟨by norm_num, (buffer_point_spec.2 ⟨0, 0⟩ (-1 : ℝ) 12 (by norm_num)).1⟩

/-! ### The unit-square deflation run (scenario S1) evaluated symbolically -/

/-- The unit square with the closing repeat, as in the lib.rs doc example. -/
def squareP : Polygon := ⟨[⟨0, 0⟩, ⟨1, 0⟩, ⟨1, 1⟩, ⟨0, 1⟩, ⟨0, 0⟩], []⟩

/-! ### Small-list evaluation lemmas used by the concrete runs -/

theorem getDl4_0 {α : Type} [Inhabited α] (a b c d : α) :
    [a, b, c, d].getD 0 default = a := rfl

theorem getEl4_0 {α : Type} (a b c d : α) :
    [a, b, c, d][(0 : ℕ)]? = some a := rfl

theorem setl4_0 {α : Type} (a b c d X : α) :
    [a, b, c, d].set 0 X = [X, b, c, d] := rfl

theorem getDl4_1 {α : Type} [Inhabited α] (a b c d : α) :
    [a, b, c, d].getD 1 default = b := rfl

theorem getEl4_1 {α : Type} (a b c d : α) :
    [a, b, c, d][(1 : ℕ)]? = some b := rfl

theorem setl4_1 {α : Type} (a b c d X : α) :
    [a, b, c, d].set 1 X = [a, X, c, d] := rfl

theorem getDl4_2 {α : Type} [Inhabited α] (a b c d : α) :
    [a, b, c, d].getD 2 default = c := rfl

theorem getEl4_2 {α : Type} (a b c d : α) :
    [a, b, c, d][(2 : ℕ)]? = some c := rfl

theorem setl4_2 {α : Type} (a b c d X : α) :
    [a, b, c, d].set 2 X = [a, b, X, d] := rfl

theorem getDl4_3 {α : Type} [Inhabited α] (a b c d : α) :
    [a, b, c, d].getD 3 default = d := rfl

theorem getEl4_3 {α : Type} (a b c d : α) :
    [a, b, c, d][(3 : ℕ)]? = some d := rfl

theorem setl4_3 {α : Type} (a b c d X : α) :
    [a, b, c, d].set 3 X = [a, b, c, X] := rfl

theorem getDl5_0 {α : Type} [Inhabited α] (a b c d e : α) :
    [a, b, c, d, e].getD 0 default = a := rfl

theorem getEl5_0 {α : Type} (a b c d e : α) :
    [a, b, c, d, e][(0 : ℕ)]? = some a := rfl

theorem setl5_0 {α : Type} (a b c d e X : α) :
    [a, b, c, d, e].set 0 X = [X, b, c, d, e] := rfl

theorem getDl5_1 {α : Type} [Inhabited α] (a b c d e : α) :
    [a, b, c, d, e].getD 1 default = b := rfl

theorem getEl5_1 {α : Type} (a b c d e : α) :
    [a, b, c, d, e][(1 : ℕ)]? = some b := rfl

theorem setl5_1 {α : Type} (a b c d e X : α) :
    [a, b, c, d, e].set 1 X = [a, X, c, d, e] := rfl

theorem getDl5_2 {α : Type} [Inhabited α] (a b c d e : α) :
    [a, b, c, d, e].getD 2 default = c := rfl

theorem getEl5_2 {α : Type} (a b c d e : α) :
    [a, b, c, d, e][(2 : ℕ)]? = some c := rfl

theorem setl5_2 {α : Type} (a b c d e X : α) :
    [a, b, c, d, e].set 2 X = [a, b, X, d, e] := rfl

theorem getDl5_3 {α : Type} [Inhabited α] (a b c d e : α) :
    [a, b, c, d, e].getD 3 default = d := rfl

theorem getEl5_3 {α : Type} (a b c d e : α) :
    [a, b, c, d, e][(3 : ℕ)]? = some d := rfl

theorem setl5_3 {α : Type} (a b c d e X : α) :
    [a, b, c, d, e].set 3 X = [a, b, c, X, e] := rfl

theorem getDl5_4 {α : Type} [Inhabited α] (a b c d e : α) :
    [a, b, c, d, e].getD 4 default = e := rfl

theorem getEl5_4 {α : Type} (a b c d e : α) :
    [a, b, c, d, e][(4 : ℕ)]? = some e := rfl

theorem setl5_4 {α : Type} (a b c d e X : α) :
    [a, b, c, d, e].set 4 X = [a, b, c, d, X] := rfl

theorem getDl6_0 {α : Type} [Inhabited α] (a b c d e f : α) :
    [a, b, c, d, e, f].getD 0 default = a := rfl

theorem getEl6_0 {α : Type} (a b c d e f : α) :
    [a, b, c, d, e, f][(0 : ℕ)]? = some a := rfl

theorem setl6_0 {α : Type} (a b c d e f X : α) :
    [a, b, c, d, e, f].set 0 X = [X, b, c, d, e, f] := rfl

theorem getDl6_1 {α : Type} [Inhabited α] (a b c d e f : α) :
    [a, b, c, d, e, f].getD 1 default = b := rfl

theorem getEl6_1 {α : Type} (a b c d e f : α) :
    [a, b, c, d, e, f][(1 : ℕ)]? = some b := rfl

theorem setl6_1 {α : Type} (a b c d e f X : α) :
    [a, b, c, d, e, f].set 1 X = [a, X, c, d, e, f] := rfl

theorem getDl6_2 {α : Type} [Inhabited α] (a b c d e f : α) :
    [a, b, c, d, e, f].getD 2 default = c := rfl

theorem getEl6_2 {α : Type} (a b c d e f : α) :
    [a, b, c, d, e, f][(2 : ℕ)]? = some c := rfl

theorem setl6_2 {α : Type} (a b c d e f X : α) :
    [a, b, c, d, e, f].set 2 X = [a, b, X, d, e, f] := rfl

theorem getDl6_3 {α : Type} [Inhabited α] (a b c d e f : α) :
    [a, b, c, d, e, f].getD 3 default = d := rfl

theorem getEl6_3 {α : Type} (a b c d e f : α) :
    [a, b, c, d, e, f][(3 : ℕ)]? = some d := rfl

theorem setl6_3 {α : Type} (a b c d e f X : α) :
    [a, b, c, d, e, f].set 3 X = [a, b, c, X, e, f] := rfl

theorem getDl6_4 {α : Type} [Inhabited α] (a b c d e f : α) :
    [a, b, c, d, e, f].getD 4 default = e := rfl

theorem getEl6_4 {α : Type} (a b c d e f : α) :
    [a, b, c, d, e, f][(4 : ℕ)]? = some e := rfl

theorem setl6_4 {α : Type} (a b c d e f X : α) :
    [a, b, c, d, e, f].set 4 X = [a, b, c, d, X, f] := rfl

theorem getDl6_5 {α : Type} [Inhabited α] (a b c d e f : α) :
    [a, b, c, d, e, f].getD 5 default = f := rfl

theorem getEl6_5 {α : Type} (a b c d e f : α) :
    [a, b, c, d, e, f][(5 : ℕ)]? = some f := rfl

theorem setl6_5 {α : Type} (a b c d e f X : α) :
    [a, b, c, d, e, f].set 5 X = [a, b, c, d, e, X] := rfl

theorem getDl7_0 {α : Type} [Inhabited α] (a b c d e f g : α) :
    [a, b, c, d, e, f, g].getD 0 default = a := rfl

theorem getEl7_0 {α : Type} (a b c d e f g : α) :
    [a, b, c, d, e, f, g][(0 : ℕ)]? = some a := rfl

theorem setl7_0 {α : Type} (a b c d e f g X : α) :
    [a, b, c, d, e, f, g].set 0 X = [X, b, c, d, e, f, g] := rfl

theorem getDl7_1 {α : Type} [Inhabited α] (a b c d e f g : α) :
    [a, b, c, d, e, f, g].getD 1 default = b := rfl

theorem getEl7_1 {α : Type} (a b c d e f g : α) :
    [a, b, c, d, e, f, g][(1 : ℕ)]? = some b := rfl

theorem setl7_1 {α : Type} (a b c d e f g X : α) :
    [a, b, c, d, e, f, g].set 1 X = [a, X, c, d, e, f, g] := rfl

theorem getDl7_2 {α : Type} [Inhabited α] (a b c d e f g : α) :
    [a, b, c, d, e, f, g].getD 2 default = c := rfl

theorem getEl7_2 {α : Type} (a b c d e f g : α) :
    [a, b, c, d, e, f, g][(2 : ℕ)]? = some c := rfl

theorem setl7_2 {α : Type} (a b c d e f g X : α) :
    [a, b, c, d, e, f, g].set 2 X = [a, b, X, d, e, f, g] := rfl

theorem getDl7_3 {α : Type} [Inhabited α] (a b c d e f g : α) :
    [a, b, c, d, e, f, g].getD 3 default = d := rfl

theorem getEl7_3 {α : Type} (a b c d e f g : α) :
    [a, b, c, d, e, f, g][(3 : ℕ)]? = some d := rfl

theorem setl7_3 {α : Type} (a b c d e f g X : α) :
    [a, b, c, d, e, f, g].set 3 X = [a, b, c, X, e, f, g] := rfl

theorem getDl7_4 {α : Type} [Inhabited α] (a b c d e f g : α) :
    [a, b, c, d, e, f, g].getD 4 default = e := rfl

theorem getEl7_4 {α : Type} (a b c d e f g : α) :
    [a, b, c, d, e, f, g][(4 : ℕ)]? = some e := rfl

theorem setl7_4 {α : Type} (a b c d e f g X : α) :
    [a, b, c, d, e, f, g].set 4 X = [a, b, c, d, X, f, g] := rfl

theorem getDl7_5 {α : Type} [Inhabited α] (a b c d e f g : α) :
    [a, b, c, d, e, f, g].getD 5 default = f := rfl

theorem getEl7_5 {α : Type} (a b c d e f g : α) :
    [a, b, c, d, e, f, g][(5 : ℕ)]? = some f := rfl

theorem setl7_5 {α : Type} (a b c d e f g X : α) :
    [a, b, c, d, e, f, g].set 5 X = [a, b, c, d, e, X, g] := rfl

theorem getDl7_6 {α : Type} [Inhabited α] (a b c d e f g : α) :
    [a, b, c, d, e, f, g].getD 6 default = g := rfl

theorem getEl7_6 {α : Type} (a b c d e f g : α) :
    [a, b, c, d, e, f, g][(6 : ℕ)]? = some g := rfl

theorem setl7_6 {α : Type} (a b c d e f g X : α) :
    [a, b, c, d, e, f, g].set 6 X = [a, b, c, d, e, f, X] := rfl

theorem getDl8_0 {α : Type} [Inhabited α] (a b c d e f g h : α) :
    [a, b, c, d, e, f, g, h].getD 0 default = a := rfl

theorem getEl8_0 {α : Type} (a b c d e f g h : α) :
    [a, b, c, d, e, f, g, h][(0 : ℕ)]? = some a := rfl

theorem setl8_0 {α : Type} (a b c d e f g h X : α) :
    [a, b, c, d, e, f, g, h].set 0 X = [X, b, c, d, e, f, g, h] := rfl

theorem getDl8_1 {α : Type} [Inhabited α] (a b c d e f g h : α) :
    [a, b, c, d, e, f, g, h].getD 1 default = b := rfl

theorem getEl8_1 {α : Type} (a b c d e f g h : α) :
    [a, b, c, d, e, f, g, h][(1 : ℕ)]? = some b := rfl

theorem setl8_1 {α : Type} (a b c d e f g h X : α) :
    [a, b, c, d, e, f, g, h].set 1 X = [a, X, c, d, e, f, g, h] := rfl

theorem getDl8_2 {α : Type} [Inhabited α] (a b c d e f g h : α) :
    [a, b, c, d, e, f, g, h].getD 2 default = c := rfl

theorem getEl8_2 {α : Type} (a b c d e f g h : α) :
    [a, b, c, d, e, f, g, h][(2 : ℕ)]? = some c := rfl

theorem setl8_2 {α : Type} (a b c d e f g h X : α) :
    [a, b, c, d, e, f, g, h].set 2 X = [a, b, X, d, e, f, g, h] := rfl

theorem getDl8_3 {α : Type} [Inhabited α] (a b c d e f g h : α) :
    [a, b, c, d, e, f, g, h].getD 3 default = d := rfl

theorem getEl8_3 {α : Type} (a b c d e f g h : α) :
    [a, b, c, d, e, f, g, h][(3 : ℕ)]? = some d := rfl

theorem setl8_3 {α : Type} (a b c d e f g h X : α) :
    [a, b, c, d, e, f, g, h].set 3 X = [a, b, c, X, e, f, g, h] := rfl

theorem getDl8_4 {α : Type} [Inhabited α] (a b c d e f g h : α) :
    [a, b, c, d, e, f, g, h].getD 4 default = e := rfl

theorem getEl8_4 {α : Type} (a b c d e f g h : α) :
    [a, b, c, d, e, f, g, h][(4 : ℕ)]? = some e := rfl

theorem setl8_4 {α : Type} (a b c d e f g h X : α) :
    [a, b, c, d, e, f, g, h].set 4 X = [a, b, c, d, X, f, g, h] := rfl

theorem getDl8_5 {α : Type} [Inhabited α] (a b c d e f g h : α) :
    [a, b, c, d, e, f, g, h].getD 5 default = f := rfl

theorem getEl8_5 {α : Type} (a b c d e f g h : α) :
    [a, b, c, d, e, f, g, h][(5 : ℕ)]? = some f := rfl

theorem setl8_5 {α : Type} (a b c d e f g h X : α) :
    [a, b, c, d, e, f, g, h].set 5 X = [a, b, c, d, e, X, g, h] := rfl

theorem getDl8_6 {α : Type} [Inhabited α] (a b c d e f g h : α) :
    [a, b, c, d, e, f, g, h].getD 6 default = g := rfl

theorem getEl8_6 {α : Type} (a b c d e f g h : α) :
    [a, b, c, d, e, f, g, h][(6 : ℕ)]? = some g := rfl

theorem setl8_6 {α : Type} (a b c d e f g h X : α) :
    [a, b, c, d, e, f, g, h].set 6 X = [a, b, c, d, e, f, X, h] := rfl

theorem getDl8_7 {α : Type} [Inhabited α] (a b c d e f g h : α) :
    [a, b, c, d, e, f, g, h].getD 7 default = h := rfl

theorem getEl8_7 {α : Type} (a b c d e f g h : α) :
    [a, b, c, d, e, f, g, h][(7 : ℕ)]? = some h := rfl

theorem setl8_7 {α : Type} (a b c d e f g h X : α) :
    [a, b, c, d, e, f, g, h].set 7 X = [a, b, c, d, e, f, g, X] := rfl

/-- The initial Tree vertex of the square at (0,0). -/
def sqV0 : VertexType :=
  .Tree ⟨⟨0, 0⟩, ⟨1, 1⟩⟩ ⟨⟨0, 0⟩, ⟨0, 1⟩⟩ ⟨⟨0, 0⟩, ⟨1, 0⟩⟩ none 0

/-- The initial Tree vertex of the square at (1,0). -/
def sqV1 : VertexType :=
  .Tree ⟨⟨1, 0⟩, ⟨-1, 1⟩⟩ ⟨⟨1, 0⟩, ⟨-1, 0⟩⟩ ⟨⟨1, 0⟩, ⟨0, 1⟩⟩ none 0

/-- The initial Tree vertex of the square at (1,1). -/
def sqV2 : VertexType :=
  .Tree ⟨⟨1, 1⟩, ⟨-1, -1⟩⟩ ⟨⟨1, 1⟩, ⟨0, -1⟩⟩ ⟨⟨1, 1⟩, ⟨-1, 0⟩⟩ none 0

/-- The initial Tree vertex of the square at (0,1). -/
def sqV3 : VertexType :=
  .Tree ⟨⟨0, 1⟩, ⟨1, -1⟩⟩ ⟨⟨0, 1⟩, ⟨1, 0⟩⟩ ⟨⟨0, 1⟩, ⟨0, -1⟩⟩ none 0

/-- The four initial Tree vertices of the inward square skeleton. -/
def sqVV : List VertexType := [sqV0, sqV1, sqV2, sqV3]

/-- The initial active vertex queue of the square. -/
def sqQ : VertexQueue :=
  ⟨[⟨0, 3, 1, false⟩, ⟨1, 0, 2, false⟩, ⟨2, 1, 3, false⟩, ⟨3, 2, 0, false⟩]⟩

theorem sq_init : initialize_from_polygon squareP true = sqVV := by
  norm_num [initialize_from_polygon, squareP, sqVV, sqV0, sqV1, sqV2, sqV3, loopVertices,
    List.range_succ, init_tree_vertex, Ray.new, Ray.bisector, Coordinate.normalize,
    Coordinate.norm, Coordinate.divScalar, Coordinate.add, Coordinate.sub, Coordinate.neg,
    Coordinate.outer_product, Ray.point_by_ratio, Coordinate.scale, Coordinate.dist_ray]

theorem sq_vq : vqInitFromPolygon squareP = sqQ := by
  simp [vqInitFromPolygon, squareP, sqQ, loopSlots, List.range_succ]

theorem sq_iter : sqQ.iter =
    [(0, .PointerIndex 0, 0), (0, .PointerIndex 1, 1),
     (0, .PointerIndex 2, 2), (0, .PointerIndex 3, 3)] := by
  decide

theorem sqQ_rv0 : sqQ.rv (.PointerIndex 0) = .PointerIndex 1 := rfl

theorem sqQ_rv1 : sqQ.rv (.PointerIndex 1) = .PointerIndex 2 := rfl

theorem sqQ_rv2 : sqQ.rv (.PointerIndex 2) = .PointerIndex 3 := rfl

theorem sqQ_rv3 : sqQ.rv (.PointerIndex 3) = .PointerIndex 0 := rfl

theorem sqQ_lv0 : sqQ.lv (.PointerIndex 0) = .PointerIndex 3 := rfl

theorem sqQ_lv1 : sqQ.lv (.PointerIndex 1) = .PointerIndex 0 := rfl

theorem sqQ_lv2 : sqQ.lv (.PointerIndex 2) = .PointerIndex 1 := rfl

theorem sqQ_lv3 : sqQ.lv (.PointerIndex 3) = .PointerIndex 2 := rfl

theorem sqQ_real0 : sqQ.get_real_index (.PointerIndex 0) = 0 := rfl

theorem sqQ_real1 : sqQ.get_real_index (.PointerIndex 1) = 1 := rfl

theorem sqQ_real2 : sqQ.get_real_index (.PointerIndex 2) = 2 := rfl

theorem sqQ_real3 : sqQ.get_real_index (.PointerIndex 3) = 3 := rfl

theorem sqVV_g0 : sqVV.getD 0 default = sqV0 := rfl

theorem sqVV_g1 : sqVV.getD 1 default = sqV1 := rfl

theorem sqVV_g2 : sqVV.getD 2 default = sqV2 := rfl

theorem sqVV_g3 : sqVV.getD 3 default = sqV3 := rfl

theorem sqVV_e0 : sqVV[(0 : ℕ)]? = some sqV0 := rfl

theorem sqVV_e1 : sqVV[(1 : ℕ)]? = some sqV1 := rfl

theorem sqVV_e2 : sqVV[(2 : ℕ)]? = some sqV2 := rfl

theorem sqVV_e3 : sqVV[(3 : ℕ)]? = some sqV3 := rfl

/-- The initial shrink event of the square for the pair (0, 1). -/
def sqE0 : Timeline :=
  .ShrinkEvent (1 / 2) ⟨1 / 2, 1 / 2⟩ (.PointerIndex 0) (.PointerIndex 1) 0 1 1

/-- The initial shrink event of the square for the pair (1, 2). -/
def sqE1 : Timeline :=
  .ShrinkEvent (1 / 2) ⟨1 / 2, 1 / 2⟩ (.PointerIndex 1) (.PointerIndex 2) 1 2 1

/-- The initial shrink event of the square for the pair (2, 3). -/
def sqE2 : Timeline :=
  .ShrinkEvent (1 / 2) ⟨1 / 2, 1 / 2⟩ (.PointerIndex 2) (.PointerIndex 3) 2 3 1

/-- The initial shrink event of the square for the pair (3, 0). -/
def sqE3 : Timeline :=
  .ShrinkEvent (1 / 2) ⟨1 / 2, 1 / 2⟩ (.PointerIndex 3) (.PointerIndex 0) 3 0 1

theorem sq_shrink0 : make_shrink_event (.PointerIndex 0) sqQ sqVV true = [sqE0] := by
  norm_num [make_shrink_event, shrinkEventFor, sqE0, sqQ_rv0, sqQ_lv0, sqQ_real0, sqQ_real1,
    sqVV_g0, sqVV_g1, sqVV_e0, sqVV_e1, sqV0, sqV1, VertexType.unwrap_ray, VertexType.unwrap_base_ray,
    Ray.is_intersect, Ray.is_parallel, Ray.interParam, Ray.intersect, Ray.point_by_ratio,
    Coordinate.outer_product, Coordinate.sub, Coordinate.add, Coordinate.scale,
    Coordinate.dist_ray, Coordinate.dist_coord, Coordinate.norm, feq, fneq, eps]

theorem sq_shrink1 : make_shrink_event (.PointerIndex 1) sqQ sqVV true = [sqE1] := by
  norm_num [make_shrink_event, shrinkEventFor, sqE1, sqQ_rv1, sqQ_lv1, sqQ_real1, sqQ_real2,
    sqVV_g1, sqVV_g2, sqVV_e1, sqVV_e2, sqV1, sqV2, VertexType.unwrap_ray, VertexType.unwrap_base_ray,
    Ray.is_intersect, Ray.is_parallel, Ray.interParam, Ray.intersect, Ray.point_by_ratio,
    Coordinate.outer_product, Coordinate.sub, Coordinate.add, Coordinate.scale,
    Coordinate.dist_ray, Coordinate.dist_coord, Coordinate.norm, feq, fneq, eps]

theorem sq_shrink2 : make_shrink_event (.PointerIndex 2) sqQ sqVV true = [sqE2] := by
  norm_num [make_shrink_event, shrinkEventFor, sqE2, sqQ_rv2, sqQ_lv2, sqQ_real2, sqQ_real3,
    sqVV_g2, sqVV_g3, sqVV_e2, sqVV_e3, sqV2, sqV3, VertexType.unwrap_ray, VertexType.unwrap_base_ray,
    Ray.is_intersect, Ray.is_parallel, Ray.interParam, Ray.intersect, Ray.point_by_ratio,
    Coordinate.outer_product, Coordinate.sub, Coordinate.add, Coordinate.scale,
    Coordinate.dist_ray, Coordinate.dist_coord, Coordinate.norm, feq, fneq, eps]

theorem sq_shrink3 : make_shrink_event (.PointerIndex 3) sqQ sqVV true = [sqE3] := by
  norm_num [make_shrink_event, shrinkEventFor, sqE3, sqQ_rv3, sqQ_lv3, sqQ_real3, sqQ_real0,
    sqVV_g3, sqVV_g0, sqVV_e3, sqVV_e0, sqV3, sqV0, VertexType.unwrap_ray, VertexType.unwrap_base_ray,
    Ray.is_intersect, Ray.is_parallel, Ray.interParam, Ray.intersect, Ray.point_by_ratio,
    Coordinate.outer_product, Coordinate.sub, Coordinate.add, Coordinate.scale,
    Coordinate.dist_ray, Coordinate.dist_coord, Coordinate.norm, feq, fneq, eps]

theorem sq_split0 : make_split_event (.PointerIndex 0) sqQ sqVV true = [] := by
  norm_num [make_split_event, find_split_vertex, sqQ_real0, sqVV_g0, sqVV_e0, sqV0,
    VertexType.unwrap_base_ray, Coordinate.outer_product, fleq, feq, eps]

theorem sq_split1 : make_split_event (.PointerIndex 1) sqQ sqVV true = [] := by
  norm_num [make_split_event, find_split_vertex, sqQ_real1, sqVV_g1, sqVV_e1, sqV1,
    VertexType.unwrap_base_ray, Coordinate.outer_product, fleq, feq, eps]

theorem sq_split2 : make_split_event (.PointerIndex 2) sqQ sqVV true = [] := by
  norm_num [make_split_event, find_split_vertex, sqQ_real2, sqVV_g2, sqVV_e2, sqV2,
    VertexType.unwrap_base_ray, Coordinate.outer_product, fleq, feq, eps]

theorem sq_split3 : make_split_event (.PointerIndex 3) sqQ sqVV true = [] := by
  norm_num [make_split_event, find_split_vertex, sqQ_real3, sqVV_g3, sqVV_e3, sqV3,
    VertexType.unwrap_base_ray, Coordinate.outer_product, fleq, feq, eps]

theorem sq_events : initialEvents true sqVV sqQ = [sqE0, sqE1, sqE2, sqE3] := by
  rw [initialEvents, sq_iter]
  simp only [List.foldl_cons, List.foldl_nil]
  rw [sq_shrink0, sq_split0, sq_shrink1, sq_split1, sq_shrink2, sq_split2,
    sq_shrink3, sq_split3]
  simp

theorem sq_cmp10 : Timeline.cmp sqE1 sqE0 = .gt := by
  norm_num [Timeline.cmp, Timeline.time, Timeline.tieKey, sqE1, sqE0, fneq, feq, eps,
    ncmp, rcmp, coordCmp, Ordering.then]

theorem sq_cmp21 : Timeline.cmp sqE2 sqE1 = .gt := by
  norm_num [Timeline.cmp, Timeline.time, Timeline.tieKey, sqE2, sqE1, fneq, feq, eps,
    ncmp, rcmp, coordCmp, Ordering.then]

theorem sq_cmp32 : Timeline.cmp sqE3 sqE2 = .gt := by
  norm_num [Timeline.cmp, Timeline.time, Timeline.tieKey, sqE3, sqE2, fneq, feq, eps,
    ncmp, rcmp, coordCmp, Ordering.then]

theorem sq_popA : popMin [sqE0, sqE1, sqE2, sqE3] = some (sqE0, [sqE1, sqE2, sqE3]) := by
  simp [popMin, sq_cmp10, sq_cmp21, sq_cmp32]

theorem sq_popB : popMin [sqE1, sqE2, sqE3] = some (sqE1, [sqE2, sqE3]) := by
  simp [popMin, sq_cmp21, sq_cmp32]

theorem sq_popC : popMin [sqE2, sqE3] = some (sqE2, [sqE3]) := by
  simp [popMin, sq_cmp32]

theorem sq_popD : popMin [sqE3] = some (sqE3, []) := by
  simp [popMin]

/-- The vertex at (0,0) after its parent is set to 4. -/
def sqV0p : VertexType :=
  .Tree ⟨⟨0, 0⟩, ⟨1, 1⟩⟩ ⟨⟨0, 0⟩, ⟨0, 1⟩⟩ ⟨⟨0, 0⟩, ⟨1, 0⟩⟩ (some 4) 0

/-- The vertex at (1,0) after its parent is set to 4. -/
def sqV1p : VertexType :=
  .Tree ⟨⟨1, 0⟩, ⟨-1, 1⟩⟩ ⟨⟨1, 0⟩, ⟨-1, 0⟩⟩ ⟨⟨1, 0⟩, ⟨0, 1⟩⟩ (some 4) 0

/-- The vertex at (1,1) after its parent is set to 5. -/
def sqV2p : VertexType :=
  .Tree ⟨⟨1, 1⟩, ⟨-1, -1⟩⟩ ⟨⟨1, 1⟩, ⟨0, -1⟩⟩ ⟨⟨1, 1⟩, ⟨-1, 0⟩⟩ (some 5) 0

/-- The vertex at (0,1) after its parent is set to 5. -/
def sqV3p : VertexType :=
  .Tree ⟨⟨0, 1⟩, ⟨1, -1⟩⟩ ⟨⟨0, 1⟩, ⟨1, 0⟩⟩ ⟨⟨0, 1⟩, ⟨0, -1⟩⟩ (some 5) 0

/-- The merged vertex created by the first shrink event: it sits between the
two parallel vertical walls, so its speed-normalization divides by zero and
its axis direction degenerates. -/
def sqV4 : VertexType :=
  .Tree ⟨⟨1 / 2, 1 / 2⟩, ⟨0, 0⟩⟩ ⟨⟨0, 0⟩, ⟨0, 1⟩⟩ ⟨⟨1, 0⟩, ⟨0, 1⟩⟩ none (1 / 2)

/-- The merged vertex 4 after its parent is set to 5. -/
def sqV4p : VertexType :=
  .Tree ⟨⟨1 / 2, 1 / 2⟩, ⟨0, 0⟩⟩ ⟨⟨0, 0⟩, ⟨0, 1⟩⟩ ⟨⟨1, 0⟩, ⟨0, 1⟩⟩ (some 5) (1 / 2)

/-- The vertex table after the first fired shrink event. -/
def sqVVa : List VertexType := [sqV0p, sqV1p, sqV2, sqV3, sqV4]

/-- The vertex table at the end of the square simulation. -/
def sqVVfin : List VertexType :=
  [sqV0p, sqV1p, sqV2p, sqV3p, sqV4p, .Root ⟨1 / 2, 1 / 2⟩ (1 / 2)]

/-- The active vertex queue after the first fired shrink event. -/
def sqQa : VertexQueue :=
  ⟨[⟨0, 3, 1, true⟩, ⟨4, 3, 2, false⟩, ⟨2, 1, 3, false⟩, ⟨3, 2, 1, false⟩]⟩

/-- The active vertex queue after the terminal shrink event. -/
def sqQb : VertexQueue :=
  ⟨[⟨0, 3, 1, true⟩, ⟨4, 3, 3, true⟩, ⟨2, 1, 3, true⟩, ⟨5, 1, 1, true⟩]⟩

/-- The event log of the square simulation. -/
def sqLog : List Event := [.VertexEvent (1 / 2) 0 4, .VertexEvent (1 / 2) 2 5]

theorem sq_apply1 :
    apply_event sqQ (.VertexEvent (1 / 2) 0 4) = (sqQa, some (.PointerIndex 1), none) := by
  decide

theorem sq_apply2 :
    apply_event sqQa (.VertexEvent (1 / 2) 2 5) = (sqQb, some (.RealIndex 4), none) := by
  decide

theorem sqQ_slot0 : sqQ.slotAt 0 = ⟨0, 3, 1, false⟩ := rfl

theorem sqQ_slot1 : sqQ.slotAt 1 = ⟨1, 0, 2, false⟩ := rfl

theorem sqQ_slot2 : sqQ.slotAt 2 = ⟨2, 1, 3, false⟩ := rfl

theorem sqQ_slot3 : sqQ.slotAt 3 = ⟨3, 2, 0, false⟩ := rfl

theorem sqQa_slot1 : sqQa.slotAt 1 = ⟨4, 3, 2, false⟩ := rfl

theorem sqQa_slot2 : sqQa.slotAt 2 = ⟨2, 1, 3, false⟩ := rfl

theorem sqQa_slot3 : sqQa.slotAt 3 = ⟨3, 2, 1, false⟩ := rfl

theorem sqQa_rv1 : sqQa.rv (.PointerIndex 1) = .PointerIndex 2 := rfl

theorem sqQa_lv1 : sqQa.lv (.PointerIndex 1) = .PointerIndex 3 := rfl

theorem sqQa_rv3 : sqQa.rv (.PointerIndex 3) = .PointerIndex 1 := rfl

theorem sqQa_real1 : sqQa.get_real_index (.PointerIndex 1) = 4 := rfl

theorem sqQa_real2 : sqQa.get_real_index (.PointerIndex 2) = 2 := rfl

theorem sqQa_real3 : sqQa.get_real_index (.PointerIndex 3) = 3 := rfl

theorem sqVV_len : sqVV.length = 4 := rfl

theorem sq_step1 : processEvent true ⟨sqVV, [sqE1, sqE2, sqE3], sqQ, []⟩ sqE0
    = ⟨sqVVa, [sqE1, sqE2, sqE3], sqQa, [.VertexEvent (1 / 2) 0 4]⟩ := by
  norm_num [processEvent, sqE0, IndexType.get_index, sqQ_slot0, sqQ_slot1, sqQ_real0,
    sqQ_real1, sqVV_len, sqVV_g0, sqVV_g1, sq_apply1, sqVV, sqVVa, sqV0, sqV1, sqV0p, sqV1p,
    sqV4, VertexType.set_parent, VertexType.unwrap_base_ray, VertexType.unwrap_ray,
    new_tree_vertex, Ray.bisector, Coordinate.normalize, Coordinate.norm,
    Coordinate.divScalar, Coordinate.add, Coordinate.sub, Coordinate.neg,
    Coordinate.outer_product, Ray.point_by_ratio, Coordinate.scale, Coordinate.dist_ray,
    VertexQueue.cleanup, setl4_0, setl4_1, getDl4_0, getDl4_1, getEl4_0, getEl4_1,
    getDl5_0, getDl5_1, getDl5_2, getDl5_3, getDl5_4,
    getEl5_0, getEl5_1, getEl5_2, getEl5_3, getEl5_4,
    make_shrink_event, shrinkEventFor, sqQa_rv1, sqQa_lv1, sqQa_rv3, sqQa_real1,
    sqQa_real2, sqQa_real3, sqV2, sqV3, Ray.is_intersect, Ray.is_parallel, Ray.interParam,
    feq, fneq, eps]

theorem sqVVa_len : sqVVa.length = 5 := rfl

theorem sqVVa_g2 : sqVVa.getD 2 default = sqV2 := rfl

theorem sqVVa_g3 : sqVVa.getD 3 default = sqV3 := rfl

theorem sq_step2 : processEvent true ⟨sqVVa, [sqE2, sqE3], sqQa, [.VertexEvent (1 / 2) 0 4]⟩ sqE1
    = ⟨sqVVa, [sqE2, sqE3], sqQa, [.VertexEvent (1 / 2) 0 4]⟩ := by
  norm_num [processEvent, sqE1, IndexType.get_index, sqQa_slot1, sqQa_slot2,
    sqQa_real1, sqQa_real2]

theorem sqQb_rv1 : sqQb.rv (.PointerIndex 1) = .PointerIndex 3 := rfl

theorem sq_step3 : processEvent true ⟨sqVVa, [sqE3], sqQa, [.VertexEvent (1 / 2) 0 4]⟩ sqE2
    = ⟨sqVVfin, [sqE3], sqQb, sqLog⟩ := by
  norm_num [processEvent, sqE2, IndexType.get_index, sqQa_slot2, sqQa_slot3, sqQa_real2,
    sqQa_real3, sqVVa_len, sqVVa_g2, sqVVa_g3, sq_apply2, sqVVa, sqVVfin, sqLog, sqV2, sqV3,
    sqV2p, sqV3p, sqV4, sqV4p, sqV0p, sqV1p, VertexType.set_parent,
    VertexType.unwrap_base_ray, VertexType.unwrap_ray, VertexType.inner_location,
    VertexType.time_elapsed, new_tree_vertex, Ray.bisector, Coordinate.normalize,
    Coordinate.norm, Coordinate.divScalar, Coordinate.add, Coordinate.sub, Coordinate.neg,
    Coordinate.outer_product, Ray.point_by_ratio, Coordinate.scale, Coordinate.dist_ray,
    VertexQueue.cleanup, setl5_2, setl5_3, setl6_4, setl6_5,
    getDl5_0, getDl5_1, getDl5_2, getDl5_3, getDl5_4,
    getEl5_0, getEl5_1, getEl5_2, getEl5_3, getEl5_4,
    getDl6_0, getDl6_1, getDl6_2, getDl6_3, getDl6_4, getDl6_5,
    getEl6_0, getEl6_1, getEl6_2, getEl6_3, getEl6_4, getEl6_5]

theorem sqQb_slot3 : sqQb.slotAt 3 = ⟨5, 1, 1, true⟩ := rfl

theorem sq_step4 : processEvent true ⟨sqVVfin, [], sqQb, sqLog⟩ sqE3
    = ⟨sqVVfin, [], sqQb, sqLog⟩ := by
  norm_num [processEvent, sqE3, IndexType.get_index, sqQb_slot3]

theorem simLoop_succ (orient : Bool) (fuel : ℕ) (s : SimState) :
    simLoop orient (fuel + 1) s =
      match popMin s.pq with
      | none => s
      | some (x, rest) => simLoop orient fuel (processEvent orient ⟨s.vv, rest, s.q, s.log⟩ x) :=
  rfl

theorem sq_sim : simLoop true 8 ⟨sqVV, [sqE0, sqE1, sqE2, sqE3], sqQ, []⟩
    = ⟨sqVVfin, [], sqQb, sqLog⟩ := by
  rw [show (8 : ℕ) = 7 + 1 from rfl, simLoop_succ]
  simp only [sq_popA, sq_step1]
  rw [show (7 : ℕ) = 6 + 1 from rfl, simLoop_succ]
  simp only [sq_popB, sq_step2]
  rw [show (6 : ℕ) = 5 + 1 from rfl, simLoop_succ]
  simp only [sq_popC, sq_step3]
  rw [show (5 : ℕ) = 4 + 1 from rfl, simLoop_succ]
  simp only [sq_popD, sq_step4]
  rw [show (4 : ℕ) = 3 + 1 from rfl, simLoop_succ]
  simp [popMin]

theorem sq_skeleton : skeleton_of_polygon squareP true 8 = ⟨sqVVfin, sqLog, sqQ⟩ := by
  simp only [skeleton_of_polygon, init_pq, sq_init, sq_vq, sq_events, sq_sim]

/-! ### Claim C1: square deflation by 0.2 -/

theorem sq_gvq : Skeleton.get_vertex_queue ⟨sqVVfin, sqLog, sqQ⟩ (1 / 5) = sqQ := by
  simp only [Skeleton.get_vertex_queue, sqLog, replayGo, Event.unwrap_time]
  rw [if_neg (by norm_num)]

/-- The output ring of the square deflated by 1/5. -/
def sqRing : List Coordinate :=
  [⟨1 / 5, 1 / 5⟩, ⟨4 / 5, 1 / 5⟩, ⟨4 / 5, 4 / 5⟩, ⟨1 / 5, 4 / 5⟩, ⟨1 / 5, 1 / 5⟩]

theorem sq_emit0 : emitCoord sqVVfin (1 / 5) 0 = ⟨1 / 5, 1 / 5⟩ := by
  norm_num [emitCoord, sqVVfin, sqV0p, getDl6_0, getEl6_0, VertexType.unwrap_ray,
    VertexType.time_elapsed, Ray.point_by_ratio, Coordinate.scale, Coordinate.add]

theorem sq_emit1 : emitCoord sqVVfin (1 / 5) 1 = ⟨4 / 5, 1 / 5⟩ := by
  norm_num [emitCoord, sqVVfin, sqV1p, getDl6_1, getEl6_1, VertexType.unwrap_ray,
    VertexType.time_elapsed, Ray.point_by_ratio, Coordinate.scale, Coordinate.add]

theorem sq_emit2 : emitCoord sqVVfin (1 / 5) 2 = ⟨4 / 5, 4 / 5⟩ := by
  norm_num [emitCoord, sqVVfin, sqV2p, getDl6_2, getEl6_2, VertexType.unwrap_ray,
    VertexType.time_elapsed, Ray.point_by_ratio, Coordinate.scale, Coordinate.add]

theorem sq_emit3 : emitCoord sqVVfin (1 / 5) 3 = ⟨1 / 5, 4 / 5⟩ := by
  norm_num [emitCoord, sqVVfin, sqV3p, getDl6_3, getEl6_3, VertexType.unwrap_ray,
    VertexType.time_elapsed, Ray.point_by_ratio, Coordinate.scale, Coordinate.add]

theorem sq_rings : ringsGo sqVVfin (1 / 5) sqQ.iter none [] = [sqRing] := by
  rw [sq_iter]
  simp only [ringsGo, sq_emit0, sq_emit1, sq_emit2, sq_emit3, if_pos rfl]
  norm_num [lsClose, List.getLast, sqRing]

theorem sq_nest : nestRings [sqRing] = [⟨sqRing, []⟩] := by
  have hsl : shoelace2 sqRing = 18 / 25 := by
    norm_num [sqRing, shoelace2, Coordinate.outer_product]
  have hw : winding_order sqRing = some .ccw := by
    rw [winding_order, hsl]
    norm_num
  simp [nestRings, hw]

/-- C1: for the unit-square exterior [(0,0),(1,0),(1,1),(0,1)] and distance
−0.2, buffer_polygon returns a MultiPolygon with exactly one polygon, whose
exterior ring is [(0.2,0.2),(0.8,0.2),(0.8,0.8),(0.2,0.8),(0.2,0.2)] (here
exactly, hence within ε = 1e-9, stated via coordinate-wise approximate
equality) and which has no interior rings. The simulation fuel 8 exhausts
the scheduling queue of this run. -/
theorem buffer_polygon_square_deflation :
    buffer_polygon 8 squareP (-0.2)
        = [⟨[⟨0.2, 0.2⟩, ⟨0.8, 0.2⟩, ⟨0.8, 0.8⟩, ⟨0.2, 0.8⟩, ⟨0.2, 0.2⟩], []⟩]
      ∧ (buffer_polygon 8 squareP (-0.2)).length = 1
      ∧ List.Forall₂ Coordinate.aeq
          ((buffer_polygon 8 squareP (-0.2)).getD 0 ⟨[], []⟩).exterior
          [⟨0.2, 0.2⟩, ⟨0.8, 0.2⟩, ⟨0.8, 0.8⟩, ⟨0.2, 0.8⟩, ⟨0.2, 0.2⟩]
      ∧ ((buffer_polygon 8 squareP (-0.2)).getD 0 ⟨[], []⟩).interiors = [] := by
  have hmain : buffer_polygon 8 squareP (-0.2)
      = [⟨[⟨0.2, 0.2⟩, ⟨0.8, 0.2⟩, ⟨0.8, 0.8⟩, ⟨0.2, 0.8⟩, ⟨0.2, 0.2⟩], []⟩] := by
    have horient : decide ((-0.2 : ℝ) < 0) = true := decide_eq_true (by norm_num)
    have habs : |(-0.2 : ℝ)| = 1 / 5 := by norm_num
    simp only [buffer_polygon, horient, habs, sq_skeleton, sq_gvq]
    rw [Skeleton.apply_vertex_queue]
    simp only [sq_rings, sq_nest]
    norm_num [sqRing]
  refine ⟨hmain, ?_, ?_, ?_⟩
  · rw [hmain]
    simp
  · rw [hmain]
    simp only [List.getD_cons_zero]
    rw [List.forall₂_same]
    intro x _
    exact ⟨feq_refl _, feq_refl _⟩
  · rw [hmain]
    simp

/-! ### Claim C7: time monotonicity along parent links -/

/-- The parent link of a vertex-table record: the Tree parent field, absent
on Split and Root records. -/
def VertexType.parent_link : VertexType → Option ℕ
  | .Tree _ _ _ p _ => p
  | _ => none

/-- Nonnegativity of every record time in a vertex table. -/
def timesNonneg (l : List VertexType) : Prop := ∀ v ∈ l, 0 ≤ v.time_elapsed

theorem dist_ray_nonneg (p : Coordinate) (r : Ray) : 0 ≤ p.dist_ray r :=
  div_nonneg (abs_nonneg _) (Real.sqrt_nonneg _)

theorem new_tree_vertex_time_nonneg (loc : Coordinate) (l r : Ray) (o : Bool) :
    0 ≤ (new_tree_vertex loc l r o).time_elapsed := by
  simp only [new_tree_vertex, VertexType.time_elapsed]
  exact dist_ray_nonneg _ _

theorem init_tree_vertex_time (lv cv rv : Coordinate) (o : Bool) :
    (init_tree_vertex lv cv rv o).time_elapsed = 0 := rfl

theorem set_parent_time (v : VertexType) (n : ℕ) :
    (v.set_parent n).time_elapsed = v.time_elapsed := by
  cases v <;> rfl

theorem timesNonneg_getD {l : List VertexType} (h : timesNonneg l) (i : ℕ) :
    0 ≤ (l.getD i default).time_elapsed := by
  rcases lt_or_ge i l.length with hi | hi
  · rw [List.getD_eq_getElem l default hi]
    exact h _ (List.getElem_mem hi)
  · rw [List.getD_eq_default l default hi]
    norm_num [default_vertex, VertexType.time_elapsed]

theorem timesNonneg_set {l : List VertexType} (h : timesNonneg l) (i : ℕ) {v : VertexType}
    (hv : 0 ≤ v.time_elapsed) : timesNonneg (l.set i v) := by
  intro w hw
  rcases List.mem_or_eq_of_mem_set hw with hw2 | rfl
  · exact h w hw2
  · exact hv

theorem timesNonneg_append {l m : List VertexType} (h : timesNonneg l) (h2 : timesNonneg m) :
    timesNonneg (l ++ m) := by
  intro w hw
  rcases List.mem_append.mp hw with hw2 | hw2
  · exact h w hw2
  · exact h2 w hw2

theorem processEvent_timesNonneg (orient : Bool) (s : SimState) (x : Timeline)
    (h : timesNonneg s.vv) : timesNonneg (processEvent orient s x).vv := by
  cases x with
  | ShrinkEvent time location lv rv lr rr tb =>
    simp only [processEvent]
    split
    · exact h
    · have h1 : timesNonneg (s.vv.set lr ((s.vv.getD lr default).set_parent s.vv.length)) :=
        timesNonneg_set h lr (by rw [set_parent_time]; exact timesNonneg_getD h lr)
      set vv1 := s.vv.set lr ((s.vv.getD lr default).set_parent s.vv.length) with hvv1
      have h2 : timesNonneg (vv1.set rr ((vv1.getD rr default).set_parent s.vv.length)) :=
        timesNonneg_set h1 rr (by rw [set_parent_time]; exact timesNonneg_getD h1 rr)
      set vv2 := vv1.set rr ((vv1.getD rr default).set_parent s.vv.length) with hvv2
      have h3 : timesNonneg (vv2 ++ [new_tree_vertex location
          ((s.vv.getD lr default).unwrap_base_ray.1)
          ((s.vv.getD rr default).unwrap_base_ray.2) orient]) := by
        refine timesNonneg_append h2 ?_
        intro w hw
        rw [List.mem_singleton] at hw
        subst hw
        exact new_tree_vertex_time_nonneg _ _ _ _
      set vv3 := vv2 ++ [new_tree_vertex location ((s.vv.getD lr default).unwrap_base_ray.1)
        ((s.vv.getD rr default).unwrap_base_ray.2) orient] with hvv3
      split
      · next q1 rv2 heq =>
        have h4 : timesNonneg (vv3.set rv2 ((vv3.getD rv2 default).set_parent s.vv.length)) :=
          timesNonneg_set h3 rv2 (by rw [set_parent_time]; exact timesNonneg_getD h3 rv2)
        refine timesNonneg_set h4 s.vv.length ?_
        simp only [VertexType.time_elapsed]
        exact timesNonneg_getD h4 s.vv.length
      · next q1 cvp heq => exact h3
      · exact h
  | SplitEvent time location av ar =>
    simp only [processEvent]
    split
    · exact h
    · rcases hfsv : find_split_vertex av s.q.cleanup s.vv false orient with _ | ⟨c, _ | ⟨d, rest⟩⟩
      · simp only [hfsv]
        exact h
      · simp only [hfsv]
        by_cases hg : feq c.1 time ∧ c.2.1.aeq location
        · rw [if_pos hg]
          have h3 : timesNonneg (s.vv ++
              [new_tree_vertex location ((s.vv.getD ar default).unwrap_base_ray.1)
                ((s.vv.getD c.2.2.2 default).unwrap_base_ray.2) orient,
               new_tree_vertex location
                ((s.vv.getD c.2.2.2 default).unwrap_base_ray.2.reverse)
                ((s.vv.getD ar default).unwrap_base_ray.2) orient,
               .Split ar location s.vv.length (s.vv.length + 1)
                ((s.vv.getD ar default).time_elapsed)]) := by
            refine timesNonneg_append h ?_
            intro w hw
            simp only [List.mem_cons, List.not_mem_nil, or_false] at hw
            rcases hw with rfl | rfl | rfl
            · exact new_tree_vertex_time_nonneg _ _ _ _
            · exact new_tree_vertex_time_nonneg _ _ _ _
            · simp only [VertexType.time_elapsed]
              exact timesNonneg_getD h ar
          split
          · next q1 cv1 cv2 heq =>
            exact timesNonneg_set h3 ar (by rw [set_parent_time]; exact timesNonneg_getD h3 ar)
          · exact h
        · rw [if_neg hg]
          exact h
      · simp only [hfsv]
        exact h

theorem simLoop_timesNonneg (orient : Bool) (fuel : ℕ) (s : SimState)
    (h : timesNonneg s.vv) : timesNonneg (simLoop orient fuel s).vv := by
  induction fuel generalizing s with
  | zero => exact h
  | succ n ih =>
    rw [simLoop_succ]
    cases hpop : popMin s.pq with
    | none => exact h
    | some pr => exact ih _ (processEvent_timesNonneg orient _ pr.1 h)

theorem initialize_timesNonneg (p : Polygon) (o : Bool) :
    timesNonneg (initialize_from_polygon p o) := by
  intro v hv
  simp only [initialize_from_polygon, loopVertices, List.mem_append, List.mem_flatten,
    List.mem_map, List.mem_range] at hv
  rcases hv with ⟨i, -, rfl⟩ | ⟨l, ⟨r, -, rfl⟩, hl⟩
  · norm_num [init_tree_vertex_time]
  · simp only [List.mem_map, List.mem_range] at hl
    obtain ⟨i, -, rfl⟩ := hl
    norm_num [init_tree_vertex_time]

/-- C7 counterexample: in the unit-square deflation skeleton the initial
vertex 0 (time_elapsed 0) has its parent link set to the merged vertex 4
(time_elapsed 1/2), so time_elapsed(child) ≥ time_elapsed(parent) within ε
fails. -/
theorem time_monotonicity_counterexample :
    ¬ (∀ i j : ℕ,
        ((skeleton_of_polygon squareP true 8).ray_vector.getD i default).parent_link = some j →
        fgeq ((skeleton_of_polygon squareP true 8).ray_vector.getD i default).time_elapsed
          ((skeleton_of_polygon squareP true 8).ray_vector.getD j default).time_elapsed) := by
  intro h
  have h04 := h 0 4 (by rw [sq_skeleton]; rfl)
  rw [sq_skeleton] at h04
  simp only [sqVVfin, getDl6_0, getEl6_0, getDl6_4, getEl6_0, getEl6_4, sqV0p, sqV4p, VertexType.time_elapsed] at h04
  rcases h04 with h04 | h04
  · norm_num at h04
  · rw [feq] at h04
    rw [show |(0 : ℝ) - 1 / 2| = 1 / 2 by rw [abs_sub_comm]; norm_num] at h04
    norm_num [eps] at h04

/-- C7 amended: time runs the other way along parent links. Every record of
every skeleton has nonnegative time_elapsed (so child ≤ parent holds for
every initial-vertex child), and in the square deflation run every parent
link satisfies time_elapsed(child) ≤ time_elapsed(parent) within ε — the
reverse of the claimed direction. -/
theorem time_monotonicity_amended :
    (∀ (p : Polygon) (orient : Bool) (fuel : ℕ) (i : ℕ),
        0 ≤ ((skeleton_of_polygon p orient fuel).ray_vector.getD i default).time_elapsed)
    ∧ (∀ i j : ℕ,
        ((skeleton_of_polygon squareP true 8).ray_vector.getD i default).parent_link = some j →
        fleq ((skeleton_of_polygon squareP true 8).ray_vector.getD i default).time_elapsed
          ((skeleton_of_polygon squareP true 8).ray_vector.getD j default).time_elapsed) := by
  constructor
  · intro p orient fuel i
    have hinv : timesNonneg (skeleton_of_polygon p orient fuel).ray_vector := by
      simp only [skeleton_of_polygon, init_pq]
      exact simLoop_timesNonneg orient fuel _ (initialize_timesNonneg p orient)
    exact timesNonneg_getD hinv i
  · intro i j hij
    rw [sq_skeleton] at hij ⊢
    rcases lt_or_ge i 6 with hi | hi
    · have hlen : sqVVfin.length = 6 := rfl
      interval_cases i
      · simp only [sqVVfin, getDl6_0, getEl6_0, getEl6_0, sqV0p, VertexType.parent_link, Option.some.injEq] at hij
        subst hij
        simp only [sqVVfin, getDl6_0, getEl6_0, getDl6_4, sqV0p, sqV4p, VertexType.time_elapsed]
        exact Or.inl (by norm_num)
      · simp only [sqVVfin, getDl6_1, getEl6_1, sqV1p, VertexType.parent_link, Option.some.injEq] at hij
        subst hij
        simp only [sqVVfin, getDl6_1, getEl6_1, getDl6_4, sqV1p, sqV4p, VertexType.time_elapsed]
        exact Or.inl (by norm_num)
      · simp only [sqVVfin, getDl6_2, getEl6_2, sqV2p, VertexType.parent_link, Option.some.injEq] at hij
        subst hij
        simp only [sqVVfin, getDl6_2, getEl6_2, getDl6_5, sqV2p, VertexType.time_elapsed]
        exact Or.inl (by norm_num)
      · simp only [sqVVfin, getDl6_3, getEl6_3, sqV3p, VertexType.parent_link, Option.some.injEq] at hij
        subst hij
        simp only [sqVVfin, getDl6_3, getEl6_3, getDl6_5, sqV3p, VertexType.time_elapsed]
        exact Or.inl (by norm_num)
      · simp only [sqVVfin, getDl6_4, getEl6_4, sqV4p, VertexType.parent_link, Option.some.injEq] at hij
        subst hij
        simp only [sqVVfin, getDl6_4, getEl6_4, getDl6_5, sqV4p, VertexType.time_elapsed]
        exact Or.inr (feq_refl _)
      · simp only [sqVVfin, getDl6_5, getEl6_5, VertexType.parent_link] at hij
        exact Option.noConfusion hij
    · rw [List.getD_eq_default _ _ (by simpa using hi)] at hij
      simp only [default_vertex, VertexType.parent_link] at hij
      exact Option.noConfusion hij

/-- Witness for the amended C7 at the concrete link from vertex 0 to its
parent 4 in the square run. -/
theorem time_monotonicity_amended_witness :
    ((skeleton_of_polygon squareP true 8).ray_vector.getD 0 default).parent_link = some 4
      ∧ fleq ((skeleton_of_polygon squareP true 8).ray_vector.getD 0 default).time_elapsed
          ((skeleton_of_polygon squareP true 8).ray_vector.getD 4 default).time_elapsed :=
  ⟨by rw [sq_skeleton]; rfl,
    time_monotonicity_amended.2 0 4 (by rw [sq_skeleton]; rfl)⟩

/-! ### The concave-pentagon run: the first popped event is a split -/

/-- Evaluation of a norm whose squared components sum to a perfect square. -/
theorem norm_eval (x y n : ℝ) (h : x ^ 2 + y ^ 2 = n ^ 2) (hn : 0 ≤ n) :
    Coordinate.norm ⟨x, y⟩ = n := by
  rw [Coordinate.norm, h, Real.sqrt_sq hn]

theorem sqrt25 : Real.sqrt 25 = 5 := by
  rw [show (25 : ℝ) = 5 ^ 2 by norm_num, Real.sqrt_sq (by norm_num : (0:ℝ) ≤ 5)]

theorem sqrt49 : Real.sqrt 49 = 7 := by
  rw [show (49 : ℝ) = 7 ^ 2 by norm_num, Real.sqrt_sq (by norm_num : (0:ℝ) ≤ 7)]

theorem sqrt64 : Real.sqrt 64 = 8 := by
  rw [show (64 : ℝ) = 8 ^ 2 by norm_num, Real.sqrt_sq (by norm_num : (0:ℝ) ≤ 8)]

theorem norm_07 : Coordinate.norm ⟨0, 7⟩ = 7 := norm_eval _ _ _ (by norm_num) (by norm_num)

theorem norm_0m7 : Coordinate.norm ⟨0, -7⟩ = 7 := norm_eval _ _ _ (by norm_num) (by norm_num)

theorem norm_80 : Coordinate.norm ⟨8, 0⟩ = 8 := norm_eval _ _ _ (by norm_num) (by norm_num)

theorem norm_m80 : Coordinate.norm ⟨-8, 0⟩ = 8 := norm_eval _ _ _ (by norm_num) (by norm_num)

theorem norm_43 : Coordinate.norm ⟨4, 3⟩ = 5 := norm_eval _ _ _ (by norm_num) (by norm_num)

theorem norm_m43 : Coordinate.norm ⟨-4, 3⟩ = 5 := norm_eval _ _ _ (by norm_num) (by norm_num)

theorem norm_4m3 : Coordinate.norm ⟨4, -3⟩ = 5 := norm_eval _ _ _ (by norm_num) (by norm_num)

theorem norm_m4m3 : Coordinate.norm ⟨-4, -3⟩ = 5 := norm_eval _ _ _ (by norm_num) (by norm_num)

/-- The concave pentagon with a reflex vertex at (4,4), with closing repeat. -/
def ccP : Polygon := ⟨[⟨0, 0⟩, ⟨8, 0⟩, ⟨8, 7⟩, ⟨4, 4⟩, ⟨0, 7⟩, ⟨0, 0⟩], []⟩

/-- The initial vertex of the pentagon at (0,0). -/
def ccV0 : VertexType :=
  .Tree ⟨⟨0, 0⟩, ⟨1, 1⟩⟩ ⟨⟨0, 0⟩, ⟨0, 7⟩⟩ ⟨⟨0, 0⟩, ⟨8, 0⟩⟩ none 0

/-- The initial vertex of the pentagon at (8,0). -/
def ccV1 : VertexType :=
  .Tree ⟨⟨8, 0⟩, ⟨-1, 1⟩⟩ ⟨⟨8, 0⟩, ⟨-8, 0⟩⟩ ⟨⟨8, 0⟩, ⟨0, 7⟩⟩ none 0

/-- The initial vertex of the pentagon at (8,7). -/
def ccV2 : VertexType :=
  .Tree ⟨⟨8, 7⟩, ⟨-1, -2⟩⟩ ⟨⟨8, 7⟩, ⟨0, -7⟩⟩ ⟨⟨8, 7⟩, ⟨-4, -3⟩⟩ none 0

/-- The initial (reflex) vertex of the pentagon at (4,4), moving down. -/
def ccV3 : VertexType :=
  .Tree ⟨⟨4, 4⟩, ⟨0, -5 / 4⟩⟩ ⟨⟨4, 4⟩, ⟨4, 3⟩⟩ ⟨⟨4, 4⟩, ⟨-4, 3⟩⟩ none 0

/-- The initial vertex of the pentagon at (0,7). -/
def ccV4 : VertexType :=
  .Tree ⟨⟨0, 7⟩, ⟨1, -2⟩⟩ ⟨⟨0, 7⟩, ⟨4, -3⟩⟩ ⟨⟨0, 7⟩, ⟨0, -7⟩⟩ none 0

/-- The initial vertex table of the pentagon. -/
def ccVV : List VertexType := [ccV0, ccV1, ccV2, ccV3, ccV4]

/-- The initial active vertex queue of the pentagon. -/
def ccQ : VertexQueue :=
  ⟨[⟨0, 4, 1, false⟩, ⟨1, 0, 2, false⟩, ⟨2, 1, 3, false⟩, ⟨3, 2, 4, false⟩, ⟨4, 3, 0, false⟩]⟩

theorem cc_init : initialize_from_polygon ccP true = ccVV := by
  norm_num [initialize_from_polygon, ccP, ccVV, ccV0, ccV1, ccV2, ccV3, ccV4, loopVertices,
    List.range_succ, init_tree_vertex, Ray.new, Ray.bisector, Coordinate.normalize,
    norm_07, norm_0m7, norm_80, norm_m80, norm_43, norm_m43, norm_4m3, norm_m4m3,
    sqrt25, sqrt49, sqrt64, abs_div, Coordinate.norm, Coordinate.divScalar, Coordinate.add, Coordinate.sub, Coordinate.neg,
    Coordinate.outer_product, Ray.point_by_ratio, Coordinate.scale, Coordinate.dist_ray]

theorem cc_vq : vqInitFromPolygon ccP = ccQ := by
  simp [vqInitFromPolygon, ccP, ccQ, loopSlots, List.range_succ]

theorem cc_iter : ccQ.iter =
    [(0, .PointerIndex 0, 0), (0, .PointerIndex 1, 1), (0, .PointerIndex 2, 2),
     (0, .PointerIndex 3, 3), (0, .PointerIndex 4, 4)] := by
  decide

theorem ccQ_rv0 : ccQ.rv (.PointerIndex 0) = .PointerIndex 1 := rfl

theorem ccQ_rv1 : ccQ.rv (.PointerIndex 1) = .PointerIndex 2 := rfl

theorem ccQ_rv2 : ccQ.rv (.PointerIndex 2) = .PointerIndex 3 := rfl

theorem ccQ_rv3 : ccQ.rv (.PointerIndex 3) = .PointerIndex 4 := rfl

theorem ccQ_rv4 : ccQ.rv (.PointerIndex 4) = .PointerIndex 0 := rfl

theorem ccQ_lv0 : ccQ.lv (.PointerIndex 0) = .PointerIndex 4 := rfl

theorem ccQ_lv1 : ccQ.lv (.PointerIndex 1) = .PointerIndex 0 := rfl

theorem ccQ_lv2 : ccQ.lv (.PointerIndex 2) = .PointerIndex 1 := rfl

theorem ccQ_lv3 : ccQ.lv (.PointerIndex 3) = .PointerIndex 2 := rfl

theorem ccQ_lv4 : ccQ.lv (.PointerIndex 4) = .PointerIndex 3 := rfl

theorem ccQ_real0 : ccQ.get_real_index (.PointerIndex 0) = 0 := rfl

theorem ccQ_real1 : ccQ.get_real_index (.PointerIndex 1) = 1 := rfl

theorem ccQ_real2 : ccQ.get_real_index (.PointerIndex 2) = 2 := rfl

theorem ccQ_real3 : ccQ.get_real_index (.PointerIndex 3) = 3 := rfl

theorem ccQ_real4 : ccQ.get_real_index (.PointerIndex 4) = 4 := rfl

theorem ccVV_g0 : ccVV.getD 0 default = ccV0 := rfl

theorem ccVV_g1 : ccVV.getD 1 default = ccV1 := rfl

theorem ccVV_g2 : ccVV.getD 2 default = ccV2 := rfl

theorem ccVV_g3 : ccVV.getD 3 default = ccV3 := rfl

theorem ccVV_g4 : ccVV.getD 4 default = ccV4 := rfl

theorem ccVV_e0 : ccVV[(0 : ℕ)]? = some ccV0 := rfl

theorem ccVV_e1 : ccVV[(1 : ℕ)]? = some ccV1 := rfl

theorem ccVV_e2 : ccVV[(2 : ℕ)]? = some ccV2 := rfl

theorem ccVV_e3 : ccVV[(3 : ℕ)]? = some ccV3 := rfl

theorem ccVV_e4 : ccVV[(4 : ℕ)]? = some ccV4 := rfl

/-- The initial shrink event of the pentagon for the pair (0,1). -/
def ccE01 : Timeline := .ShrinkEvent 4 ⟨4, 4⟩ (.PointerIndex 0) (.PointerIndex 1) 0 1 8

/-- The initial shrink event of the pentagon for the pair (1,2). -/
def ccE12 : Timeline :=
  .ShrinkEvent (7 / 3) ⟨17 / 3, 7 / 3⟩ (.PointerIndex 1) (.PointerIndex 2) 1 2 7

/-- The initial shrink event of the pentagon for the pair (2,3). -/
def ccE23 : Timeline := .ShrinkEvent 4 ⟨4, -1⟩ (.PointerIndex 2) (.PointerIndex 3) 2 3 5

/-- The initial shrink event of the pentagon for the pair (3,4). -/
def ccE34 : Timeline := .ShrinkEvent 4 ⟨4, -1⟩ (.PointerIndex 3) (.PointerIndex 4) 3 4 5

/-- The initial shrink event of the pentagon for the pair (4,0). -/
def ccE40 : Timeline :=
  .ShrinkEvent (7 / 3) ⟨7 / 3, 7 / 3⟩ (.PointerIndex 4) (.PointerIndex 0) 4 0 7

/-- The initial split event of the pentagon: the reflex vertex 3 strikes the
bottom edge at (4, 16/9) at time 16/9. -/
def ccES : Timeline := .SplitEvent (16 / 9) ⟨4, 16 / 9⟩ (.PointerIndex 3) 3

theorem cc_shrink0 : make_shrink_event (.PointerIndex 0) ccQ ccVV true = [ccE01] := by
  norm_num [make_shrink_event, shrinkEventFor, ccE01, ccQ_rv0, ccQ_lv0, ccQ_real0, ccQ_real1,
    ccVV_g0, ccVV_g1, ccVV_e0, ccVV_e1, ccV0, ccV1, VertexType.unwrap_ray,
    VertexType.unwrap_base_ray, Ray.is_intersect, Ray.is_parallel, Ray.interParam,
    Ray.intersect, Ray.point_by_ratio, Coordinate.outer_product, Coordinate.sub,
    Coordinate.add, Coordinate.scale, Coordinate.dist_ray, Coordinate.dist_coord,
    Coordinate.norm, sqrt25, sqrt49, sqrt64, abs_div, feq, fneq, eps]

theorem cc_shrink1 : make_shrink_event (.PointerIndex 1) ccQ ccVV true = [ccE12] := by
  norm_num [make_shrink_event, shrinkEventFor, ccE12, ccQ_rv1, ccQ_lv1, ccQ_real1, ccQ_real2,
    ccVV_g1, ccVV_g2, ccVV_e1, ccVV_e2, ccV1, ccV2, VertexType.unwrap_ray,
    VertexType.unwrap_base_ray, Ray.is_intersect, Ray.is_parallel, Ray.interParam,
    Ray.intersect, Ray.point_by_ratio, Coordinate.outer_product, Coordinate.sub,
    Coordinate.add, Coordinate.scale, Coordinate.dist_ray, Coordinate.dist_coord,
    Coordinate.norm, sqrt25, sqrt49, sqrt64, abs_div, feq, fneq, eps]

theorem cc_shrink2 : make_shrink_event (.PointerIndex 2) ccQ ccVV true = [ccE23] := by
  norm_num [make_shrink_event, shrinkEventFor, ccE23, ccQ_rv2, ccQ_lv2, ccQ_real2, ccQ_real3,
    ccVV_g2, ccVV_g3, ccVV_e2, ccVV_e3, ccV2, ccV3, VertexType.unwrap_ray,
    VertexType.unwrap_base_ray, Ray.is_intersect, Ray.is_parallel, Ray.interParam,
    Ray.intersect, Ray.point_by_ratio, Coordinate.outer_product, Coordinate.sub,
    Coordinate.add, Coordinate.scale, Coordinate.dist_ray, Coordinate.dist_coord,
    Coordinate.norm, sqrt25, sqrt49, sqrt64, abs_div, feq, fneq, eps]

theorem cc_shrink3 : make_shrink_event (.PointerIndex 3) ccQ ccVV true = [ccE34] := by
  norm_num [make_shrink_event, shrinkEventFor, ccE34, ccQ_rv3, ccQ_lv3, ccQ_real3, ccQ_real4,
    ccVV_g3, ccVV_g4, ccVV_e3, ccVV_e4, ccV3, ccV4, VertexType.unwrap_ray,
    VertexType.unwrap_base_ray, Ray.is_intersect, Ray.is_parallel, Ray.interParam,
    Ray.intersect, Ray.point_by_ratio, Coordinate.outer_product, Coordinate.sub,
    Coordinate.add, Coordinate.scale, Coordinate.dist_ray, Coordinate.dist_coord,
    Coordinate.norm, sqrt25, sqrt49, sqrt64, abs_div, feq, fneq, eps]

theorem cc_shrink4 : make_shrink_event (.PointerIndex 4) ccQ ccVV true = [ccE40] := by
  norm_num [make_shrink_event, shrinkEventFor, ccE40, ccQ_rv4, ccQ_lv4, ccQ_real4, ccQ_real0,
    ccVV_g4, ccVV_g0, ccVV_e4, ccVV_e0, ccV4, ccV0, VertexType.unwrap_ray,
    VertexType.unwrap_base_ray, Ray.is_intersect, Ray.is_parallel, Ray.interParam,
    Ray.intersect, Ray.point_by_ratio, Coordinate.outer_product, Coordinate.sub,
    Coordinate.add, Coordinate.scale, Coordinate.dist_ray, Coordinate.dist_coord,
    Coordinate.norm, sqrt25, sqrt49, sqrt64, abs_div, feq, fneq, eps]

theorem cc_splitE0 : make_split_event (.PointerIndex 0) ccQ ccVV true = [] := by
  norm_num [make_split_event, find_split_vertex, ccQ_real0, ccVV_g0, ccVV_e0, ccV0,
    VertexType.unwrap_base_ray, Coordinate.outer_product, fleq, feq, eps]

theorem cc_splitE1 : make_split_event (.PointerIndex 1) ccQ ccVV true = [] := by
  norm_num [make_split_event, find_split_vertex, ccQ_real1, ccVV_g1, ccVV_e1, ccV1,
    VertexType.unwrap_base_ray, Coordinate.outer_product, fleq, feq, eps]

theorem cc_splitE2 : make_split_event (.PointerIndex 2) ccQ ccVV true = [] := by
  norm_num [make_split_event, find_split_vertex, ccQ_real2, ccVV_g2, ccVV_e2, ccV2,
    VertexType.unwrap_base_ray, Coordinate.outer_product, fleq, feq, eps]

theorem cc_splitE4 : make_split_event (.PointerIndex 4) ccQ ccVV true = [] := by
  norm_num [make_split_event, find_split_vertex, ccQ_real4, ccVV_g4, ccVV_e4, ccV4,
    VertexType.unwrap_base_ray, Coordinate.outer_product, fleq, feq, eps]

/-- Evaluation rule for `Ray.orientation` in the strictly-left case. -/
theorem orientation_pos (r : Ray) (p : Coordinate)
    (h1 : eps * r.angle.norm ≤ |r.angle.outer_product (p.sub r.origin)|)
    (h2 : 0 < r.angle.outer_product (p.sub r.origin)) :
    r.orientation p = 1 := by
  rw [Ray.orientation, if_neg (not_lt.mpr h1), if_pos h2]

/-- Evaluation rule for `Ray.orientation` in the strictly-right case. -/
theorem orientation_neg (r : Ray) (p : Coordinate)
    (h1 : eps * r.angle.norm ≤ |r.angle.outer_product (p.sub r.origin)|)
    (h2 : r.angle.outer_product (p.sub r.origin) < 0) :
    r.orientation p = -1 := by
  rw [Ray.orientation, if_neg (not_lt.mpr h1), if_neg (not_lt.mpr (le_of_lt h2))]

theorem sqrt_two_le_two : Real.sqrt 2 ≤ 2 := by
  nlinarith [Real.sq_sqrt (show (0 : ℝ) ≤ 2 by norm_num), Real.sqrt_nonneg 2]

theorem norm_11 : Coordinate.norm ⟨1, 1⟩ = Real.sqrt 2 := by
  norm_num [Coordinate.norm]

theorem norm_m11 : Coordinate.norm ⟨-1, 1⟩ = Real.sqrt 2 := by
  norm_num [Coordinate.norm]

/-- The split point (4, 16/9) lies strictly left of the bottom edge ray. -/
theorem ccOrB : Ray.orientation ⟨⟨0, 0⟩, ⟨8, 0⟩⟩ ⟨4, 16 / 9⟩ = 1 := by
  apply orientation_pos
  · show eps * Coordinate.norm ⟨8, 0⟩ ≤ |Coordinate.outer_product ⟨8, 0⟩ (Coordinate.sub ⟨4, 16 / 9⟩ ⟨0, 0⟩)|
    have hb : |Coordinate.outer_product ⟨8, 0⟩ (Coordinate.sub ⟨4, 16 / 9⟩ ⟨0, 0⟩)| = 128 / 9 := by
      norm_num [Coordinate.outer_product, Coordinate.sub]
    rw [hb]
    norm_num [Coordinate.norm, sqrt64, eps]
  · show 0 < Coordinate.outer_product ⟨8, 0⟩ (Coordinate.sub ⟨4, 16 / 9⟩ ⟨0, 0⟩)
    norm_num [Coordinate.outer_product, Coordinate.sub]

/-- The split point (4, 16/9) lies strictly right of vertex 0's trajectory. -/
theorem ccOr0 : Ray.orientation ⟨⟨0, 0⟩, ⟨1, 1⟩⟩ ⟨4, 16 / 9⟩ = -1 := by
  apply orientation_neg
  · show eps * Coordinate.norm ⟨1, 1⟩ ≤ |Coordinate.outer_product ⟨1, 1⟩ (Coordinate.sub ⟨4, 16 / 9⟩ ⟨0, 0⟩)|
    have hb : |Coordinate.outer_product ⟨1, 1⟩ (Coordinate.sub ⟨4, 16 / 9⟩ ⟨0, 0⟩)| = 20 / 9 := by
      norm_num [Coordinate.outer_product, Coordinate.sub]
    rw [hb, norm_11, eps]
    nlinarith [sqrt_two_le_two, Real.sqrt_nonneg 2]
  · show Coordinate.outer_product ⟨1, 1⟩ (Coordinate.sub ⟨4, 16 / 9⟩ ⟨0, 0⟩) < 0
    norm_num [Coordinate.outer_product, Coordinate.sub]

/-- The split point (4, 16/9) lies strictly left of vertex 1's trajectory. -/
theorem ccOr1 : Ray.orientation ⟨⟨8, 0⟩, ⟨-1, 1⟩⟩ ⟨4, 16 / 9⟩ = 1 := by
  apply orientation_pos
  · show eps * Coordinate.norm ⟨-1, 1⟩ ≤ |Coordinate.outer_product ⟨-1, 1⟩ (Coordinate.sub ⟨4, 16 / 9⟩ ⟨8, 0⟩)|
    have hb : |Coordinate.outer_product ⟨-1, 1⟩ (Coordinate.sub ⟨4, 16 / 9⟩ ⟨8, 0⟩)| = 20 / 9 := by
      norm_num [Coordinate.outer_product, Coordinate.sub]
    rw [hb, norm_m11, eps]
    nlinarith [sqrt_two_le_two, Real.sqrt_nonneg 2]
  · show 0 < Coordinate.outer_product ⟨-1, 1⟩ (Coordinate.sub ⟨4, 16 / 9⟩ ⟨8, 0⟩)
    norm_num [Coordinate.outer_product, Coordinate.sub]

theorem cc_split3 : make_split_event (.PointerIndex 3) ccQ ccVV true = [ccES] := by
  norm_num [make_split_event, find_split_vertex, cc_iter, splitCandFor, sortCands, insertCand,
    List.filterMap_cons, List.filterMap_nil, List.foldl_cons, List.foldl_nil,
    ccQ_rv0, ccQ_rv1, ccQ_rv2, ccQ_rv3, ccQ_rv4, ccQ_lv3, ccQ_real0, ccQ_real1, ccQ_real3,
    ccVV_g0, ccVV_g3, ccVV_e0, ccVV_e3, ccV0, ccV3, ccES, ccOrB,
    VertexType.unwrap_ray, VertexType.unwrap_base_ray,
    Ray.is_parallel, Ray.is_intersect, Ray.interParam, Ray.intersect, Ray.point_by_ratio,
    Ray.bisector, Ray.reverse,
    Coordinate.normalize, Coordinate.divScalar, Coordinate.add, Coordinate.sub, Coordinate.neg,
    Coordinate.scale, Coordinate.outer_product, Coordinate.dist_ray, Coordinate.dist_coord,
    Coordinate.norm, sqrt25, sqrt49, sqrt64, norm_43, norm_m43, norm_80, abs_div,
    fleq, fgeq, feq, fneq, eps]

theorem cc_events : initialEvents true ccVV ccQ = [ccE01, ccE12, ccE23, ccE34, ccES, ccE40] := by
  rw [initialEvents, cc_iter]
  simp only [List.foldl_cons, List.foldl_nil]
  rw [cc_shrink0, cc_splitE0, cc_shrink1, cc_splitE1, cc_shrink2, cc_splitE2,
    cc_shrink3, cc_split3, cc_shrink4, cc_splitE4]
  rfl

theorem fneq_pos (a b c : ℝ) (hc : a - b = c) (h : eps ≤ c) : fneq a b := by
  simp only [fneq, feq, hc]
  rw [abs_of_nonneg (le_trans (le_of_lt eps_pos) h)]
  exact not_lt.mpr h

theorem fneq_negd (a b c : ℝ) (hc : a - b = -c) (h : eps ≤ c) : fneq a b := by
  simp only [fneq, feq, hc, abs_neg]
  rw [abs_of_nonneg (le_trans (le_of_lt eps_pos) h)]
  exact not_lt.mpr h

/-- `Timeline::partial_cmp` on times that differ by at least ε, less case. -/
theorem cmp_lt_of_time (a b : Timeline) (h1 : fneq a.time b.time) (h2 : a.time < b.time) :
    Timeline.cmp a b = .lt := by
  rw [Timeline.cmp, if_pos h1, rcmp, if_pos h2]

/-- `Timeline::partial_cmp` on times that differ by at least ε, greater case. -/
theorem cmp_gt_of_time (a b : Timeline) (h1 : fneq a.time b.time) (h2 : b.time < a.time) :
    Timeline.cmp a b = .gt := by
  rw [Timeline.cmp, if_pos h1, rcmp, if_neg (not_lt.mpr (le_of_lt h2)), if_pos h2]

theorem cc_cmp_40S : Timeline.cmp ccE40 ccES = .gt :=
  cmp_gt_of_time _ _ (fneq_pos _ _ (5 / 9) (by norm_num [ccE40, ccES, Timeline.time])
    (by norm_num [eps])) (by norm_num [ccE40, ccES, Timeline.time])

theorem cc_cmp_S01 : Timeline.cmp ccES ccE01 = .lt :=
  cmp_lt_of_time _ _ (fneq_negd _ _ (20 / 9) (by norm_num [ccE01, ccES, Timeline.time])
    (by norm_num [eps])) (by norm_num [ccE01, ccES, Timeline.time])

theorem cc_cmp_S12 : Timeline.cmp ccES ccE12 = .lt :=
  cmp_lt_of_time _ _ (fneq_negd _ _ (5 / 9) (by norm_num [ccE12, ccES, Timeline.time])
    (by norm_num [eps])) (by norm_num [ccE12, ccES, Timeline.time])

theorem cc_cmp_S23 : Timeline.cmp ccES ccE23 = .lt :=
  cmp_lt_of_time _ _ (fneq_negd _ _ (20 / 9) (by norm_num [ccE23, ccES, Timeline.time])
    (by norm_num [eps])) (by norm_num [ccE23, ccES, Timeline.time])

theorem cc_cmp_S34 : Timeline.cmp ccES ccE34 = .lt :=
  cmp_lt_of_time _ _ (fneq_negd _ _ (20 / 9) (by norm_num [ccE34, ccES, Timeline.time])
    (by norm_num [eps])) (by norm_num [ccE34, ccES, Timeline.time])

/-- The split event is popped first from the pentagon's initial queue. -/
theorem cc_pop : popMin [ccE01, ccE12, ccE23, ccE34, ccES, ccE40]
    = some (ccES, [ccE01, ccE12, ccE23, ccE34, ccE40]) := by
  simp [popMin, cc_cmp_40S, cc_cmp_S34, cc_cmp_S23, cc_cmp_S12, cc_cmp_S01]

/-- The rescan of the pentagon's split event confirms the scheduled
candidate: the bottom edge struck at (4, 16/9). -/
theorem cc_rescan : find_split_vertex (.PointerIndex 3) ccQ ccVV false true
    = [(16 / 9, ⟨4, 16 / 9⟩, .PointerIndex 0, 0)] := by
  norm_num [find_split_vertex, cc_iter, splitCandFor, sortCands, insertCand,
    List.filterMap_cons, List.filterMap_nil, List.foldl_cons, List.foldl_nil,
    ccQ_rv0, ccQ_rv1, ccQ_rv2, ccQ_rv3, ccQ_rv4, ccQ_lv3, ccQ_real0, ccQ_real1, ccQ_real3,
    ccVV_g0, ccVV_g1, ccVV_g3, ccVV_e0, ccVV_e1, ccVV_e3, ccV0, ccV1, ccV3,
    ccOrB, ccOr0, ccOr1,
    VertexType.unwrap_ray, VertexType.unwrap_base_ray,
    Ray.is_parallel, Ray.is_intersect, Ray.interParam, Ray.intersect, Ray.point_by_ratio,
    Ray.bisector, Ray.reverse,
    Coordinate.normalize, Coordinate.divScalar, Coordinate.add, Coordinate.sub, Coordinate.neg,
    Coordinate.scale, Coordinate.outer_product, Coordinate.dist_ray, Coordinate.dist_coord,
    Coordinate.norm, sqrt25, sqrt49, sqrt64, norm_43, norm_m43, norm_80, abs_div,
    fleq, fgeq, feq, fneq, eps]

/-- The queue after the pentagon's split event: the five-slot loop is cut
into the loops {3,1,2} and {5,4,0}. -/
def ccQb : VertexQueue :=
  ⟨[⟨0, 4, 5, false⟩, ⟨1, 3, 2, false⟩, ⟨2, 1, 3, false⟩,
    ⟨5, 2, 1, false⟩, ⟨4, 5, 0, false⟩, ⟨6, 0, 4, false⟩]⟩

theorem cc_apply : apply_event ccQ (.EdgeEvent (16 / 9) 3 0 5 6)
    = (ccQb, some (.PointerIndex 3), some (.PointerIndex 5)) := by decide

/-- The east child of the pentagon's split vertex. -/
def ccNtv1 : VertexType :=
  .Tree ⟨⟨4, 16 / 9⟩, ⟨3, 1⟩⟩ ⟨⟨4, 4⟩, ⟨4, 3⟩⟩ ⟨⟨0, 0⟩, ⟨8, 0⟩⟩ none (16 / 9)

/-- The west child of the pentagon's split vertex. -/
def ccNtv2 : VertexType :=
  .Tree ⟨⟨4, 16 / 9⟩, ⟨-3, 1⟩⟩ ⟨⟨0, 0⟩, ⟨-8, 0⟩⟩ ⟨⟨4, 4⟩, ⟨-4, 3⟩⟩ none (16 / 9)

/-- The Split record appended by the pentagon's split event; its
time_elapsed is the anchor's creation time 0, not the event time 16/9. -/
def ccSplitRec : VertexType := .Split 3 ⟨4, 16 / 9⟩ 5 6 0

/-- The reflex vertex after its parent link is set to the Split record. -/
def ccV3p : VertexType :=
  .Tree ⟨⟨4, 4⟩, ⟨0, -5 / 4⟩⟩ ⟨⟨4, 4⟩, ⟨4, 3⟩⟩ ⟨⟨4, 4⟩, ⟨-4, 3⟩⟩ (some 7) 0

/-- The vertex table after the pentagon's split event. -/
def ccVV2 : List VertexType :=
  [ccV0, ccV1, ccV2, ccV3p, ccV4, ccNtv1, ccNtv2, ccSplitRec]

/-- The logged edge event of the pentagon's split. -/
def ccEdgeEv : Event := .EdgeEvent (16 / 9) 3 0 5 6

def ccN1 : Timeline :=
  .ShrinkEvent (7 / 3) ⟨17 / 3, 7 / 3⟩ (.PointerIndex 3) (.PointerIndex 1) 5 1
    (Real.sqrt (1552 / 81))

def ccN2 : Timeline :=
  .ShrinkEvent (7 / 3) ⟨17 / 3, 7 / 3⟩ (.PointerIndex 2) (.PointerIndex 3) 2 5
    (Real.sqrt (3505 / 81))

def ccN3 : Timeline :=
  .ShrinkEvent (7 / 3) ⟨7 / 3, 7 / 3⟩ (.PointerIndex 5) (.PointerIndex 4) 6 4
    (Real.sqrt (3505 / 81))

def ccN4 : Timeline :=
  .ShrinkEvent (7 / 3) ⟨7 / 3, 7 / 3⟩ (.PointerIndex 0) (.PointerIndex 5) 0 6
    (Real.sqrt (1552 / 81))

theorem ccQ_slot3 : ccQ.slotAt 3 = ⟨3, 2, 4, false⟩ := rfl

theorem ccQb_rv2 : ccQb.rv (.PointerIndex 2) = .PointerIndex 3 := rfl

theorem ccQb_rv3 : ccQb.rv (.PointerIndex 3) = .PointerIndex 1 := rfl

theorem ccQb_lv3 : ccQb.lv (.PointerIndex 3) = .PointerIndex 2 := rfl

theorem ccQb_rv5 : ccQb.rv (.PointerIndex 5) = .PointerIndex 4 := rfl

theorem ccQb_lv5 : ccQb.lv (.PointerIndex 5) = .PointerIndex 0 := rfl

theorem ccQb_rv0 : ccQb.rv (.PointerIndex 0) = .PointerIndex 5 := rfl

theorem ccQb_real0 : ccQb.get_real_index (.PointerIndex 0) = 0 := rfl

theorem ccQb_real1 : ccQb.get_real_index (.PointerIndex 1) = 1 := rfl

theorem ccQb_real2 : ccQb.get_real_index (.PointerIndex 2) = 2 := rfl

theorem ccQb_real3 : ccQb.get_real_index (.PointerIndex 3) = 5 := rfl

theorem ccQb_real4 : ccQb.get_real_index (.PointerIndex 4) = 4 := rfl

theorem ccQb_real5 : ccQb.get_real_index (.PointerIndex 5) = 6 := rfl

/-- The pentagon's split event fires: the two children and the Split record
are appended, the reflex vertex is linked to the Split record, four shrink
events are rescheduled and the edge event is logged. -/
theorem ccVV_len : ccVV.length = 5 := rfl

set_option maxHeartbeats 3200000 in
/-- The pentagon's split event fires: the two children and the Split record
are appended, the reflex vertex is linked to the Split record, four shrink
events are rescheduled and the edge event is logged. -/
theorem cc_step1 : processEvent true ⟨ccVV, [ccE01, ccE12, ccE23, ccE34, ccE40], ccQ, []⟩ ccES
    = ⟨ccVV2, [ccE01, ccE12, ccE23, ccE34, ccE40, ccN1, ccN2, ccN3, ccN4], ccQb, [ccEdgeEv]⟩ := by
  norm_num [processEvent, ccES, IndexType.get_index, ccQ_slot3, ccQ_real3,
    VertexQueue.cleanup, cc_rescan, cc_apply, Coordinate.aeq, ccVV_len, feq, eps, ccEdgeEv]
  norm_num [ccVV, ccVV2, ccV0, ccV1, ccV2, ccV3, ccV4, ccV3p, ccNtv1, ccNtv2, ccSplitRec,
    ccN1, ccN2, ccN3, ccN4,
    VertexType.set_parent, VertexType.time_elapsed, VertexType.unwrap_base_ray,
    VertexType.unwrap_ray,
    new_tree_vertex, Ray.bisector, Ray.reverse, Coordinate.normalize, Coordinate.norm,
    Coordinate.divScalar, Coordinate.add, Coordinate.sub, Coordinate.neg,
    Coordinate.outer_product, Ray.point_by_ratio, Coordinate.scale, Coordinate.dist_ray,
    Coordinate.dist_coord, sqrt25, sqrt49, sqrt64, norm_43, norm_m43, norm_80, norm_m80,
    abs_div,
    getDl8_0, getDl8_1, getDl8_2, getDl8_3, getDl8_4, getDl8_5, getDl8_6, getDl8_7,
    getEl8_0, getEl8_1, getEl8_2, getEl8_3, getEl8_4, getEl8_5, getEl8_6, getEl8_7,
    getDl5_0, getDl5_1, getDl5_2, getDl5_3, getDl5_4,
    getEl5_0, getEl5_1, getEl5_2, getEl5_3, getEl5_4,
    setl8_3,
    make_shrink_event, shrinkEventFor, ccQb_rv0, ccQb_rv2, ccQb_rv3, ccQb_lv3, ccQb_rv5,
    ccQb_lv5, ccQb_real0, ccQb_real1, ccQb_real2, ccQb_real3, ccQb_real4, ccQb_real5,
    Ray.is_intersect, Ray.is_parallel, Ray.interParam, Ray.intersect,
    feq, fneq, eps]

theorem getD_set_ne_d {α : Type} (l : List α) (i j : ℕ) (v d : α) (hij : i ≠ j) :
    (l.set i v).getD j d = l.getD j d := by
  simp [List.getD_eq_getElem?_getD, List.getElem?_set_ne hij]

theorem getD_append_left_d {α : Type} (l m : List α) (i : ℕ) (d : α) (h : i < l.length) :
    (l ++ m).getD i d = l.getD i d := by
  simp [List.getD_eq_getElem?_getD, List.getElem?_append_left h]

/-- A `set_parent` write anywhere in the table leaves a Split record
unchanged: either it misses the index, or `set_parent` is the identity on
the Split variant. -/
theorem getD_set_parent_split {l : List VertexType} {k a sl sr : ℕ} {loc : Coordinate} {t : ℝ}
    (h : l.getD k default = .Split a loc sl sr t) (i n : ℕ) :
    (l.set i ((l.getD i default).set_parent n)).getD k default = .Split a loc sl sr t := by
  by_cases hik : i = k
  · subst hik
    by_cases hi : i < l.length
    · rw [List.getD_eq_getElem _ _ (by simpa using hi), List.getElem_set_self, h]
      rfl
    · have : False := by
        rw [List.getD_eq_default _ _ (not_lt.mp hi), default_vertex] at h
        exact VertexType.noConfusion h
      exact this.elim
  · rw [getD_set_ne_d _ _ _ _ _ hik]
    exact h

theorem getD_append2 {α : Type} [Inhabited α] (l : List α) (x y z : α) :
    (l ++ [x, y, z]).getD (l.length + 2) default = z := by
  rw [List.getD_eq_getElem?_getD, List.getElem?_append_right (by omega : l.length ≤ l.length + 2)]
  simp

/-- Stability of the pentagon's first-step artifacts: the Split record at
index 7 of the vertex table and the logged edge event at position 0. -/
def ccStable (s : SimState) : Prop :=
  s.vv.getD 7 default = ccSplitRec ∧ 8 ≤ s.vv.length
    ∧ s.log.getD 0 (.VertexEvent 0 0 0) = ccEdgeEv ∧ 1 ≤ s.log.length

theorem processEvent_ccStable (orient : Bool) (s : SimState) (x : Timeline)
    (h : ccStable s) : ccStable (processEvent orient s x) := by
  obtain ⟨h7, hlen, hlog, hloglen⟩ := h
  have hlog2 : ∀ e : Event, (s.log ++ [e]).getD 0 (.VertexEvent 0 0 0) = ccEdgeEv := by
    intro e
    rw [getD_append_left_d _ _ _ _ hloglen]
    exact hlog
  have hloglen2 : ∀ e : Event, 1 ≤ (s.log ++ [e]).length := by
    intro e
    simp [List.length_append]
  cases x with
  | ShrinkEvent time location lv rv lr rr tb =>
    simp only [processEvent]
    split
    · exact ⟨h7, hlen, hlog, hloglen⟩
    · have h7a := getD_set_parent_split h7 lr s.vv.length
      set vv1 := s.vv.set lr ((s.vv.getD lr default).set_parent s.vv.length) with hvv1
      have hlen1 : 8 ≤ vv1.length := by simpa [hvv1] using hlen
      have h7b := getD_set_parent_split h7a rr s.vv.length
      set vv2 := vv1.set rr ((vv1.getD rr default).set_parent s.vv.length) with hvv2
      have hlen2 : 8 ≤ vv2.length := by simpa [hvv2] using hlen1
      have h7c : (vv2 ++ [new_tree_vertex location ((s.vv.getD lr default).unwrap_base_ray.1)
          ((s.vv.getD rr default).unwrap_base_ray.2) orient]).getD 7 default
          = VertexType.Split 3 ⟨4, 16 / 9⟩ 5 6 0 := by
        rw [getD_append_left_d _ _ _ _ (lt_of_lt_of_le (by norm_num) hlen2)]
        exact h7b
      set vv3 := vv2 ++ [new_tree_vertex location ((s.vv.getD lr default).unwrap_base_ray.1)
        ((s.vv.getD rr default).unwrap_base_ray.2) orient] with hvv3
      have hlen3 : 8 ≤ vv3.length := le_trans hlen2 (by simp [hvv3])
      split
      · next q1 rv2 heq =>
        have h7d := getD_set_parent_split h7c rv2 s.vv.length
        refine ⟨?_, ?_, hlog2 _, hloglen2 _⟩
        · rw [getD_set_ne_d _ _ _ _ _ (by omega : s.vv.length ≠ 7)]
          exact h7d
        · simpa [List.length_set] using hlen3
      · next q1 cvp heq =>
        exact ⟨h7c, hlen3, hlog2 _, hloglen2 _⟩
      · exact ⟨h7, hlen, hlog, hloglen⟩
  | SplitEvent time location av ar =>
    simp only [processEvent]
    split
    · exact ⟨h7, hlen, hlog, hloglen⟩
    · rcases hfsv : find_split_vertex av s.q.cleanup s.vv false orient with _ | ⟨c, _ | ⟨d, rest⟩⟩
      · simp only [hfsv]
        exact ⟨h7, hlen, hlog, hloglen⟩
      · simp only [hfsv]
        by_cases hg : feq c.1 time ∧ c.2.1.aeq location
        · rw [if_pos hg]
          have h7a : (s.vv ++
              [new_tree_vertex location ((s.vv.getD ar default).unwrap_base_ray.1)
                ((s.vv.getD c.2.2.2 default).unwrap_base_ray.2) orient,
               new_tree_vertex location
                ((s.vv.getD c.2.2.2 default).unwrap_base_ray.2.reverse)
                ((s.vv.getD ar default).unwrap_base_ray.2) orient,
               .Split ar location s.vv.length (s.vv.length + 1)
                ((s.vv.getD ar default).time_elapsed)]).getD 7 default
              = VertexType.Split 3 ⟨4, 16 / 9⟩ 5 6 0 := by
            rw [getD_append_left_d _ _ _ _ (lt_of_lt_of_le (by norm_num) hlen)]
            exact h7
          split
          · next q1 cv1 cv2 heq =>
            refine ⟨getD_set_parent_split h7a ar (s.vv.length + 1 + 1), ?_, hlog2 _, hloglen2 _⟩
            simp only [List.length_set, List.length_append, List.length_cons]
            omega
          · exact ⟨h7, hlen, hlog, hloglen⟩
        · rw [if_neg hg]
          exact ⟨h7, hlen, hlog, hloglen⟩
      · simp only [hfsv]
        exact ⟨h7, hlen, hlog, hloglen⟩

theorem simLoop_ccStable (orient : Bool) (fuel : ℕ) (s : SimState)
    (h : ccStable s) : ccStable (simLoop orient fuel s) := by
  induction fuel generalizing s with
  | zero => exact h
  | succ n ih =>
    rw [simLoop_succ]
    cases hpop : popMin s.pq with
    | none => exact h
    | some pr => exact ih _ (processEvent_ccStable orient _ pr.1 h)

/-- The pentagon skeleton after the first pop: the split event has fired and
the rest of the run continues from the post-split state. -/
theorem cc_skeleton_eval : skeleton_of_polygon ccP true 30
    = ⟨(simLoop true 29 ⟨ccVV2, [ccE01, ccE12, ccE23, ccE34, ccE40, ccN1, ccN2, ccN3, ccN4],
          ccQb, [ccEdgeEv]⟩).vv,
       (simLoop true 29 ⟨ccVV2, [ccE01, ccE12, ccE23, ccE34, ccE40, ccN1, ccN2, ccN3, ccN4],
          ccQb, [ccEdgeEv]⟩).log, ccQ⟩ := by
  simp only [skeleton_of_polygon, init_pq, cc_init, cc_vq, cc_events]
  rw [show (30 : ℕ) = 29 + 1 from rfl, simLoop_succ]
  simp only [cc_pop, cc_step1]

/-- In the finished pentagon skeleton, index 7 holds the Split record with
time_elapsed 0 while the logged edge event that created it fired at 16/9. -/
theorem cc_final_props :
    (skeleton_of_polygon ccP true 30).ray_vector.getD 7 default = ccSplitRec
    ∧ (skeleton_of_polygon ccP true 30).event_queue.getD 0 (.VertexEvent 0 0 0) = ccEdgeEv
    ∧ 1 ≤ (skeleton_of_polygon ccP true 30).event_queue.length := by
  have hs : ccStable ⟨ccVV2, [ccE01, ccE12, ccE23, ccE34, ccE40, ccN1, ccN2, ccN3, ccN4],
      ccQb, [ccEdgeEv]⟩ := by
    refine ⟨rfl, by norm_num [ccVV2], rfl, by norm_num⟩
  have h2 := simLoop_ccStable true 29 _ hs
  rw [cc_skeleton_eval]
  exact ⟨h2.1, h2.2.2.1, h2.2.2.2⟩

/-! ### Claim C6: the time stored on a Split record -/

/-- C6 counterexample: in the pentagon skeleton the Split record at index 7
carries time_elapsed 0 (the anchor's creation time) while the edge event
that created it — the logged event naming its children 5 and 6 — fired at
time 16/9; the two differ by far more than ε, refuting the claim that every
Split record carries the firing time of its edge event. -/
theorem split_record_time_counterexample :
    ¬ (∀ (k a sl sr sf si : ℕ) (loc : Coordinate) (t te : ℝ),
        (skeleton_of_polygon ccP true 30).ray_vector.getD k default
            = VertexType.Split a loc sl sr t →
        Event.EdgeEvent te sf si sl sr ∈ (skeleton_of_polygon ccP true 30).event_queue →
        feq t te) := by
  intro hcl
  have hc := cc_final_props
  have hmem : Event.EdgeEvent (16 / 9) 3 0 5 6
      ∈ (skeleton_of_polygon ccP true 30).event_queue := by
    have h0 := hc.2.1
    rw [List.getD_eq_getElem _ _ hc.2.2] at h0
    rw [show (Event.EdgeEvent (16 / 9) 3 0 5 6) = ccEdgeEv from rfl, ← h0]
    exact List.getElem_mem _
  have habs := hcl 7 3 5 6 3 0 ⟨4, 16 / 9⟩ 0 (16 / 9) hc.1 hmem
  have hv : |(0 : ℝ) - 16 / 9| = 16 / 9 := by norm_num
  rw [feq, hv, eps] at habs
  exact absurd habs (by norm_num)

/-- C6 amended: whenever a split event fires (the staleness check passes,
the rescan returns exactly one matching candidate, and the queue split
succeeds), the Split record appended at index |vv| + 2 carries the
time_elapsed of the anchor's vertex-table record, not the firing time of
the edge event. -/
theorem split_record_time_amended (orient : Bool) (s : SimState) (time : ℝ)
    (location : Coordinate) (av : IndexType) (ar : ℕ) (c : Cand) (q1 : VertexQueue)
    (cv1 cv2 : IndexType)
    (h1 : ¬ ((s.q.slotAt av.get_index).done = true ∨ s.q.get_real_index av ≠ ar))
    (h2 : find_split_vertex av s.q.cleanup s.vv false orient = [c])
    (h3 : feq c.1 time ∧ c.2.1.aeq location)
    (h4 : apply_event s.q.cleanup (Event.EdgeEvent time av.get_index c.2.2.1.get_index
            s.vv.length (s.vv.length + 1)) = (q1, some cv1, some cv2)) :
    (processEvent orient s (.SplitEvent time location av ar)).vv.getD
        (s.vv.length + 2) default
      = VertexType.Split ar location s.vv.length (s.vv.length + 1)
          ((s.vv.getD ar default).time_elapsed) := by
  simp only [processEvent, if_neg h1, h2, if_pos h3, h4]
  exact getD_set_parent_split (getD_append2 s.vv _ _ _) ar (s.vv.length + 1 + 1)

/-- C6 amended, witness: the pentagon's first step at concrete input. -/
theorem split_record_time_amended_witness :
    (processEvent true ⟨ccVV, [ccE01, ccE12, ccE23, ccE34, ccE40], ccQ, []⟩ ccES).vv.getD 7
        default
      = VertexType.Split 3 ⟨4, 16 / 9⟩ 5 6 0 := by
  exact split_record_time_amended true ⟨ccVV, [ccE01, ccE12, ccE23, ccE34, ccE40], ccQ, []⟩
    (16 / 9) ⟨4, 16 / 9⟩ (.PointerIndex 3) 3 (16 / 9, ⟨4, 16 / 9⟩, .PointerIndex 0, 0)
    ccQb (.PointerIndex 3) (.PointerIndex 5)
    (by norm_num [ccQ_slot3, ccQ_real3, IndexType.get_index])
    cc_rescan
    ⟨by norm_num [feq, eps], by norm_num [Coordinate.aeq, feq, eps]⟩
    cc_apply

/-! ### Claim C9: live queue slots always resolve to Tree records -/

theorem slotAt_setSlot_self (q : VertexQueue) (p : ℕ) (f : QSlot → QSlot)
    (h : p < q.content.length) : (q.setSlot p f).slotAt p = f (q.slotAt p) := by
  simp only [VertexQueue.setSlot, VertexQueue.slotAt]
  rw [List.getD_eq_getElem _ _ (by simpa using h), List.getElem_set_self]

theorem slotAt_setSlot_ne (q : VertexQueue) (p p' : ℕ) (f : QSlot → QSlot)
    (h : p ≠ p') : (q.setSlot p f).slotAt p' = q.slotAt p' := by
  simp only [VertexQueue.setSlot, VertexQueue.slotAt]
  exact getD_set_ne_d _ _ _ _ _ h

theorem setSlot_oob (q : VertexQueue) (p : ℕ) (f : QSlot → QSlot)
    (h : q.content.length ≤ p) : q.setSlot p f = q := by
  simp only [VertexQueue.setSlot]
  rw [List.set_eq_of_length_le h]

/-- Reading a slot after a `setSlot`: either the read passes through
unchanged, or the write hit the read position. -/
theorem slotAt_setSlot_or (q : VertexQueue) (p p' : ℕ) (f : QSlot → QSlot) :
    (q.setSlot p f).slotAt p' = q.slotAt p'
    ∨ ((q.setSlot p f).slotAt p' = f (q.slotAt p') ∧ p = p') := by
  by_cases h : p = p'
  · subst h
    by_cases hl : p < q.content.length
    · right
      exact ⟨slotAt_setSlot_self q p f hl, rfl⟩
    · left
      rw [setSlot_oob q p f (le_of_not_lt hl)]
  · left
    exact slotAt_setSlot_ne q p p' f h

theorem length_setSlot (q : VertexQueue) (p : ℕ) (f : QSlot → QSlot) :
    (q.setSlot p f).content.length = q.content.length := by
  simp [VertexQueue.setSlot]

/-- Tree-ness of the record denoted by a real-index. -/
def TreeAt (vv : List VertexType) (i : ℕ) : Prop := (vv.getD i default).isTree

theorem TreeAt_lt {vv : List VertexType} {i : ℕ} (h : TreeAt vv i) : i < vv.length := by
  by_cases hi : i < vv.length
  · exact hi
  · rw [TreeAt, List.getD_eq_default _ _ (not_lt.mp hi), default_vertex] at h
    exact h.elim

theorem set_parent_isTree (v : VertexType) (n : ℕ) : (v.set_parent n).isTree ↔ v.isTree := by
  cases v <;> simp [VertexType.set_parent, VertexType.isTree]

theorem TreeAt_set_parent {vv : List VertexType} {i : ℕ} (h : TreeAt vv i) (j n : ℕ) :
    TreeAt (vv.set j ((vv.getD j default).set_parent n)) i := by
  by_cases hj : j = i
  · subst hj
    rw [TreeAt, List.getD_eq_getElem _ _ (by simpa using TreeAt_lt h), List.getElem_set_self,
      set_parent_isTree]
    exact h
  · rw [TreeAt, getD_set_ne_d _ _ _ _ _ hj]
    exact h

theorem TreeAt_set_ne {vv : List VertexType} {i : ℕ} (h : TreeAt vv i) (j : ℕ)
    (v : VertexType) (hj : j ≠ i) : TreeAt (vv.set j v) i := by
  rw [TreeAt, getD_set_ne_d _ _ _ _ _ hj]
  exact h

theorem TreeAt_append {vv : List VertexType} {i : ℕ} (h : TreeAt vv i)
    (m : List VertexType) : TreeAt (vv ++ m) i := by
  rw [TreeAt, getD_append_left_d _ _ _ _ (TreeAt_lt h)]
  exact h

theorem TreeAt_append_elem (vv m : List VertexType) (j : ℕ)
    (ht : (m.getD j default).isTree) : TreeAt (vv ++ m) (vv.length + j) := by
  rw [TreeAt, List.getD_eq_getElem?_getD,
    List.getElem?_append_right (by omega : vv.length ≤ vv.length + j)]
  have : vv.length + j - vv.length = j := by omega
  rw [this, ← List.getD_eq_getElem?_getD]
  exact ht

/-- Every vertex-table index that denotes a Tree record keeps denoting a
Tree record across one driver step: `set_parent` maps Tree to Tree, the
table only grows, and the Root promotion targets the index allocated in the
same step, which is outside the old table. -/
theorem processEvent_TreeAt (orient : Bool) (s : SimState) (x : Timeline) (i : ℕ)
    (h : TreeAt s.vv i) : TreeAt (processEvent orient s x).vv i := by
  cases x with
  | ShrinkEvent time location lv rv lr rr tb =>
    simp only [processEvent]
    split
    · exact h
    · have h1 := TreeAt_set_parent h lr s.vv.length
      set vv1 := s.vv.set lr ((s.vv.getD lr default).set_parent s.vv.length) with hvv1
      have h2 := TreeAt_set_parent h1 rr s.vv.length
      set vv2 := vv1.set rr ((vv1.getD rr default).set_parent s.vv.length) with hvv2
      have h3 := TreeAt_append h2 [new_tree_vertex location
        ((s.vv.getD lr default).unwrap_base_ray.1)
        ((s.vv.getD rr default).unwrap_base_ray.2) orient]
      set vv3 := vv2 ++ [new_tree_vertex location ((s.vv.getD lr default).unwrap_base_ray.1)
        ((s.vv.getD rr default).unwrap_base_ray.2) orient] with hvv3
      split
      · next q1 rv2 heq =>
        have h4 := TreeAt_set_parent h3 rv2 s.vv.length
        exact TreeAt_set_ne h4 s.vv.length _ (by have := TreeAt_lt h; omega)
      · next q1 cvp heq => exact h3
      · exact h
  | SplitEvent time location av ar =>
    simp only [processEvent]
    split
    · exact h
    · rcases hfsv : find_split_vertex av s.q.cleanup s.vv false orient with _ | ⟨c, _ | ⟨d, rest⟩⟩
      · simp only [hfsv]
        exact h
      · simp only [hfsv]
        by_cases hg : feq c.1 time ∧ c.2.1.aeq location
        · rw [if_pos hg]
          have h1 := TreeAt_append h [new_tree_vertex location
              ((s.vv.getD ar default).unwrap_base_ray.1)
              ((s.vv.getD c.2.2.2 default).unwrap_base_ray.2) orient,
            new_tree_vertex location ((s.vv.getD c.2.2.2 default).unwrap_base_ray.2.reverse)
              ((s.vv.getD ar default).unwrap_base_ray.2) orient,
            .Split ar location s.vv.length (s.vv.length + 1)
              ((s.vv.getD ar default).time_elapsed)]
          split
          · next q1 cv1 cv2 heq => exact TreeAt_set_parent h1 ar (s.vv.length + 1 + 1)
          · exact h
        · rw [if_neg hg]
          exact h
      · simp only [hfsv]
        exact h

theorem slotAt_oob (q : VertexQueue) (p : ℕ) (h : q.content.length ≤ p) :
    q.slotAt p = default := List.getD_eq_default _ _ h

theorem slotAt_set_preserve (q : VertexQueue) (j p : ℕ) (f : QSlot → QSlot)
    (hf : ∀ t : QSlot, (f t).index = t.index ∧ (f t).done = t.done) :
    ((q.setSlot j f).slotAt p).index = (q.slotAt p).index
      ∧ ((q.setSlot j f).slotAt p).done = (q.slotAt p).done := by
  rcases slotAt_setSlot_or q j p f with h | ⟨h, rfl⟩
  · rw [h]
    exact ⟨rfl, rfl⟩
  · rw [h]
    exact hf _

theorem length_remove_and_set (q : VertexQueue) (frm nr : IndexType) :
    ((q.remove_and_set frm nr).1).content.length = q.content.length := by
  simp [VertexQueue.remove_and_set, VertexQueue.setSlot]

/-- Characterization of `remove_and_set`: a slot that is live afterwards
either is the survivor carrying the new real-index, or carries its old
real-index and was already live. -/
theorem remove_and_set_char (q : VertexQueue) (mf mt : ℕ) (p : ℕ)
    (hdone : (((q.remove_and_set (.PointerIndex mf) (.RealIndex mt)).1).slotAt p).done
      = false) :
    ((((q.remove_and_set (.PointerIndex mf) (.RealIndex mt)).1).slotAt p).index = mt
        ∧ p = (q.slotAt mf).right)
    ∨ ((((q.remove_and_set (.PointerIndex mf) (.RealIndex mt)).1).slotAt p).index
          = (q.slotAt p).index ∧ (q.slotAt p).done = false) := by
  simp only [VertexQueue.remove_and_set, IndexType.get_index] at hdone ⊢
  rcases slotAt_setSlot_or ((q.setSlot (q.slotAt mf).left (fun t => { t with right := (q.slotAt mf).right })).setSlot
      (q.slotAt mf).right (fun t => { t with left := (q.slotAt mf).left, index := mt }))
      mf p (fun t => { t with done := true }) with h3 | ⟨h3, rfl⟩
  · rw [h3] at hdone ⊢
    rcases slotAt_setSlot_or (q.setSlot (q.slotAt mf).left (fun t => { t with right := (q.slotAt mf).right }))
        (q.slotAt mf).right p (fun t => { t with left := (q.slotAt mf).left, index := mt })
        with h2 | ⟨h2, hr0⟩
    · rw [h2] at hdone ⊢
      have hpr := slotAt_set_preserve q (q.slotAt mf).left p
        (fun t => { t with right := (q.slotAt mf).right }) (fun t => ⟨rfl, rfl⟩)
      right
      rw [hpr.1]
      rw [hpr.2] at hdone
      exact ⟨rfl, hdone⟩
    · rw [h2]
      left
      exact ⟨rfl, hr0.symm⟩
  · rw [h3] at hdone
    exact absurd hdone (by simp)

theorem length_split_and_set (q : VertexQueue) (frm into lr rr : IndexType) :
    ((q.split_and_set frm into lr rr).1).content.length = q.content.length + 1 := by
  simp [VertexQueue.split_and_set, VertexQueue.setSlot]

/-- Characterization of `split_and_set`: a slot that is live afterwards
carries the left child's real-index, the right child's real-index, or its
old real-index (having been live before). -/
theorem split_and_set_char (q : VertexQueue) (sf si nl nr : ℕ) (p : ℕ)
    (hdone : (((q.split_and_set (.PointerIndex sf) (.PointerIndex si) (.RealIndex nl)
        (.RealIndex nr)).1).slotAt p).done = false) :
    (((q.split_and_set (.PointerIndex sf) (.PointerIndex si) (.RealIndex nl)
        (.RealIndex nr)).1).slotAt p).index = nl
    ∨ (((q.split_and_set (.PointerIndex sf) (.PointerIndex si) (.RealIndex nl)
        (.RealIndex nr)).1).slotAt p).index = nr
    ∨ ((((q.split_and_set (.PointerIndex sf) (.PointerIndex si) (.RealIndex nl)
        (.RealIndex nr)).1).slotAt p).index = (q.slotAt p).index
        ∧ (q.slotAt p).done = false ∧ p ≠ q.content.length) := by
  simp only [VertexQueue.split_and_set, IndexType.get_index] at hdone ⊢
  obtain ⟨e5i, e5d⟩ := slotAt_set_preserve ((((VertexQueue.mk (q.content ++ [⟨nr, si, (q.slotAt sf).right, false⟩])).setSlot sf (fun t => { t with right := (q.slotAt si).right, index := nl })).setSlot (q.slotAt si).right (fun t => { t with left := sf })).setSlot si (fun t => { t with right := q.content.length })) (q.slotAt sf).right p
    (fun t => { t with left := q.content.length }) (fun t => ⟨rfl, rfl⟩)
  obtain ⟨e4i, e4d⟩ := slotAt_set_preserve (((VertexQueue.mk (q.content ++ [⟨nr, si, (q.slotAt sf).right, false⟩])).setSlot sf (fun t => { t with right := (q.slotAt si).right, index := nl })).setSlot (q.slotAt si).right (fun t => { t with left := sf })) si p
    (fun t => { t with right := q.content.length }) (fun t => ⟨rfl, rfl⟩)
  obtain ⟨e3i, e3d⟩ := slotAt_set_preserve ((VertexQueue.mk (q.content ++ [⟨nr, si, (q.slotAt sf).right, false⟩])).setSlot sf (fun t => { t with right := (q.slotAt si).right, index := nl })) (q.slotAt si).right p
    (fun t => { t with left := sf }) (fun t => ⟨rfl, rfl⟩)
  rw [e5d, e4d, e3d] at hdone
  rw [e5i, e4i, e3i]
  rcases slotAt_setSlot_or (VertexQueue.mk (q.content ++ [⟨nr, si, (q.slotAt sf).right, false⟩])) sf p
      (fun t => { t with right := (q.slotAt si).right, index := nl }) with h2 | ⟨h2, rfl⟩
  · rw [h2] at hdone ⊢
    by_cases hp : p < q.content.length
    · have he : (VertexQueue.mk (q.content ++ [⟨nr, si, (q.slotAt sf).right, false⟩])).slotAt p = q.slotAt p := by
        simp only [VertexQueue.slotAt]
        exact getD_append_left_d _ _ _ _ hp
      rw [he] at hdone ⊢
      exact Or.inr (Or.inr ⟨rfl, hdone, by omega⟩)
    · by_cases hpn : p = q.content.length
      · subst hpn
        have he : (VertexQueue.mk (q.content ++ [⟨nr, si, (q.slotAt sf).right, false⟩])).slotAt q.content.length = ⟨nr, si, (q.slotAt sf).right, false⟩ := by
          simp only [VertexQueue.slotAt]
          rw [List.getD_eq_getElem?_getD, List.getElem?_append_right (le_refl _)]
          simp
        rw [he]
        exact Or.inr (Or.inl rfl)
      · have he : (VertexQueue.mk (q.content ++ [⟨nr, si, (q.slotAt sf).right, false⟩])).slotAt p = default := by
          apply slotAt_oob
          simp only [List.length_append, List.length_cons, List.length_nil]
          omega
        rw [he, slotAt_oob q p (by omega)]
        exact Or.inr (Or.inr ⟨rfl, rfl, hpn⟩)
  · rw [h2]
    exact Or.inl rfl
theorem remove_and_set_snd (q : VertexQueue) (frm nr : IndexType) :
    (q.remove_and_set frm nr).2 = .PointerIndex (q.slotAt frm.get_index).right := rfl

theorem length_apply_event_vertex (q : VertexQueue) (t : ℝ) (mf mt : ℕ) :
    ((apply_event q (.VertexEvent t mf mt)).1).content.length = q.content.length := by
  simp only [apply_event]
  split
  · simp [length_setSlot, length_remove_and_set]
  · simp [length_remove_and_set]

/-- Characterization of a vertex event's queue update: a slot that is live
afterwards either carries the merged vertex's real-index (and the loop did
not collapse), or carries its old real-index and was already live. -/
theorem apply_event_vertex_char (q : VertexQueue) (t : ℝ) (mf mt : ℕ) (p : ℕ)
    (hdone : (((apply_event q (.VertexEvent t mf mt)).1).slotAt p).done = false) :
    ((∃ r, (apply_event q (.VertexEvent t mf mt)).2.1 = some (.PointerIndex r))
      ∧ (((apply_event q (.VertexEvent t mf mt)).1).slotAt p).index = mt)
    ∨ ((((apply_event q (.VertexEvent t mf mt)).1).slotAt p).index = (q.slotAt p).index
        ∧ (q.slotAt p).done = false) := by
  simp only [apply_event, remove_and_set_snd, VertexQueue.lv, VertexQueue.rv,
    IndexType.get_index] at hdone ⊢
  split at hdone
  · next hcol =>
    rw [if_pos hcol]
    dsimp only at hdone ⊢
    by_cases hpr0 : p = (q.slotAt mf).right
    · subst hpr0
      by_cases hr : (q.slotAt mf).right < ((((q.remove_and_set (.PointerIndex mf) (.RealIndex mt)).1).setSlot (((q.remove_and_set (.PointerIndex mf) (.RealIndex mt)).1).slotAt (q.slotAt mf).right).left (fun u => { u with done := true }))).content.length
      · rw [slotAt_setSlot_self _ _ _ hr] at hdone
        simp at hdone
      · have hlq : ((((q.remove_and_set (.PointerIndex mf) (.RealIndex mt)).1).setSlot (((q.remove_and_set (.PointerIndex mf) (.RealIndex mt)).1).slotAt (q.slotAt mf).right).left (fun u => { u with done := true }))).content.length = q.content.length := by
          rw [length_setSlot, length_remove_and_set]
        rw [hlq] at hr
        right
        rw [slotAt_oob _ _ (by rw [length_setSlot, hlq]; omega),
          slotAt_oob q _ (by omega : q.content.length ≤ (q.slotAt mf).right)]
        exact ⟨rfl, rfl⟩
    · rw [slotAt_setSlot_ne _ _ _ _ (fun hh => hpr0 hh.symm)] at hdone ⊢
      rcases slotAt_setSlot_or ((q.remove_and_set (.PointerIndex mf) (.RealIndex mt)).1)
          (((q.remove_and_set (.PointerIndex mf) (.RealIndex mt)).1).slotAt (q.slotAt mf).right).left p
          (fun u => { u with done := true }) with h4 | ⟨h4, rfl⟩
      · rw [h4] at hdone ⊢
        rcases remove_and_set_char q mf mt p hdone with ⟨hi, hpr⟩ | ⟨hi, hd⟩
        · exact absurd hpr hpr0
        · exact Or.inr ⟨hi, hd⟩
      · rw [h4] at hdone
        simp at hdone
  · next hcol =>
    rw [if_neg hcol]
    dsimp only at hdone ⊢
    rcases remove_and_set_char q mf mt p hdone with ⟨hi, hpr⟩ | ⟨hi, hd⟩
    · exact Or.inl ⟨⟨(q.slotAt mf).right, rfl⟩, hi⟩
    · exact Or.inr ⟨hi, hd⟩

theorem apply_event_edge_char (q : VertexQueue) (t : ℝ) (sf si nl nr : ℕ) (p : ℕ)
    (hdone : (((apply_event q (.EdgeEvent t sf si nl nr)).1).slotAt p).done = false) :
    (((apply_event q (.EdgeEvent t sf si nl nr)).1).slotAt p).index = nl
    ∨ (((apply_event q (.EdgeEvent t sf si nl nr)).1).slotAt p).index = nr
    ∨ ((((apply_event q (.EdgeEvent t sf si nl nr)).1).slotAt p).index = (q.slotAt p).index
        ∧ (q.slotAt p).done = false ∧ p ≠ q.content.length) := by
  simp only [apply_event, VertexQueue.cleanup] at hdone ⊢
  exact split_and_set_char q sf si nl nr p hdone

theorem length_apply_event_edge (q : VertexQueue) (t : ℝ) (sf si nl nr : ℕ) :
    ((apply_event q (.EdgeEvent t sf si nl nr)).1).content.length = q.content.length + 1 := by
  simp [apply_event, VertexQueue.cleanup, length_split_and_set]

theorem new_tree_vertex_isTree (loc : Coordinate) (l r : Ray) (o : Bool) :
    (new_tree_vertex loc l r o).isTree := by
  simp [new_tree_vertex, VertexType.isTree]

/-- The safety invariant of the active vertex queue: every live slot's
real-index denotes a Tree record of the vertex table. -/
def SlotsInv (vv : List VertexType) (q : VertexQueue) : Prop :=
  ∀ p : ℕ, p < q.content.length → (q.slotAt p).done = false → TreeAt vv (q.slotAt p).index

theorem TreeAt_chain_shrink (vvb : List VertexType) (lr rr n : ℕ) (ntv : VertexType) {i : ℕ}
    (h : TreeAt vvb i) :
    TreeAt (((vvb.set lr ((vvb.getD lr default).set_parent n)).set rr
        (((vvb.set lr ((vvb.getD lr default).set_parent n)).getD rr default).set_parent n))
      ++ [ntv]) i :=
  TreeAt_append (TreeAt_set_parent (TreeAt_set_parent h lr n) rr n) [ntv]

theorem TreeAt_chain_root (vvc : List VertexType) (rv2 n : ℕ) (root : VertexType) {i : ℕ}
    (h : TreeAt vvc i) (hn : i ≠ n) :
    TreeAt ((vvc.set rv2 ((vvc.getD rv2 default).set_parent n)).set n root) i :=
  TreeAt_set_ne (TreeAt_set_parent h rv2 n) n root (fun hh => hn hh.symm)

/-- One driver step preserves the queue safety invariant. -/
theorem processEvent_SlotsInv (orient : Bool) (s : SimState) (x : Timeline)
    (h : SlotsInv s.vv s.q) :
    SlotsInv (processEvent orient s x).vv (processEvent orient s x).q := by
  cases x with
  | ShrinkEvent time location lv rv lr rr tb =>
    simp only [processEvent, VertexQueue.cleanup]
    split
    · exact h
    · split
      · next q1 rv2 heq =>
        intro p hp hdone
        simp only [] at hp hdone ⊢
        have hq1 : (apply_event s.q
            (Event.VertexEvent time lv.get_index s.vv.length)).1 = q1 := by
          rw [heq]
        rw [← hq1] at hp hdone ⊢
        rcases apply_event_vertex_char s.q time lv.get_index s.vv.length p hdone with
          ⟨⟨r, hr⟩, hi⟩ | ⟨hi, hd⟩
        · rw [heq] at hr
          simp at hr
        · have hp2 : p < s.q.content.length := by
            rw [length_apply_event_vertex] at hp
            exact hp
          have ht := h p hp2 hd
          rw [hi]
          exact TreeAt_chain_root _ rv2 s.vv.length _
            (TreeAt_chain_shrink s.vv lr rr s.vv.length _ ht)
            (by have := TreeAt_lt ht; omega)
      · next q1 cvp hne heq =>
        intro p hp hdone
        simp only [] at hp hdone ⊢
        have hq1 : (apply_event s.q
            (Event.VertexEvent time lv.get_index s.vv.length)).1 = q1 := by
          rw [heq]
        rw [← hq1] at hp hdone ⊢
        rcases apply_event_vertex_char s.q time lv.get_index s.vv.length p hdone with
          ⟨⟨r, hr⟩, hi⟩ | ⟨hi, hd⟩
        · rw [hi]
          have hnew := TreeAt_append_elem
            ((s.vv.set lr ((s.vv.getD lr default).set_parent s.vv.length)).set rr
              (((s.vv.set lr ((s.vv.getD lr default).set_parent s.vv.length)).getD rr
                default).set_parent s.vv.length))
            [new_tree_vertex location ((s.vv.getD lr default).unwrap_base_ray.1)
              ((s.vv.getD rr default).unwrap_base_ray.2) orient] 0
            (new_tree_vertex_isTree _ _ _ _)
          have hvl : ((s.vv.set lr ((s.vv.getD lr default).set_parent s.vv.length)).set rr
              (((s.vv.set lr ((s.vv.getD lr default).set_parent s.vv.length)).getD rr
                default).set_parent s.vv.length)).length + 0 = s.vv.length := by
            simp [List.length_set]
          rw [hvl] at hnew
          exact hnew
        · have hp2 : p < s.q.content.length := by
            rw [length_apply_event_vertex] at hp
            exact hp
          have ht := h p hp2 hd
          rw [hi]
          exact TreeAt_chain_shrink s.vv lr rr s.vv.length _ ht
      · exact h
  | SplitEvent time location av ar =>
    simp only [processEvent, VertexQueue.cleanup]
    split
    · exact h
    · rcases hfsv : find_split_vertex av s.q s.vv false orient with _ | ⟨c, _ | ⟨d, rest⟩⟩
      · simp only [hfsv]
        exact h
      · simp only [hfsv]
        by_cases hg : feq c.1 time ∧ c.2.1.aeq location
        · rw [if_pos hg]
          split
          · next q1 cv1 cv2 heq =>
            intro p hp hdone
            simp only [] at hp hdone ⊢
            have hq1 : (apply_event s.q (Event.EdgeEvent time av.get_index c.2.2.1.get_index
                s.vv.length (s.vv.length + 1))).1 = q1 := by
              rw [heq]
            rw [← hq1] at hp hdone ⊢
            rcases apply_event_edge_char s.q time av.get_index c.2.2.1.get_index
                s.vv.length (s.vv.length + 1) p hdone with hi | hi | ⟨hi, hd, hpn⟩
            · rw [hi]
              have hnew := TreeAt_append_elem s.vv
                [new_tree_vertex location ((s.vv.getD ar default).unwrap_base_ray.1)
                  ((s.vv.getD c.2.2.2 default).unwrap_base_ray.2) orient,
                 new_tree_vertex location
                  ((s.vv.getD c.2.2.2 default).unwrap_base_ray.2.reverse)
                  ((s.vv.getD ar default).unwrap_base_ray.2) orient,
                 .Split ar location s.vv.length (s.vv.length + 1)
                  ((s.vv.getD ar default).time_elapsed)] 0 (new_tree_vertex_isTree _ _ _ _)
              rw [show s.vv.length + 0 = s.vv.length from rfl] at hnew
              exact TreeAt_set_parent hnew ar (s.vv.length + 1 + 1)
            · rw [hi]
              have hnew := TreeAt_append_elem s.vv
                [new_tree_vertex location ((s.vv.getD ar default).unwrap_base_ray.1)
                  ((s.vv.getD c.2.2.2 default).unwrap_base_ray.2) orient,
                 new_tree_vertex location
                  ((s.vv.getD c.2.2.2 default).unwrap_base_ray.2.reverse)
                  ((s.vv.getD ar default).unwrap_base_ray.2) orient,
                 .Split ar location s.vv.length (s.vv.length + 1)
                  ((s.vv.getD ar default).time_elapsed)] 1 (new_tree_vertex_isTree _ _ _ _)
              exact TreeAt_set_parent hnew ar (s.vv.length + 1 + 1)
            · have hp2 : p < s.q.content.length := by
                rw [length_apply_event_edge] at hp
                omega
              have ht := h p hp2 hd
              rw [hi]
              exact TreeAt_set_parent (TreeAt_append ht _) ar (s.vv.length + 1 + 1)
          · exact h
        · rw [if_neg hg]
          exact h
      · simp only [hfsv]
        exact h

theorem SlotsInv_mono (orient : Bool) (s : SimState) (x : Timeline) (qx : VertexQueue)
    (h : SlotsInv s.vv qx) : SlotsInv (processEvent orient s x).vv qx :=
  fun p hp hdone => processEvent_TreeAt orient s x _ (h p hp hdone)

/-- The queue obtained by replaying a list of logged events on the initial
snapshot, as the loop of `get_vertex_queue` without the time cut-off. -/
def replayPrefix (q0 : VertexQueue) (evs : List Event) : VertexQueue :=
  evs.foldl (fun q e => ((apply_event q e).1).cleanup) q0

theorem replayPrefix_append (q0 : VertexQueue) (evs : List Event) (e : Event) :
    replayPrefix q0 (evs ++ [e]) = ((apply_event (replayPrefix q0 evs) e).1).cleanup := by
  simp [replayPrefix]

/-- `get_vertex_queue`'s replay loop stops at the first event beyond the
cut-off, so it computes the replay of some prefix of the log. -/
theorem replayGo_prefix (evs : List Event) (q0 : VertexQueue) (d : ℝ) :
    ∃ k, replayGo d q0 evs = replayPrefix q0 (evs.take k) := by
  induction evs generalizing q0 with
  | nil => exact ⟨0, rfl⟩
  | cons e rest ih =>
    by_cases ht : e.unwrap_time ≤ d
    · obtain ⟨k, hk⟩ := ih (((apply_event q0 e).1).cleanup)
      refine ⟨k + 1, ?_⟩
      simp only [replayGo, if_pos ht, hk, List.take_succ_cons, replayPrefix, List.foldl_cons]
    · refine ⟨0, ?_⟩
      simp only [replayGo, if_neg ht, List.take_zero, replayPrefix, List.foldl_nil]

/-- One driver step either leaves the table, the queue and the log alone, or
logs exactly one event and applies it to the queue. -/
theorem processEvent_log_q (orient : Bool) (s : SimState) (x : Timeline) :
    ((processEvent orient s x).vv = s.vv ∧ (processEvent orient s x).q = s.q
      ∧ (processEvent orient s x).log = s.log)
    ∨ ∃ e, (processEvent orient s x).log = s.log ++ [e]
        ∧ (processEvent orient s x).q = ((apply_event s.q e).1).cleanup := by
  cases x with
  | ShrinkEvent time location lv rv lr rr tb =>
    simp only [processEvent, VertexQueue.cleanup]
    split
    · refine Or.inl ⟨?_, ?_, ?_⟩ <;> first | rfl | trivial
    · split
      · next q1 rv2 heq =>
        refine Or.inr ⟨Event.VertexEvent time lv.get_index s.vv.length, rfl, ?_⟩
        simp only [VertexQueue.cleanup]
        rw [heq]
      · next q1 cvp hne heq =>
        refine Or.inr ⟨Event.VertexEvent time lv.get_index s.vv.length, rfl, ?_⟩
        simp only [VertexQueue.cleanup]
        rw [heq]
      · refine Or.inl ⟨?_, ?_, ?_⟩ <;> first | rfl | trivial
  | SplitEvent time location av ar =>
    simp only [processEvent, VertexQueue.cleanup]
    split
    · refine Or.inl ⟨?_, ?_, ?_⟩ <;> first | rfl | trivial
    · rcases hfsv : find_split_vertex av s.q s.vv false orient with _ | ⟨c, _ | ⟨dd, rest⟩⟩
      · simp only [hfsv]
        refine Or.inl ⟨?_, ?_, ?_⟩ <;> first | rfl | trivial
      · simp only [hfsv]
        by_cases hg : feq c.1 time ∧ c.2.1.aeq location
        · rw [if_pos hg]
          split
          · next q1 cv1 cv2 heq =>
            refine Or.inr ⟨Event.EdgeEvent time av.get_index c.2.2.1.get_index
              s.vv.length (s.vv.length + 1), rfl, ?_⟩
            simp only [VertexQueue.cleanup]
            rw [heq]
          · refine Or.inl ⟨?_, ?_, ?_⟩ <;> first | rfl | trivial
        · rw [if_neg hg]
          refine Or.inl ⟨?_, ?_, ?_⟩ <;> first | rfl | trivial
      · simp only [hfsv]
        refine Or.inl ⟨?_, ?_, ?_⟩ <;> first | rfl | trivial

/-- The run invariant: the live queue is the replay of the full log, and the
table is Tree-safe for the replay of every log prefix. -/
def RunInv (q0 : VertexQueue) (s : SimState) : Prop :=
  s.q = replayPrefix q0 s.log
  ∧ ∀ k : ℕ, SlotsInv s.vv (replayPrefix q0 (s.log.take k))

theorem processEvent_RunInv (orient : Bool) (q0 : VertexQueue) (s : SimState) (x : Timeline)
    (h : RunInv q0 s) : RunInv q0 (processEvent orient s x) := by
  obtain ⟨hq, hpre⟩ := h
  rcases processEvent_log_q orient s x with ⟨hv, hqq, hl⟩ | ⟨e, hl, hqq⟩
  · constructor
    · rw [hqq, hl, hq]
    · intro k
      rw [hl]
      exact SlotsInv_mono orient s x _ (hpre k)
  · constructor
    · rw [hqq, hl, replayPrefix_append, hq]
    · intro k
      rw [hl]
      by_cases hk : k ≤ s.log.length
      · rw [List.take_append_of_le_length hk]
        exact SlotsInv_mono orient s x _ (hpre k)
      · have hlen : (s.log ++ [e]).length ≤ k := by
          simp only [List.length_append, List.length_cons, List.length_nil]
          omega
        rw [List.take_of_length_le hlen]
        rw [replayPrefix_append, ← hq, ← hqq]
        apply processEvent_SlotsInv
        have hbase := hpre s.log.length
        rw [List.take_length, ← hq] at hbase
        exact hbase
  
theorem simLoop_RunInv (orient : Bool) (q0 : VertexQueue) (fuel : ℕ) (s : SimState)
    (h : RunInv q0 s) : RunInv q0 (simLoop orient fuel s) := by
  induction fuel generalizing s with
  | zero => exact h
  | succ n ih =>
    rw [simLoop_succ]
    cases hpop : popMin s.pq with
    | none => exact h
    | some pr => exact ih _ (processEvent_RunInv orient q0 _ pr.1 h)

theorem init_tree_vertex_isTree (a b c : Coordinate) (o : Bool) :
    (init_tree_vertex a b c o).isTree := trivial

theorem initialize_isTree (p : Polygon) (o : Bool) :
    ∀ v ∈ initialize_from_polygon p o, v.isTree := by
  intro v hv
  simp only [initialize_from_polygon, loopVertices, List.mem_append, List.mem_flatten,
    List.mem_map, List.mem_range] at hv
  rcases hv with ⟨i, -, rfl⟩ | ⟨l, ⟨r, -, rfl⟩, hl⟩
  · exact init_tree_vertex_isTree _ _ _ _
  · simp only [List.mem_map, List.mem_range] at hl
    obtain ⟨i, -, rfl⟩ := hl
    exact init_tree_vertex_isTree _ _ _ _

theorem length_loopVertices (r : List Coordinate) (o : Bool) :
    (loopVertices r o).length = r.length - 1 := by
  simp [loopVertices]

theorem initVV_length (p : Polygon) (o : Bool) :
    (initialize_from_polygon p o).length
      = (p.exterior.length - 1) + (p.interiors.map (fun r => r.length - 1)).sum := by
  simp only [initialize_from_polygon, List.length_append, List.length_flatten, List.map_map,
    length_loopVertices]
  have hmap : (List.length ∘ fun r : List Coordinate => loopVertices r o)
      = fun r : List Coordinate => r.length - 1 := by
    funext r
    simp [Function.comp, length_loopVertices]
  rw [hmap]

theorem loopSlots_index {off n : ℕ} {sl : QSlot} (h : sl ∈ loopSlots off n) :
    off ≤ sl.index ∧ sl.index < off + n := by
  simp only [loopSlots, List.mem_map, List.mem_range] at h
  obtain ⟨i, hi, rfl⟩ := h
  dsimp only
  exact ⟨by omega, by omega⟩

theorem vqInit_fold_bound (ints : List (List Coordinate)) :
    ∀ (acc : List QSlot × ℕ), (∀ sl ∈ acc.1, sl.index < acc.2) →
    (∀ sl ∈ (ints.foldl (fun (a : List QSlot × ℕ) r =>
        (a.1 ++ loopSlots a.2 (r.length - 1), a.2 + (r.length - 1))) acc).1,
      sl.index < (ints.foldl (fun (a : List QSlot × ℕ) r =>
        (a.1 ++ loopSlots a.2 (r.length - 1), a.2 + (r.length - 1))) acc).2) := by
  induction ints with
  | nil => exact fun acc h => h
  | cons r rest ih =>
    intro acc h
    simp only [List.foldl_cons]
    apply ih
    intro sl hsl
    rcases List.mem_append.mp hsl with h1 | h1
    · have := h sl h1
      simp only []
      omega
    · have := loopSlots_index h1
      simp only []
      omega

theorem vqInit_fold_snd (ints : List (List Coordinate)) :
    ∀ (acc : List QSlot × ℕ),
    (ints.foldl (fun (a : List QSlot × ℕ) r =>
        (a.1 ++ loopSlots a.2 (r.length - 1), a.2 + (r.length - 1))) acc).2
      = acc.2 + (ints.map (fun r => r.length - 1)).sum := by
  induction ints with
  | nil => intro acc; simp
  | cons r rest ih =>
    intro acc
    simp only [List.foldl_cons, List.map_cons, List.sum_cons, ih]
    omega

/-- The initial queue and vertex table satisfy the safety invariant: slot i
holds real-index i, the table has one Tree record per slot. -/
theorem initial_SlotsInv (p : Polygon) (o : Bool) :
    SlotsInv (initialize_from_polygon p o) (vqInitFromPolygon p) := by
  intro pos hp hdone
  have hmem : (vqInitFromPolygon p).slotAt pos ∈ (vqInitFromPolygon p).content := by
    rw [VertexQueue.slotAt, List.getD_eq_getElem _ _ hp]
    exact List.getElem_mem _
  have hbound : ((vqInitFromPolygon p).slotAt pos).index
      < (p.exterior.length - 1) + (p.interiors.map (fun r => r.length - 1)).sum := by
    have hmem2 : (vqInitFromPolygon p).slotAt pos ∈
        loopSlots 0 (p.exterior.length - 1) ++
          (p.interiors.foldl (fun (acc : List QSlot × ℕ) r =>
            (acc.1 ++ loopSlots acc.2 (r.length - 1), acc.2 + (r.length - 1)))
            ([], p.exterior.length - 1)).1 := hmem
    rcases List.mem_append.mp hmem2 with h1 | h1
    · have := loopSlots_index h1
      omega
    · have hb := vqInit_fold_bound p.interiors ([], p.exterior.length - 1)
        (by intro sl hsl; simp at hsl) _ h1
      rw [vqInit_fold_snd] at hb
      exact hb
  rw [TreeAt, List.getD_eq_getElem _ _ (by rw [initVV_length]; exact hbound)]
  exact initialize_isTree p o _ (List.getElem_mem _)

/-- C9: for every input polygon, orientation, fuel and cut-off distance
d ≥ 0, every non-done slot of the queue returned by `get_vertex_queue`
resolves to a real-index whose vertex-table record is a Tree variant, so
the `unwrap_ray`/`unwrap_base_ray` panics of `apply_vertex_queue` are
unreachable. -/
theorem unwrap_tree_safe (p : Polygon) (orient : Bool) (fuel : ℕ) (d : ℝ) (hd : 0 ≤ d) :
    ∀ sl ∈ ((skeleton_of_polygon p orient fuel).get_vertex_queue d).content,
      sl.done = false →
      ((skeleton_of_polygon p orient fuel).ray_vector.getD sl.index default).isTree := by
  have hinv : RunInv (vqInitFromPolygon p)
      (init_pq orient (initialize_from_polygon p orient) (vqInitFromPolygon p) fuel) := by
    apply simLoop_RunInv
    constructor
    · rfl
    · intro k
      rw [show (([] : List Event).take k) = [] from by simp]
      exact initial_SlotsInv p orient
  intro sl hsl hdone
  simp only [skeleton_of_polygon, Skeleton.get_vertex_queue] at hsl
  obtain ⟨k, hk⟩ := replayGo_prefix
    ((init_pq orient (initialize_from_polygon p orient) (vqInitFromPolygon p) fuel).log)
    (vqInitFromPolygon p) d
  rw [hk] at hsl
  obtain ⟨pos, hpos, heq⟩ := List.mem_iff_getElem.mp hsl
  have hslot : (replayPrefix (vqInitFromPolygon p)
      (((init_pq orient (initialize_from_polygon p orient) (vqInitFromPolygon p)
        fuel).log).take k)).slotAt pos = sl := by
    rw [VertexQueue.slotAt, List.getD_eq_getElem _ _ hpos]
    exact heq
  have ht := hinv.2 k pos hpos (by rw [hslot]; exact hdone)
  rw [hslot] at ht
  simp only [skeleton_of_polygon]
  exact ht

/-- C9 witness: the unit-square skeleton at cut-off 1/5. -/
theorem unwrap_tree_safe_witness :
    (0 : ℝ) ≤ 1 / 5
    ∧ ∀ sl ∈ ((skeleton_of_polygon squareP true 8).get_vertex_queue (1 / 5)).content,
        sl.done = false →
        ((skeleton_of_polygon squareP true 8).ray_vector.getD sl.index default).isTree :=
  ⟨by norm_num, unwrap_tree_safe squareP true 8 (1 / 5) (by norm_num)⟩

/-! ### Claim C10: hole nesting in apply_vertex_queue -/

theorem assignCW_exteriors (ls : LineString) (polys : List GPolygon) :
    (assignCW ls polys).map GPolygon.exterior = polys.map GPolygon.exterior := by
  induction polys with
  | nil => rfl
  | cons p rest ih =>
    simp only [assignCW]
    by_cases h : gContainsLS p ls
    · rw [if_pos h]
      simp
    · rw [if_neg h]
      simp [ih]

theorem assignCW_mem (ls : LineString) (polys : List GPolygon) (gp : GPolygon)
    (h : gp ∈ assignCW ls polys) :
    gp ∈ polys ∨ ∃ p ∈ polys, gp = { p with interiors := p.interiors ++ [ls] } := by
  induction polys with
  | nil => simp [assignCW] at h
  | cons p rest ih =>
    simp only [assignCW] at h
    by_cases hc : gContainsLS p ls
    · rw [if_pos hc] at h
      rcases List.mem_cons.mp h with rfl | h2
      · exact Or.inr ⟨p, List.mem_cons_self p rest, rfl⟩
      · exact Or.inl (List.mem_cons_of_mem _ h2)
    · rw [if_neg hc] at h
      rcases List.mem_cons.mp h with rfl | h2
      · exact Or.inl (List.mem_cons_self gp rest)
      · rcases ih h2 with h3 | ⟨q, hq, rfl⟩
        · exact Or.inl (List.mem_cons_of_mem _ h3)
        · exact Or.inr ⟨q, List.mem_cons_of_mem _ hq, rfl⟩

/-- The exteriors of the nested polygons are exactly the counter-clockwise
rings, in emission order. -/
theorem nestRings_exteriors (lsv : List LineString) :
    (nestRings lsv).map GPolygon.exterior
      = lsv.filter (fun ls => decide (winding_order ls = some WindingOrder.ccw)) := by
  simp only [nestRings]
  have hfold : ∀ (cws : List LineString) (acc : List GPolygon),
      ((cws.foldl (fun res ls => assignCW ls res) acc).map GPolygon.exterior)
        = acc.map GPolygon.exterior := by
    intro cws
    induction cws with
    | nil => intro acc; rfl
    | cons c rest ih =>
      intro acc
      simp only [List.foldl_cons, ih, assignCW_exteriors]
  rw [hfold]
  induction lsv with
  | nil => rfl
  | cons ls rest ih =>
    by_cases h : winding_order ls = some WindingOrder.ccw
    · simp [h, ih]
    · simp [h, ih]

/-- Every interior ring of a nested polygon is a clockwise input ring. -/
theorem nestRings_interiors (lsv : List LineString) (gp : GPolygon)
    (h : gp ∈ nestRings lsv) :
    ∀ hole ∈ gp.interiors, hole ∈ lsv ∧ winding_order hole = some WindingOrder.cw := by
  have key : ∀ (cws : List LineString) (acc : List GPolygon),
      (∀ c ∈ cws, c ∈ lsv ∧ winding_order c = some WindingOrder.cw) →
      (∀ q ∈ acc, ∀ hole ∈ q.interiors,
        hole ∈ lsv ∧ winding_order hole = some WindingOrder.cw) →
      ∀ q ∈ cws.foldl (fun res ls => assignCW ls res) acc, ∀ hole ∈ q.interiors,
        hole ∈ lsv ∧ winding_order hole = some WindingOrder.cw := by
    intro cws
    induction cws with
    | nil => exact fun acc _ hacc => hacc
    | cons c rest ih =>
      intro acc hcw hacc
      simp only [List.foldl_cons]
      apply ih
      · intro x hx
        exact hcw x (List.mem_cons_of_mem _ hx)
      · intro q hq hole hhole
        rcases assignCW_mem c acc q hq with h1 | ⟨pp, hpp, rfl⟩
        · exact hacc q h1 hole hhole
        · rcases List.mem_append.mp hhole with h2 | h2
          · exact hacc pp hpp hole h2
          · rw [List.mem_singleton] at h2
            subst h2
            exact hcw hole (List.mem_cons_self hole rest)
  simp only [nestRings] at h
  refine key _ _ ?_ ?_ gp h
  · intro c hc
    simp only [List.mem_filterMap] at hc
    obtain ⟨ls, hls, hif⟩ := hc
    by_cases h2 : winding_order ls = some WindingOrder.cw
    · rw [if_pos h2] at hif
      rw [Option.some_inj] at hif
      subst hif
      exact ⟨hls, h2⟩
    · rw [if_neg h2] at hif
      exact absurd hif (by simp)
  · intro q hq
    simp only [List.mem_filterMap] at hq
    obtain ⟨ls, hls, hif⟩ := hq
    by_cases h2 : winding_order ls = some WindingOrder.ccw
    · rw [if_pos h2] at hif
      rw [Option.some_inj] at hif
      subst hif
      intro hole hh
      simp at hh
    · rw [if_neg h2] at hif
      exact absurd hif (by simp)

/-- A clockwise ring contained in no polygon is dropped. -/
theorem assignCW_of_not_contained (ls : LineString) (polys : List GPolygon)
    (h : ∀ q ∈ polys, ¬ gContainsLS q ls) : assignCW ls polys = polys := by
  induction polys with
  | nil => rfl
  | cons p rest ih =>
    simp only [assignCW]
    rw [if_neg (h p (List.mem_cons_self p rest))]
    rw [ih (fun q hq => h q (List.mem_cons_of_mem _ hq))]

/-- A clockwise ring is pushed onto the interiors of the first polygon that
contains it. -/
theorem assignCW_first_container (ls : LineString) (polys1 polys2 : List GPolygon)
    (p : GPolygon) (h1 : ∀ q ∈ polys1, ¬ gContainsLS q ls) (h2 : gContainsLS p ls) :
    assignCW ls (polys1 ++ p :: polys2)
      = polys1 ++ { p with interiors := p.interiors ++ [ls] } :: polys2 := by
  induction polys1 with
  | nil =>
    simp only [List.nil_append, assignCW, if_pos h2]
  | cons q rest ih =>
    simp only [List.cons_append, assignCW]
    rw [if_neg (h1 q (List.mem_cons_self q rest))]
    simp only [List.append_eq]
    rw [ih (fun r hr => h1 r (List.mem_cons_of_mem _ hr))]

/-- C10: `apply_vertex_queue` nests the emitted rings: the output polygons
are the counter-clockwise rings in emission order; every hole is a clockwise
input ring; a clockwise ring goes to the first polygon (in order) that
contains it, and is dropped when no polygon contains it; indeterminate
rings appear neither as exteriors nor as holes. -/
theorem ring_nesting_spec :
    (∀ (s : Skeleton) (vq : VertexQueue) (dd : ℝ),
      Skeleton.apply_vertex_queue s vq dd
        = nestRings (ringsGo s.ray_vector dd vq.iter none []))
    ∧ (∀ lsv : List LineString, (nestRings lsv).map GPolygon.exterior
        = lsv.filter (fun ls => decide (winding_order ls = some WindingOrder.ccw)))
    ∧ (∀ (lsv : List LineString) (gp : GPolygon), gp ∈ nestRings lsv →
        ∀ hole ∈ gp.interiors, hole ∈ lsv ∧ winding_order hole = some WindingOrder.cw)
    ∧ (∀ (ls : LineString) (polys1 polys2 : List GPolygon) (p : GPolygon),
        (∀ q ∈ polys1, ¬ gContainsLS q ls) → gContainsLS p ls →
        assignCW ls (polys1 ++ p :: polys2)
          = polys1 ++ { p with interiors := p.interiors ++ [ls] } :: polys2)
    ∧ (∀ (ls : LineString) (polys : List GPolygon),
        (∀ q ∈ polys, ¬ gContainsLS q ls) → assignCW ls polys = polys) :=
  ⟨fun _ _ _ => rfl, nestRings_exteriors, nestRings_interiors, assignCW_first_container,
    assignCW_of_not_contained⟩

/-- A 3×3 counter-clockwise square ring. -/
def Rccw : LineString := [⟨0, 0⟩, ⟨3, 0⟩, ⟨3, 3⟩, ⟨0, 3⟩, ⟨0, 0⟩]

/-- A clockwise unit square ring inside `Rccw`. -/
def Rcw : LineString := [⟨1, 1⟩, ⟨1, 2⟩, ⟨2, 2⟩, ⟨2, 1⟩, ⟨1, 1⟩]

theorem gContains_Rccw_Rcw : gContainsLS ⟨Rccw, []⟩ Rcw := by
  refine ⟨by simp [Rcw], ?_⟩
  intro c hc
  refine ⟨?_, by intro hh hhm; simp at hhm⟩
  simp only [Rcw, List.mem_cons, List.not_mem_nil, or_false] at hc
  rcases hc with rfl | rfl | rfl | rfl | rfl <;>
    norm_num [pointInRing, crossingsCount, Rccw]

/-- C10 witness: the clockwise unit square is pushed onto the interiors of
the containing counter-clockwise square. -/
theorem ring_nesting_spec_witness :
    assignCW Rcw [⟨Rccw, []⟩] = [⟨Rccw, [Rcw]⟩] := by
  have h := ring_nesting_spec.2.2.2.1 Rcw [] [] ⟨Rccw, []⟩
    (fun q hq => absurd hq (by simp)) gContains_Rccw_Rcw
  simpa using h

/-! ### Supporting instance for claim C2: the unit square at distance 0 -/

/-- The outward initial vertex of the square at (0,0). -/
def sqV0o : VertexType :=
  .Tree ⟨⟨0, 0⟩, ⟨-1, -1⟩⟩ ⟨⟨0, 0⟩, ⟨0, 1⟩⟩ ⟨⟨0, 0⟩, ⟨1, 0⟩⟩ none 0

/-- The outward initial vertex of the square at (1,0). -/
def sqV1o : VertexType :=
  .Tree ⟨⟨1, 0⟩, ⟨1, -1⟩⟩ ⟨⟨1, 0⟩, ⟨-1, 0⟩⟩ ⟨⟨1, 0⟩, ⟨0, 1⟩⟩ none 0

/-- The outward initial vertex of the square at (1,1). -/
def sqV2o : VertexType :=
  .Tree ⟨⟨1, 1⟩, ⟨1, 1⟩⟩ ⟨⟨1, 1⟩, ⟨0, -1⟩⟩ ⟨⟨1, 1⟩, ⟨-1, 0⟩⟩ none 0

/-- The outward initial vertex of the square at (0,1). -/
def sqV3o : VertexType :=
  .Tree ⟨⟨0, 1⟩, ⟨-1, 1⟩⟩ ⟨⟨0, 1⟩, ⟨1, 0⟩⟩ ⟨⟨0, 1⟩, ⟨0, -1⟩⟩ none 0

/-- The outward initial vertex table of the square. -/
def sqVVo : List VertexType := [sqV0o, sqV1o, sqV2o, sqV3o]

theorem sq_inito : initialize_from_polygon squareP false = sqVVo := by
  norm_num [initialize_from_polygon, squareP, sqVVo, sqV0o, sqV1o, sqV2o, sqV3o, loopVertices,
    List.range_succ, init_tree_vertex, Ray.new, Ray.bisector, Coordinate.normalize,
    Coordinate.norm, Coordinate.divScalar, Coordinate.add, Coordinate.sub, Coordinate.neg,
    Coordinate.outer_product, Ray.point_by_ratio, Coordinate.scale, Coordinate.dist_ray,
    Real.sqrt_one]

theorem sqVVo_g0 : sqVVo.getD 0 default = sqV0o := rfl

theorem sqVVo_g1 : sqVVo.getD 1 default = sqV1o := rfl

theorem sqVVo_g2 : sqVVo.getD 2 default = sqV2o := rfl

theorem sqVVo_g3 : sqVVo.getD 3 default = sqV3o := rfl

theorem sqVVo_e0 : sqVVo[(0 : ℕ)]? = some sqV0o := rfl

theorem sqVVo_e1 : sqVVo[(1 : ℕ)]? = some sqV1o := rfl

theorem sqVVo_e2 : sqVVo[(2 : ℕ)]? = some sqV2o := rfl

theorem sqVVo_e3 : sqVVo[(3 : ℕ)]? = some sqV3o := rfl

theorem sq_shrinko0 : make_shrink_event (.PointerIndex 0) sqQ sqVVo true = [] := by
  norm_num [make_shrink_event, shrinkEventFor, sqQ_rv0, sqQ_lv0, sqQ_real0, sqQ_real1, sqVVo_g0, sqVVo_g1,
    sqVVo_e0, sqVVo_e1, sqV0o, sqV1o, VertexType.unwrap_ray, VertexType.unwrap_base_ray,
    Ray.is_intersect, Ray.is_parallel, Ray.interParam, Coordinate.outer_product,
    Coordinate.sub, feq, fneq, eps]

theorem sq_shrinko1 : make_shrink_event (.PointerIndex 1) sqQ sqVVo true = [] := by
  norm_num [make_shrink_event, shrinkEventFor, sqQ_rv1, sqQ_lv1, sqQ_real1, sqQ_real2, sqVVo_g1, sqVVo_g2,
    sqVVo_e1, sqVVo_e2, sqV1o, sqV2o, VertexType.unwrap_ray, VertexType.unwrap_base_ray,
    Ray.is_intersect, Ray.is_parallel, Ray.interParam, Coordinate.outer_product,
    Coordinate.sub, feq, fneq, eps]

theorem sq_shrinko2 : make_shrink_event (.PointerIndex 2) sqQ sqVVo true = [] := by
  norm_num [make_shrink_event, shrinkEventFor, sqQ_rv2, sqQ_lv2, sqQ_real2, sqQ_real3, sqVVo_g2, sqVVo_g3,
    sqVVo_e2, sqVVo_e3, sqV2o, sqV3o, VertexType.unwrap_ray, VertexType.unwrap_base_ray,
    Ray.is_intersect, Ray.is_parallel, Ray.interParam, Coordinate.outer_product,
    Coordinate.sub, feq, fneq, eps]

theorem sq_shrinko3 : make_shrink_event (.PointerIndex 3) sqQ sqVVo true = [] := by
  norm_num [make_shrink_event, shrinkEventFor, sqQ_rv3, sqQ_lv3, sqQ_real3, sqQ_real0, sqVVo_g3, sqVVo_g0,
    sqVVo_e3, sqVVo_e0, sqV3o, sqV0o, VertexType.unwrap_ray, VertexType.unwrap_base_ray,
    Ray.is_intersect, Ray.is_parallel, Ray.interParam, Coordinate.outer_product,
    Coordinate.sub, feq, fneq, eps]

theorem sq_iter_lem : sqQ.iter =
    [(0, .PointerIndex 0, 0), (0, .PointerIndex 1, 1), (0, .PointerIndex 2, 2),
     (0, .PointerIndex 3, 3)] := by
  decide

theorem sq_splito0 : make_split_event (.PointerIndex 0) sqQ sqVVo false = [] := by
  norm_num [make_split_event, find_split_vertex, sq_iter_lem, splitCandFor,
    List.filterMap_cons, List.filterMap_nil, sortCands, List.foldl_nil,
    sqQ_rv0, sqQ_rv1, sqQ_rv2, sqQ_rv3, sqQ_lv0, sqQ_real0,
    sqVVo_g0, sqVVo_e0, sqV0o, VertexType.unwrap_base_ray, Coordinate.outer_product,
    fleq, fgeq, feq, eps]

theorem sq_splito1 : make_split_event (.PointerIndex 1) sqQ sqVVo false = [] := by
  norm_num [make_split_event, find_split_vertex, sq_iter_lem, splitCandFor,
    List.filterMap_cons, List.filterMap_nil, sortCands, List.foldl_nil,
    sqQ_rv0, sqQ_rv1, sqQ_rv2, sqQ_rv3, sqQ_lv1, sqQ_real1,
    sqVVo_g1, sqVVo_e1, sqV1o, VertexType.unwrap_base_ray, Coordinate.outer_product,
    fleq, fgeq, feq, eps]

theorem sq_splito2 : make_split_event (.PointerIndex 2) sqQ sqVVo false = [] := by
  norm_num [make_split_event, find_split_vertex, sq_iter_lem, splitCandFor,
    List.filterMap_cons, List.filterMap_nil, sortCands, List.foldl_nil,
    sqQ_rv0, sqQ_rv1, sqQ_rv2, sqQ_rv3, sqQ_lv2, sqQ_real2,
    sqVVo_g2, sqVVo_e2, sqV2o, VertexType.unwrap_base_ray, Coordinate.outer_product,
    fleq, fgeq, feq, eps]

theorem sq_splito3 : make_split_event (.PointerIndex 3) sqQ sqVVo false = [] := by
  norm_num [make_split_event, find_split_vertex, sq_iter_lem, splitCandFor,
    List.filterMap_cons, List.filterMap_nil, sortCands, List.foldl_nil,
    sqQ_rv0, sqQ_rv1, sqQ_rv2, sqQ_rv3, sqQ_lv3, sqQ_real3,
    sqVVo_g3, sqVVo_e3, sqV3o, VertexType.unwrap_base_ray, Coordinate.outer_product,
    fleq, fgeq, feq, eps]

theorem sq_eventso : initialEvents false sqVVo sqQ = [] := by
  rw [initialEvents, sq_iter_lem]
  simp only [List.foldl_cons, List.foldl_nil]
  rw [sq_shrinko0, sq_splito0, sq_shrinko1, sq_splito1, sq_shrinko2, sq_splito2,
    sq_shrinko3, sq_splito3]
  rfl

theorem sq_skeletono (fuel : ℕ) :
    skeleton_of_polygon squareP false fuel = ⟨sqVVo, [], sqQ⟩ := by
  simp only [skeleton_of_polygon, init_pq, sq_inito, sq_vq, sq_eventso]
  cases fuel <;> rfl

/-- The original square ring, closed. -/
def sqRingo : List Coordinate := [⟨0, 0⟩, ⟨1, 0⟩, ⟨1, 1⟩, ⟨0, 1⟩, ⟨0, 0⟩]

theorem sq_emito0 : emitCoord sqVVo 0 0 = ⟨0, 0⟩ := by
  norm_num [emitCoord, sqVVo_g0, sqVVo_e0, sqV0o, VertexType.unwrap_ray,
    VertexType.time_elapsed, Ray.point_by_ratio, Coordinate.add, Coordinate.scale]

theorem sq_emito1 : emitCoord sqVVo 0 1 = ⟨1, 0⟩ := by
  norm_num [emitCoord, sqVVo_g1, sqVVo_e1, sqV1o, VertexType.unwrap_ray,
    VertexType.time_elapsed, Ray.point_by_ratio, Coordinate.add, Coordinate.scale]

theorem sq_emito2 : emitCoord sqVVo 0 2 = ⟨1, 1⟩ := by
  norm_num [emitCoord, sqVVo_g2, sqVVo_e2, sqV2o, VertexType.unwrap_ray,
    VertexType.time_elapsed, Ray.point_by_ratio, Coordinate.add, Coordinate.scale]

theorem sq_emito3 : emitCoord sqVVo 0 3 = ⟨0, 1⟩ := by
  norm_num [emitCoord, sqVVo_g3, sqVVo_e3, sqV3o, VertexType.unwrap_ray,
    VertexType.time_elapsed, Ray.point_by_ratio, Coordinate.add, Coordinate.scale]

theorem sq_ringso : ringsGo sqVVo 0 sqQ.iter none [] = [sqRingo] := by
  rw [sq_iter_lem]
  simp only [ringsGo, sq_emito0, sq_emito1, sq_emito2, sq_emito3]
  norm_num [sqRingo, lsClose]

theorem sq_nesto : nestRings [sqRingo] = [⟨sqRingo, []⟩] := by
  have hw : winding_order sqRingo = some .ccw := by
    rw [winding_order, if_pos]
    norm_num [sqRingo, shoelace2, Coordinate.outer_product]
  simp [nestRings, hw]

/-- C2 instance: buffering the unit square by 0 returns exactly the input
polygon (the outward wavefront of the square schedules no events, so the
log is empty and every emitted vertex is the original position). -/
theorem buffer_polygon_square_identity (fuel : ℕ) :
    buffer_polygon fuel squareP 0 = [⟨sqRingo, []⟩] := by
  have horient : decide ((0 : ℝ) < 0) = false := decide_eq_false (by norm_num)
  have habs : |(0 : ℝ)| = 0 := by norm_num
  simp only [buffer_polygon, horient, habs, sq_skeletono]
  rw [show Skeleton.get_vertex_queue ⟨sqVVo, [], sqQ⟩ 0 = sqQ from rfl]
  rw [Skeleton.apply_vertex_queue]
  simp only [sq_ringso, sq_nesto]

/-! ### Supporting lemmas for claim C3: replay under a time-sorted log -/

/-- Unconditionally, the replay loop of `get_vertex_queue` applies exactly
the longest prefix of the log whose times are at most d. -/
theorem replayGo_takeWhile (d : ℝ) (evs : List Event) (q0 : VertexQueue) :
    replayGo d q0 evs
      = replayPrefix q0 (evs.takeWhile (fun e => decide (e.unwrap_time ≤ d))) := by
  induction evs generalizing q0 with
  | nil => rfl
  | cons e rest ih =>
    by_cases ht : e.unwrap_time ≤ d
    · have htw : (e :: rest).takeWhile (fun e => decide (e.unwrap_time ≤ d))
          = e :: rest.takeWhile (fun e => decide (e.unwrap_time ≤ d)) := by
        simp [List.takeWhile_cons, ht]
      rw [htw]
      simp only [replayGo, if_pos ht, replayPrefix, List.foldl_cons]
      exact ih _
    · have htw : (e :: rest).takeWhile (fun e => decide (e.unwrap_time ≤ d)) = [] := by
        simp [List.takeWhile_cons, ht]
      rw [htw]
      simp only [replayGo, if_neg ht]
      rfl

/-- On a time-sorted log, the longest prefix with times at most d is exactly
the set of logged events with times at most d. -/
theorem takeWhile_eq_filter_of_sorted (d : ℝ) (evs : List Event)
    (hsort : evs.Pairwise (fun a b => a.unwrap_time ≤ b.unwrap_time)) :
    evs.takeWhile (fun e => decide (e.unwrap_time ≤ d))
      = evs.filter (fun e => decide (e.unwrap_time ≤ d)) := by
  induction evs with
  | nil => rfl
  | cons e rest ih =>
    rcases List.pairwise_cons.mp hsort with ⟨hhead, htail⟩
    by_cases ht : e.unwrap_time ≤ d
    · simp [List.takeWhile_cons, List.filter_cons, ht, ih htail]
    · have hall : rest.filter (fun e => decide (e.unwrap_time ≤ d)) = [] := by
        rw [List.filter_eq_nil_iff]
        intro x hx
        simp only [decide_eq_true_eq]
        intro hc
        exact ht (le_trans (hhead x hx) hc)
      simp [List.takeWhile_cons, List.filter_cons, ht, hall]

/-- C3, conditional half: on a time-sorted log, `get_vertex_queue(d)` is the
initial snapshot with exactly the logged events of time at most d applied in
log order, a cleanup after each. -/
theorem get_vertex_queue_sorted_char (sk : Skeleton) (d : ℝ)
    (hsort : sk.event_queue.Pairwise (fun a b => a.unwrap_time ≤ b.unwrap_time)) :
    sk.get_vertex_queue d
      = replayPrefix sk.initial_vertex_queue
          (sk.event_queue.filter (fun e => decide (e.unwrap_time ≤ d))) := by
  rw [Skeleton.get_vertex_queue, replayGo_takeWhile, takeWhile_eq_filter_of_sorted _ _ hsort]

end

end SSkel

